import Mathlib

/-!
Feed-ingestion pipeline of rss-aggregator-backend.

Shallow embedding of `helper/scraper.go` (StartScraping, ScrapeFeed, FetchFeed)
and of `ParsePubDate` from `helper/json.go`.

Conventions of the embedding

* A Go `error` is its message (`err.Error()`), a `String`.
* A Go function returning `(value, error)` returns a pair of options or an
  `Except`; library and database calls are fields of the records `Runtime`
  and `Queries`, which act on an abstract world state `σ`.
* Every function also returns the list of observable events it produced, in
  program order: database calls with their outcome, the HTTP request, log
  records (message only, fields omitted) and the WaitGroup operations.
* In `tick` and `runWorkers` the goroutines of one tick are run one after the
  other, each to completion, in an order chosen by a scheduling function. The
  interleaving of the scheduler, the workers and the ticker is the subject of the
  step machine `Machine`, which keeps the control and leaves the data out.
* `HashPassword` of `helper/jwt.go` takes the library function as a parameter.
-/

namespace RssAggregator

/-! ## Data model -/

/-- Identifier, `uuid.UUID`. -/
abbrev UUID := Nat

/-- Point in time, `time.Time`, counted in seconds. -/
abbrev Instant := Nat

/-- Nullable timestamp, `sql.NullTime`. -/
structure NullTime where
  Time : Instant
  Valid : Bool
deriving DecidableEq, Repr

/-- Nullable text, `sql.NullString`. -/
structure NullString where
  String : String
  Valid : Bool
deriving DecidableEq, Repr

/-- Feed row, `database.Feed`, with the fields read by `models.DatabaseFeedToFeed`. -/
structure Feed where
  ID : UUID
  CreatedAt : Instant
  UpdatedAt : Instant
  Name : String
  Url : String
  UserID : UUID
  LastFetchedAt : NullTime
deriving DecidableEq, Repr

/-- Post row, `database.Post`, with the fields read by `models.DatabasePostToPost`. -/
structure Post where
  ID : UUID
  CreatedAt : Instant
  UpdatedAt : Instant
  Title : String
  Url : String
  Description : NullString
  PublishedAt : NullTime
  FeedID : UUID
deriving DecidableEq, Repr

/-- Argument of `CreatePost`, as built in `ScrapeFeed`. -/
structure CreatePostParams where
  ID : UUID
  CreatedAt : Instant
  UpdatedAt : Instant
  FeedID : UUID
  Title : String
  Description : NullString
  Url : String
  PublishedAt : NullTime
deriving DecidableEq, Repr

/-- One item of a syndication document, with the four fields `ScrapeFeed` reads. -/
structure RSSItem where
  Title : String
  Link : String
  Description : String
  PubDate : String
deriving DecidableEq, Repr

/-- Channel of a syndication document: `ScrapeFeed` reads its items only. -/
structure RSSChannel where
  Item : List RSSItem
deriving DecidableEq, Repr

/-- Decoded syndication document, `models.RSSFeed`. -/
structure RSSFeed where
  Channel : RSSChannel
deriving DecidableEq, Repr

/-- Raw bytes of a response body. -/
abbrev Bytes := List Nat

/-- HTTP response: its status code and what reading its body to the end gives. -/
structure Response where
  StatusCode : Nat
  Body : Except String Bytes

/-- Observable events, in program order. -/
inductive Event where
  | Tick
  | GetNextFeedsToFetch (limit : Int) (err : Option String)
  | Add (delta : Int)
  | Go (feed : Feed)
  | Wait
  | Done
  | MarkFeedFetched (id : UUID) (err : Option String)
  | Get (url : String) (timeout : Nat)
  | CreatePost (arg : CreatePostParams) (err : Option String)
  | Error (msg : String)
  | Info (msg : String)
  | Panic (msg : String)
deriving DecidableEq, Repr

/-- The three queries of `database.Queries` that the scraper calls. -/
structure Queries (σ : Type) where
  GetNextFeedsToFetch : Int → σ → Except String (List Feed) × σ
  MarkFeedFetched : UUID → σ → Except String Feed × σ
  CreatePost : CreatePostParams → σ → Except String Post × σ

/-- Library calls of the scraper: `uuid.New`, `time.Now`, `http.Client.Get` with
its timeout in seconds, `xml.Unmarshal` into an `RSSFeed`, `dateparse.ParseAny`. -/
structure Runtime (σ : Type) where
  New : σ → UUID × σ
  Now : σ → Instant × σ
  Get : Nat → String → σ → Except String Response × σ
  Unmarshal : Bytes → Except String RSSFeed
  ParseAny : String → Except String Instant

/-! ## Helpers of the Go runtime -/

/-- Conversion `int32(n)` of a Go `int`: wraps modulo `2^32` into the signed range. -/
def int32 (n : Int) : Int :=
  (n + 2147483648) % 4294967296 - 2147483648

/-- Substring test, `strings.Contains`. -/
def Contains (s substr : String) : Bool :=
  s.data.tails.any (fun t => substr.data.isPrefixOf t)

/-- Text that `ScrapeFeed` looks for in the message of a failed insert. -/
def duplicateKeyText : String :=
  "duplicate key value violates unique constraint"

/-! ## helper/json.go -/

/-- ParsePubDate of `helper/json.go`: the parsed time as a valid `NullTime`, or
the zero `NullTime` and a wrapped error, which is also logged. -/
def ParsePubDate {σ : Type} (rt : Runtime σ) (pubDate : String) :
    (NullTime × Option String) × List Event :=
  match rt.ParseAny pubDate with
  | .error err =>
    (({ Time := 0, Valid := false }, some ("unable to parse pubDate: " ++ err)),
      [Event.Error "Unable to parse pubDate"])
  | .ok t => (({ Time := t, Valid := true }, none), [])

/-! ## helper/scraper.go -/

/-- FetchFeed of `helper/scraper.go`: one GET with a 10 second timeout, the body
read to the end, then decoded; any of the three failing gives `(nil, err)`. -/
def FetchFeed {σ : Type} (rt : Runtime σ) (feedURL : String) (s : σ) :
    (Option RSSFeed × Option String) × σ × List Event :=
  match rt.Get 10 feedURL s with
  | (.error err, s1) =>
    ((none, some err), s1, [Event.Get feedURL 10, Event.Error "Failed to fetch feed"])
  | (.ok resp, s1) =>
    match resp.Body with
    | .error err =>
      ((none, some err), s1,
        [Event.Get feedURL 10, Event.Error "Failed to read response body"])
    | .ok dat =>
      match rt.Unmarshal dat with
      | .error err =>
        ((none, some err), s1,
          [Event.Get feedURL 10, Event.Error "Failed to unmarshal XML"])
      | .ok rssFeed => ((some rssFeed, none), s1, [Event.Get feedURL 10])

/-- Row that `ScrapeFeed` builds for an item (lines 86 to 95). -/
def postParams (feed : Feed) (item : RSSItem) (id : UUID) (createdAt updatedAt : Instant)
    (publishedAt : NullTime) : CreatePostParams :=
  { ID := id
    CreatedAt := createdAt
    UpdatedAt := updatedAt
    FeedID := feed.ID
    Title := item.Title
    Description := { String := item.Description, Valid := true }
    Url := item.Link
    PublishedAt := publishedAt }

/-- The loop over the items in `ScrapeFeed` (lines 74 to 108). -/
def insertItems {σ : Type} (db : Queries σ) (rt : Runtime σ) (feed : Feed) :
    List RSSItem → σ → σ × List Event
  | [], s => (s, [])
  | item :: rest, s =>
    match ParsePubDate rt item.PubDate with
    | ((_, some _), ev) =>
      let r := insertItems db rt feed rest s
      (r.1, ev ++ Event.Error "Couldn't parse Published Date" :: r.2)
    | ((publishedAt, none), ev) =>
      let i := rt.New s
      let c := rt.Now i.2
      let u := rt.Now c.2
      let arg := postParams feed item i.1 c.1 u.1 publishedAt
      match db.CreatePost arg u.2 with
      | (.error err, s1) =>
        if Contains err duplicateKeyText then
          let r := insertItems db rt feed rest s1
          (r.1, ev ++ Event.CreatePost arg (some err) :: r.2)
        else
          let r := insertItems db rt feed rest s1
          (r.1, ev ++ Event.CreatePost arg (some err)
            :: Event.Error "Couldn't create post" :: r.2)
      | (.ok _, s1) =>
        let r := insertItems db rt feed rest s1
        (r.1, ev ++ Event.CreatePost arg none :: r.2)

/-- ScrapeFeed of `helper/scraper.go`, the worker of one feed. The deferred
`wg.Done()` is the last event on every path. Reading the items of a nil document
that came without an error would panic; `FetchFeed` never returns that. -/
def ScrapeFeed {σ : Type} (db : Queries σ) (rt : Runtime σ) (feed : Feed) (s : σ) :
    σ × List Event :=
  match db.MarkFeedFetched feed.ID s with
  | (.error err, s1) =>
    (s1, [Event.MarkFeedFetched feed.ID (some err),
      Event.Error "Couldn't mark feed fetched", Event.Done])
  | (.ok _, s1) =>
    match FetchFeed rt feed.Url s1 with
    | ((_, some _), s2, ev) =>
      (s2, Event.MarkFeedFetched feed.ID none :: ev
        ++ [Event.Error "Couldn't collect feed", Event.Done])
    | ((none, none), s2, ev) =>
      (s2, Event.MarkFeedFetched feed.ID none :: ev
        ++ [Event.Panic "nil pointer dereference", Event.Done])
    | ((some feedData, none), s2, ev) =>
      let r := insertItems db rt feed feedData.Channel.Item s2
      (r.1, Event.MarkFeedFetched feed.ID none :: ev ++ r.2
        ++ [Event.Info "Feed %s collected, %v posts found", Event.Done])

/-- The workers of one batch, each run to completion, in the given order. -/
def runWorkers {σ : Type} (db : Queries σ) (rt : Runtime σ) :
    List Feed → σ → σ × List Event
  | [], s => (s, [])
  | feed :: rest, s =>
    let r := ScrapeFeed db rt feed s
    let q := runWorkers db rt rest r.1
    (q.1, r.2 ++ q.2)

/-- The dispatch loop of `StartScraping` (lines 37 to 40). -/
def dispatch (feeds : List Feed) : List Event :=
  feeds.flatMap (fun feed => [Event.Add 1, Event.Go feed])

/-- One iteration of the loop of `StartScraping` (lines 27 to 41); `sched` is
the order in which the dispatched goroutines run. -/
def tick {σ : Type} (db : Queries σ) (rt : Runtime σ) (sched : List Feed → List Feed)
    (concurrency : Int) (s : σ) : σ × List Event :=
  match db.GetNextFeedsToFetch (int32 concurrency) s with
  | (.error err, s1) =>
    (s1, [Event.GetNextFeedsToFetch (int32 concurrency) (some err),
      Event.Error "Couldn't get next feeds to fetch"])
  | (.ok feeds, s1) =>
    let r := runWorkers db rt (sched feeds) s1
    (r.1, Event.GetNextFeedsToFetch (int32 concurrency) none
      :: Event.Info "Found %v feeds to fetch!" :: dispatch feeds ++ r.2 ++ [Event.Wait])

/-- The loop `for ; ; <-ticker.C` of `StartScraping`, cut after `n` iterations:
the first iteration starts at once, each later one after a receive from the ticker. -/
def iterate {σ : Type} (db : Queries σ) (rt : Runtime σ) (sched : List Feed → List Feed)
    (concurrency : Int) : Nat → σ → σ × List Event
  | 0, s => (s, [])
  | n + 1, s =>
    let r := tick db rt sched concurrency s
    let q := iterate db rt sched concurrency n r.1
    (q.1, r.2 ++ (if n = 0 then [] else [Event.Tick]) ++ q.2)

/-- StartScraping of `helper/scraper.go`, observed for its first `n` iterations. -/
def StartScraping {σ : Type} (db : Queries σ) (rt : Runtime σ)
    (sched : List Feed → List Feed) (concurrency : Int) (n : Nat) (s : σ) :
    σ × List Event :=
  let r := iterate db rt sched concurrency n s
  (r.1, Event.Info "Collecting feeds every %s using %v goroutines..." :: r.2)

/-! ## The Feed Store and the Post Store

`internal/database` is generated from SQL that is not part of the sources read
here, so the store is written from its description in the specification. -/

/-- Modelled from the spec: the state behind `database.Queries` (package
`internal/database`, its SQL schema and queries), namely the feed rows, the post
rows, the clock that stamps them and the supply of fresh identifiers. -/
structure Store where
  now : Instant
  next : UUID
  feeds : List Feed
  posts : List Post
deriving DecidableEq, Repr

/-- Modelled from the spec: how the surroundings answer during one run, that is
the failures of the collaborators that `SelectFeedsToFetch`, `MarkFeedFetched`,
`CreatePostIfAbsent` and `FetchBytes` may report as `error`. `elapse` is the time a
call takes when it starts at a given instant; `select`, `mark` and `create` are
store failures other than a violation of the (feed, link) key, by request; `get` is the answer
of the network for a URL. -/
structure Faults where
  elapse : Instant → Nat
  select : Option String
  mark : UUID → Option String
  create : UUID → String → Option String
  get : String → Except String Response

/-- Modelled from the spec: the stale-first order of `SelectFeedsToFetch` (the SQL
of `internal/database`), in which a feed never fetched comes before any other,
then the older `last_fetched_at` first. -/
def staleFirst (a b : Feed) : Bool :=
  !a.LastFetchedAt.Valid || (b.LastFetchedAt.Valid && a.LastFetchedAt.Time ≤ b.LastFetchedAt.Time)

/-- Modelled from the spec: the clock of the store (part of `internal/database` and
its server), which a call started at `s.now` advances by the time it takes. -/
def Store.elapsed (flt : Faults) (s : Store) : Store :=
  { s with now := s.now + flt.elapse s.now }

/-- Modelled from the spec: the message with which the store (`internal/database`
and its SQL schema) reports a second row with the same (feed, link) pair. -/
def uniqueViolation : String :=
  "pq: duplicate key value violates unique constraint posts_feed_id_url_key"

/-- Modelled from the spec: `SelectFeedsToFetch(limit) -> [Feed]` of
`internal/database`, which returns up to `limit` feeds ordered stale-first. -/
def Store.GetNextFeedsToFetch (flt : Faults) (limit : Int) (s : Store) :
    Except String (List Feed) × Store :=
  match flt.select with
  | some err => (.error err, s.elapsed flt)
  | none =>
    (.ok ((s.feeds.insertionSort (fun a b => staleFirst a b = true)).take limit.toNat),
      s.elapsed flt)

/-- Modelled from the spec: the row update of `MarkFeedFetched` (the SQL of
`internal/database`), which stamps the feed `id` as fetched at `t`. -/
def markRow (id : UUID) (t : Instant) (f : Feed) : Feed :=
  if f.ID = id then { f with UpdatedAt := t, LastFetchedAt := { Time := t, Valid := true } }
  else f

/-- Modelled from the spec: `MarkFeedFetched(feedID, timestamp) -> ok|error` of
`internal/database`, which writes the current timestamp to the feed's
`last_fetched_at`. It fails when the store fails or has no such feed. -/
def Store.MarkFeedFetched (flt : Faults) (id : UUID) (s : Store) :
    Except String Feed × Store :=
  match flt.mark id with
  | some err => (.error err, s.elapsed flt)
  | none =>
    let t := s.now + flt.elapse s.now
    match s.feeds.find? (fun f => f.ID = id) with
    | none => (.error "sql: no rows in result set", s.elapsed flt)
    | some f => (.ok (markRow id t f), { s with now := t, feeds := s.feeds.map (markRow id t) })

/-- Modelled from the spec: `CreatePostIfAbsent(...) -> created|duplicate|error`
of `internal/database`, an insert keyed by (feed, item URL): a row whose pair is
already present is rejected with a uniqueness violation. -/
def Store.CreatePost (flt : Faults) (arg : CreatePostParams) (s : Store) :
    Except String Post × Store :=
  match flt.create arg.FeedID arg.Url with
  | some err => (.error err, s.elapsed flt)
  | none =>
    if s.posts.any (fun p => p.FeedID = arg.FeedID ∧ p.Url = arg.Url) then
      (.error uniqueViolation, s.elapsed flt)
    else
      let row : Post :=
        { ID := arg.ID
          CreatedAt := arg.CreatedAt
          UpdatedAt := arg.UpdatedAt
          Title := arg.Title
          Url := arg.Url
          Description := arg.Description
          PublishedAt := arg.PublishedAt
          FeedID := arg.FeedID }
      (.ok row, { s with now := s.now + flt.elapse s.now, posts := s.posts ++ [row] })

/-- The queries of the scraper on the modelled store. -/
def storeQueries (flt : Faults) : Queries Store :=
  { GetNextFeedsToFetch := Store.GetNextFeedsToFetch flt
    MarkFeedFetched := Store.MarkFeedFetched flt
    CreatePost := Store.CreatePost flt }

/-- The library calls on the modelled world: identifiers are handed out in
sequence, the clock is read, a GET takes time and is answered by the network;
the XML decoder and the date parser are given. -/
def storeRuntime (flt : Faults) (unmarshal : Bytes → Except String RSSFeed)
    (parseAny : String → Except String Instant) : Runtime Store :=
  { New := fun s => (s.next, { s with next := s.next + 1 })
    Now := fun s => (s.now, s)
    Get := fun _ url s => (flt.get url, s.elapsed flt)
    Unmarshal := unmarshal
    ParseAny := parseAny }

/-- What identifies the content of a post, apart from its identifier and its
creation and update stamps. -/
structure PostContent where
  FeedID : UUID
  Title : String
  Url : String
  Description : NullString
  PublishedAt : NullTime
deriving DecidableEq, Repr

/-- Content of a stored post. -/
def Post.content (p : Post) : PostContent :=
  { FeedID := p.FeedID
    Title := p.Title
    Url := p.Url
    Description := p.Description
    PublishedAt := p.PublishedAt }

/-- Content of the post that `ScrapeFeed` stores for an item whose date parses to `t`. -/
def itemContent (feed : Feed) (item : RSSItem) (t : Instant) : PostContent :=
  { FeedID := feed.ID
    Title := item.Title
    Url := item.Link
    Description := { String := item.Description, Valid := true }
    PublishedAt := { Time := t, Valid := true } }

/-- Contents that the items of a document give: one per item whose date parses,
in document order. -/
def acceptedContents (parseAny : String → Except String Instant) (feed : Feed) :
    List RSSItem → List PostContent
  | [] => []
  | item :: rest =>
    match parseAny item.PubDate with
    | .error _ => acceptedContents parseAny feed rest
    | .ok t => itemContent feed item t :: acceptedContents parseAny feed rest

/-! ## Reading a trace -/

/-- The row of an insert attempt, if the event is one. -/
def Event.attempt : Event → Option CreatePostParams
  | Event.CreatePost arg _ => some arg
  | _ => none

/-- The insert attempts of a trace, in order. -/
def attempts (trace : List Event) : List CreatePostParams :=
  trace.filterMap Event.attempt

/-- Whether the event is the HTTP request of `FetchFeed`. -/
def Event.isGet : Event → Bool
  | Event.Get _ _ => true
  | _ => false

/-- The feed of a dispatch, if the event is one. -/
def Event.worker : Event → Option Feed
  | Event.Go feed => some feed
  | _ => none

/-- The feeds for which a worker was dispatched, in order. -/
def dispatched (trace : List Event) : List Feed :=
  trace.filterMap Event.worker

/-- Content of the row of an insert attempt. -/
def CreatePostParams.content (arg : CreatePostParams) : PostContent :=
  { FeedID := arg.FeedID
    Title := arg.Title
    Url := arg.Url
    Description := arg.Description
    PublishedAt := arg.PublishedAt }

/-- The world in which the loop issues the insert for an item: after `uuid.New`
and the two readings of the clock. -/
def insertWorld {σ : Type} (rt : Runtime σ) (s : σ) : σ :=
  (rt.Now (rt.Now (rt.New s).2).2).2

/-- The row the loop inserts for an item whose date parsed to `t`, from world `s`. -/
def insertArg {σ : Type} (rt : Runtime σ) (feed : Feed) (item : RSSItem) (s : σ)
    (t : Instant) : CreatePostParams :=
  postParams feed item (rt.New s).1 (rt.Now (rt.New s).2).1
    (rt.Now (rt.Now (rt.New s).2).2).1 { Time := t, Valid := true }

/-- The error of a store call, if it failed. -/
def failure {α : Type} : Except String α → Option String
  | .error err => some err
  | .ok _ => none

/-- What the loop logs after an insert: nothing when it succeeded or when the
message of its error contains the duplicate-key text, one error record otherwise. -/
def insertLog (out : Option String) : List Event :=
  match out with
  | none => []
  | some err =>
    if Contains err duplicateKeyText then [] else [Event.Error "Couldn't create post"]

/-- Whether a list of contents holds a post with the given (feed, link) pair. -/
def hasKey (cs : List PostContent) (feedID : UUID) (url : String) : Bool :=
  cs.any (fun c => c.FeedID = feedID ∧ c.Url = url)

/-- The contents of the Post Store after the item loop, from the contents before
it: an item is added when its date parses, the store does not fail on it and its
(feed, link) pair is not yet present. -/
def ingest (create : UUID → String → Option String)
    (parseAny : String → Except String Instant) (feed : Feed) :
    List RSSItem → List PostContent → List PostContent
  | [], cs => cs
  | item :: rest, cs =>
    match parseAny item.PubDate with
    | .error _ => ingest create parseAny feed rest cs
    | .ok t =>
      match create feed.ID item.Link with
      | some _ => ingest create parseAny feed rest cs
      | none =>
        if hasKey cs feed.ID item.Link then ingest create parseAny feed rest cs
        else ingest create parseAny feed rest (cs ++ [itemContent feed item t])

/-- The document that a worker gets for a URL, if the request, the reading of the
body and the decoding all succeed. -/
def documentAt (flt : Faults) (unmarshal : Bytes → Except String RSSFeed) (url : String) :
    Option RSSFeed :=
  match flt.get url with
  | .error _ => none
  | .ok resp =>
    match resp.Body with
    | .error _ => none
    | .ok dat =>
      match unmarshal dat with
      | .error _ => none
      | .ok doc => some doc

/-- The contents of the Post Store after one worker, from the identifiers of the
feeds in the store and the contents before it. -/
def scrape (flt : Faults) (unmarshal : Bytes → Except String RSSFeed)
    (parseAny : String → Except String Instant) (ids : List UUID) (feed : Feed)
    (cs : List PostContent) : List PostContent :=
  match flt.mark feed.ID with
  | some _ => cs
  | none =>
    if feed.ID ∈ ids then
      match documentAt flt unmarshal feed.Url with
      | none => cs
      | some doc => ingest flt.create parseAny feed doc.Channel.Item cs
    else cs

/-- Whether the event is one that the item loop or `FetchFeed` or the marking
produces: a database call of the worker, the HTTP request or a log record. -/
def Event.isStep : Event → Bool
  | Event.MarkFeedFetched _ _ => true
  | Event.Get _ _ => true
  | Event.CreatePost _ _ => true
  | Event.Error _ => true
  | Event.Info _ => true
  | Event.Panic _ => true
  | _ => false

/-- The number of `wg.Done()` calls in a trace. -/
def dones (trace : List Event) : Nat :=
  trace.count Event.Done

/-- A feed row whose `last_fetched_at` is set and not before `t`. -/
def fetchedSince (t : Instant) (g : Feed) : Prop :=
  g.LastFetchedAt.Valid = true ∧ t ≤ g.LastFetchedAt.Time

instance (t : Instant) (g : Feed) : Decidable (fetchedSince t g) := by
  unfold fetchedSince
  infer_instance

/-! ## Concrete surroundings used to evaluate the definitions -/

/-- A date parser that accepts one RFC 1123 date and nothing else. -/
def demoParseAny (pubDate : String) : Except String Instant :=
  if pubDate = "Mon, 02 Jan 2006 15:04:05 GMT" then .ok 1136214245
  else .error "Could not find format"

/-- A decoder that accepts a body starting with byte 60 and reads each further
byte `n` as an item with link `http://x/n`, dated when `n` is even. -/
def demoUnmarshal (dat : Bytes) : Except String RSSFeed :=
  match dat with
  | 60 :: rest =>
    .ok { Channel := { Item := rest.map (fun n =>
      { Title := "t"
        Link := "http://x/" ++ toString n
        Description := ""
        PubDate := if n % 2 = 0 then "Mon, 02 Jan 2006 15:04:05 GMT" else "garbage" }) } }
  | _ => .error "EOF"

/-- A feed row with the given identifier and URL, never fetched. -/
def demoFeed (id : UUID) (url : String) : Feed :=
  { ID := id
    CreatedAt := 0
    UpdatedAt := 0
    Name := "feed"
    Url := url
    UserID := 0
    LastFetchedAt := { Time := 0, Valid := false } }

/-- A network that serves a document with items 1 and 2 at `http://a`, a body
that does not decode at `http://b`, and refuses any other connection. -/
def demoGet (url : String) : Except String Response :=
  if url = "http://a" then .ok { StatusCode := 200, Body := .ok [60, 1, 2] }
  else if url = "http://b" then .ok { StatusCode := 200, Body := .ok [0] }
  else .error "connection refused"

/-- Surroundings without store failures, where every call takes one second. -/
def demoFaults : Faults :=
  { elapse := fun _ => 1
    select := none
    mark := fun _ => none
    create := fun _ _ => none
    get := demoGet }

/-- The document served at `http://a`: item 1 with an unparseable date, item 2 dated. -/
def demoDoc : RSSFeed :=
  { Channel := { Item :=
      [ { Title := "t", Link := "http://x/1", Description := "", PubDate := "garbage" },
        { Title := "t", Link := "http://x/2", Description := "",
          PubDate := "Mon, 02 Jan 2006 15:04:05 GMT" } ] } }

/-- Surroundings in which the store is unreachable for every insert. -/
def insertFaults : Faults :=
  { demoFaults with create := fun _ _ => some "write tcp: connection reset by peer" }

/-- Surroundings in which the store cannot mark feed 1. -/
def markFaults : Faults :=
  { demoFaults with mark := fun id => if id = 1 then some "connection refused" else none }

/-- A store with the feeds 1 (at `http://a`) and 2 (at `http://b`) and no post. -/
def demoStore : Store :=
  { now := 100
    next := 1000
    feeds := [demoFeed 1 "http://a", demoFeed 2 "http://b"]
    posts := [] }


/-! ## More readers of a trace -/

/-- Whether the event is a call of `MarkFeedFetched`. -/
def Event.isMark : Event → Bool
  | Event.MarkFeedFetched _ _ => true
  | _ => false

/-- Whether the event is one that the item loop produces: an insert or an error
record of the log. -/
def Event.isItemStep : Event → Bool
  | Event.CreatePost _ _ => true
  | Event.Error _ => true
  | _ => false

/-- A runtime whose network answers the feed with a server error page. -/
def demoErrorPage : Faults :=
  { demoFaults with get := fun _ => .ok { StatusCode := 503, Body := .ok [0] } }


/-- Whether the date parser accepts the publication date of the item. -/
def dated (parseAny : String → Except String Instant) (item : RSSItem) : Bool :=
  match parseAny item.PubDate with
  | .ok _ => true
  | .error _ => false


/-- The row `arg` is the one built for `item` of `feed`: it is owned by the feed,
takes title, link and description from the item (the description marked valid)
and its publication time is what `ParsePubDate` returned, without error. -/
def carries {σ : Type} (rt : Runtime σ) (feed : Feed) (item : RSSItem)
    (arg : CreatePostParams) : Prop :=
  arg.FeedID = feed.ID
    ∧ arg.Title = item.Title
    ∧ arg.Url = item.Link
    ∧ arg.Description = { String := item.Description, Valid := true }
    ∧ arg.PublishedAt = (ParsePubDate rt item.PubDate).1.1
    ∧ (ParsePubDate rt item.PubDate).1.2 = none


/-- Whether the event is a call of `GetNextFeedsToFetch`, the batch selection. -/
def Event.isSelect : Event → Bool
  | Event.GetNextFeedsToFetch _ _ => true
  | _ => false

/-- Surroundings in which the store is unreachable for batch selection. -/
def selectFaults : Faults :=
  { demoFaults with select := some "dial tcp: connection refused" }


/-! ## helper/jwt.go -/

/-- The constant `bcrypt.DefaultCost` of the library golang.org/x/crypto/bcrypt. -/
def bcrypt.DefaultCost : Int := 10

/-- HashPassword of `helper/jwt.go`: the bcrypt hash of the password at the cost
the code passes, or `(nil, err)` with an error record when hashing fails.
`GenerateFromPassword` is the library function, given the password and the cost. -/
def HashPassword (GenerateFromPassword : String → Int → Except String Bytes)
    (password : String) : (Option Bytes × Option String) × List Event :=
  match GenerateFromPassword password bcrypt.DefaultCost with
  | .error err => ((none, some err), [Event.Error "Failed to generate hash of password"])
  | .ok hash => ((some hash, none), [])

/-- A stand-in for `bcrypt.GenerateFromPassword` whose hash shows the cost it was
given and the length of the password; like the library it refuses a cost above 31. -/
def costProbe (password : String) (cost : Int) : Except String Bytes :=
  if cost ≤ 31 then .ok [cost.toNat, password.length] else .error "invalid cost"

/-- A store at instant 3700 with feed 2, fetched an hour before, stored ahead of
feed 1, never fetched. -/
def staleStore : Store :=
  { now := 3700
    next := 1000
    feeds := [{ demoFeed 2 "http://b" with LastFetchedAt := { Time := 100, Valid := true } },
      demoFeed 1 "http://a"]
    posts := [] }


/-! ## StartScraping and its workers as interleaved goroutines

The control of `StartScraping` and of the goroutines it starts, as a machine
that makes one step at a time, so that the steps of the scheduler, of every
worker and of the ticker may interleave in any order. The data (store, network)
is left out here: what a selection returns and how many steps a worker takes are
part of the step taken. -/

/-- Where the goroutine of `StartScraping` stands: before the call of
`GetNextFeedsToFetch` (line 27), before `wg.Add(1)` for a feed (line 38), before
`go ScrapeFeed` for it (line 39), in `wg.Wait()` (line 41), or at the receive from
`ticker.C` (line 26). -/
inductive Pc where
  | select
  | add (feed : Feed) (rest : List Feed)
  | spawn (feed : Feed) (rest : List Feed)
  | wait
  | receive
deriving DecidableEq, Repr

/-- A goroutine running `ScrapeFeed`: its feed, the iteration of the loop that
started it, the steps it still has to make before its deferred `wg.Done()`, and
whether it has made that call and returned. -/
structure Goroutine where
  feed : Feed
  tick : Nat
  todo : Nat
  done : Bool
deriving DecidableEq, Repr

/-- The machine: the position of the scheduler, the number of the iteration it is
in, the counter of the WaitGroup declared in that iteration (line 36), the worker
goroutines started so far, and whether `ticker.C` holds a tick. -/
structure Machine where
  pc : Pc
  tick : Nat
  wg : Int
  workers : List Goroutine
  pending : Bool
deriving DecidableEq, Repr

/-- One step of one goroutine or of the ticker. -/
inductive Action where
  | selected (feeds : List Feed)
  | failed
  | add
  | spawn (todo : Nat)
  | waited
  | fire
  | received
  | work (i : Nat)
  | finish (i : Nat)
deriving DecidableEq, Repr

/-- The machine when `StartScraping` enters its loop. -/
def Machine.init : Machine :=
  { pc := Pc.select, tick := 0, wg := 0, workers := [], pending := false }

/-- The position of the scheduler in the dispatch loop over the feeds still to
dispatch: `wg.Add(1)` for the next feed, or `wg.Wait()` after the last. -/
def Pc.dispatch : List Feed → Pc
  | [] => Pc.wait
  | feed :: rest => Pc.add feed rest

/-- The step of the scheduler when `GetNextFeedsToFetch` returns feeds: a new
WaitGroup is declared and the dispatch loop entered. -/
def stepSelected (feeds : List Feed) (m : Machine) : Option Machine :=
  match m.pc with
  | Pc.select => some { m with pc := Pc.dispatch feeds, wg := 0 }
  | _ => none

/-- The step of the scheduler when `GetNextFeedsToFetch` returns an error:
`continue`, which leads to the receive from the ticker. -/
def stepFailed (m : Machine) : Option Machine :=
  match m.pc with
  | Pc.select => some { m with pc := Pc.receive }
  | _ => none

/-- The step `wg.Add(1)`. -/
def stepAdd (m : Machine) : Option Machine :=
  match m.pc with
  | Pc.add feed rest => some { m with pc := Pc.spawn feed rest, wg := m.wg + 1 }
  | _ => none

/-- The step `go ScrapeFeed(db, &wg, feed)`: a new worker that will make `todo`
steps before it calls `wg.Done()`. -/
def stepSpawn (todo : Nat) (m : Machine) : Option Machine :=
  match m.pc with
  | Pc.spawn feed rest =>
    some { m with
      pc := Pc.dispatch rest
      workers := m.workers ++ [{ feed := feed, tick := m.tick, todo := todo, done := false }] }
  | _ => none

/-- The return of `wg.Wait()`, possible only when the counter is zero. -/
def stepWaited (m : Machine) : Option Machine :=
  match m.pc with
  | Pc.wait => if m.wg = 0 then some { m with pc := Pc.receive } else none
  | _ => none

/-- The receive from `ticker.C`, possible only when a tick is held; the next
iteration starts. -/
def stepReceived (m : Machine) : Option Machine :=
  match m.pc with
  | Pc.receive =>
    if m.pending then some { m with pc := Pc.select, tick := m.tick + 1, pending := false }
    else none
  | _ => none

/-- A step of worker `i` that is not its last. -/
def stepWork (i : Nat) (m : Machine) : Option Machine :=
  match m.workers[i]? with
  | none => none
  | some w =>
    if w.done = false ∧ 0 < w.todo then
      some { m with workers := m.workers.set i { w with todo := w.todo - 1 } }
    else none

/-- The deferred `wg.Done()` of worker `i`, after which it has returned. It
decrements the WaitGroup the worker was given: that of the current iteration when
the worker was started in it, and otherwise one of an earlier iteration. -/
def stepFinish (i : Nat) (m : Machine) : Option Machine :=
  match m.workers[i]? with
  | none => none
  | some w =>
    if w.done = false ∧ w.todo = 0 then
      some { m with
        workers := m.workers.set i { w with done := true }
        wg := if w.tick = m.tick then m.wg - 1 else m.wg }
    else none

/-- One step of the machine, `none` when the step is not possible. The ticker may
fire at any moment; its channel holds at most one tick. -/
def step (a : Action) (m : Machine) : Option Machine :=
  match a with
  | Action.selected feeds => stepSelected feeds m
  | Action.failed => stepFailed m
  | Action.add => stepAdd m
  | Action.spawn todo => stepSpawn todo m
  | Action.waited => stepWaited m
  | Action.fire => some { m with pending := true }
  | Action.received => stepReceived m
  | Action.work i => stepWork i m
  | Action.finish i => stepFinish i m

/-- A run of the machine: the steps of a list, in order. -/
def run : List Action → Machine → Option Machine
  | [], m => some m
  | a :: rest, m =>
    match step a m with
    | none => none
    | some m1 => run rest m1

/-- The number of workers started in iteration `t` that have not yet returned. -/
def undone (t : Nat) (workers : List Goroutine) : Nat :=
  workers.countP (fun w => decide (w.tick = t) && !w.done)

/-- Whether the scheduler is between the declaration of the WaitGroup and the
return of `wg.Wait()`. -/
def Pc.counting : Pc → Bool
  | Pc.select => false
  | Pc.receive => false
  | _ => true

/-- The `Add` that the scheduler has made for a worker it has not yet started. -/
def Pc.owed : Pc → Int
  | Pc.spawn _ _ => 1
  | _ => 0

/-- What holds in every state the machine reaches. -/
structure Machine.Inv (m : Machine) : Prop where
  bound : ∀ w ∈ m.workers, w.tick ≤ m.tick
  earlier : ∀ w ∈ m.workers, w.tick < m.tick → w.done = true
  idle : m.pc.counting = false → ∀ w ∈ m.workers, w.done = true
  counter : m.pc.counting = true → m.wg = (undone m.tick m.workers : Int) + m.pc.owed

/-- A run of two iterations in which the ticker fires twice while the two workers
of the first iteration are still at work. -/
def demoActions : List Action :=
  [Action.selected [demoFeed 1 "http://a", demoFeed 2 "http://b"], Action.add,
    Action.spawn 1, Action.fire, Action.add, Action.spawn 0, Action.finish 1, Action.fire,
    Action.work 0, Action.finish 0, Action.waited, Action.received, Action.selected []]


/-- The machine after `demoActions`: in its second iteration, with both workers of
the first returned. -/
def demoFinal : Machine :=
  { pc := Pc.wait
    tick := 1
    wg := 0
    workers :=
      [{ feed := demoFeed 1 "http://a", tick := 0, todo := 0, done := true },
        { feed := demoFeed 2 "http://b", tick := 0, todo := 0, done := true }]
    pending := false }


/-! ## The HTTP side: helper/json.go, internal/auth, handlers/posts.go

A handler is observed through the calls it makes, in order: on the response
writer, on the log, on the database and on the handler it wraps. A request is
what the code reads from it. -/

/-- User row, `database.User`, with the fields read by `models.DatabaseUserToUser`
and by `LoginUser`. -/
structure User where
  ID : UUID
  CreatedAt : Instant
  UpdatedAt : Instant
  Username : String
  PasswordHash : String
deriving DecidableEq, Repr

/-- Argument of `GetPostsForUser`, as built in `HandlerPostsGet`. -/
structure GetPostsForUserParams where
  UserID : UUID
  Limit : Int
deriving DecidableEq, Repr

/-- Post of the API, `models.Post`, whose description and publication time are
pointers. -/
structure models.Post where
  ID : UUID
  CreatedAt : Instant
  UpdatedAt : Instant
  Title : String
  Url : String
  Description : Option String
  PublishedAt : Option Instant
  FeedID : UUID
deriving DecidableEq, Repr

/-- Conversion `models.NullTimeToTimePtr`. -/
def models.NullTimeToTimePtr (t : NullTime) : Option Instant :=
  if t.Valid then some t.Time else none

/-- Conversion `models.NullStringToStringPtr`. -/
def models.NullStringToStringPtr (s : NullString) : Option String :=
  if s.Valid then some s.String else none

/-- Conversion `models.DatabasePostToPost`. -/
def models.DatabasePostToPost (post : RssAggregator.Post) : models.Post :=
  { ID := post.ID
    CreatedAt := post.CreatedAt
    UpdatedAt := post.UpdatedAt
    Title := post.Title
    Url := post.Url
    Description := models.NullStringToStringPtr post.Description
    PublishedAt := models.NullTimeToTimePtr post.PublishedAt
    FeedID := post.FeedID }

/-- Conversion `models.DatabasePostsToPosts`. -/
def models.DatabasePostsToPosts (posts : List RssAggregator.Post) : List models.Post :=
  posts.map models.DatabasePostToPost

/-- The values that the handlers hand to `json.Marshal`: the error structure of
`RespondWithError`, the posts of `HandlerPostsGet`, the status of
`HandlerReadiness`. -/
inductive Payload where
  | errorResponse (Error : String)
  | posts (posts : List models.Post)
  | status (value : String)
deriving DecidableEq, Repr

/-- The calls a handler makes, in program order: `w.Header().Set`,
`w.WriteHeader`, `w.Write`, log records (message only), the database queries with
their outcome, and the call of the wrapped handler with the user. -/
inductive Effect where
  | Set (key value : String)
  | WriteHeader (code : Int)
  | Write (dat : Bytes)
  | Error (msg : String)
  | Warn (msg : String)
  | GetUserByID (id : UUID) (err : Option String)
  | GetPostsForUser (arg : GetPostsForUserParams) (err : Option String)
  | Handler (user : User)
deriving DecidableEq, Repr

/-- What the handlers read from a request: the value of
`r.Header.Get("Authorization")` and of `r.URL.Query().Get("limit")`, each empty
when the request does not carry it. -/
structure Request where
  Authorization : String
  limit : String
deriving DecidableEq, Repr

/-- RespondWithJSON of `helper/json.go`. `Marshal` is `json.Marshal`. -/
def RespondWithJSON (Marshal : Payload → Except String Bytes) (code : Int)
    (payload : Payload) : List Effect :=
  match Marshal payload with
  | .error _ =>
    [Effect.Set "Content-Type" "application/json", Effect.Error "Error marshalling JSON",
      Effect.WriteHeader 500]
  | .ok dat =>
    [Effect.Set "Content-Type" "application/json", Effect.WriteHeader code, Effect.Write dat]

/-- RespondWithError of `helper/json.go`. -/
def RespondWithError (Marshal : Payload → Except String Bytes) (code : Int) (msg : String) :
    List Effect :=
  (if code ≥ 500 then [Effect.Error "Responding with 5XX error"] else [])
    ++ RespondWithJSON Marshal code (Payload.errorResponse msg)

/-- Removal of a leading `pre`, `strings.TrimPrefix`. -/
def TrimPrefix (s pre : String) : String :=
  if pre.data.isPrefixOf s.data then String.mk (s.data.drop pre.data.length) else s

/-- A parsed token of the library jwt-go: whether it is valid, and the `user_uuid`
of its claims. -/
structure JwtToken where
  Valid : Bool
  UserUUID : String
deriving DecidableEq, Repr

/-- What `MiddlewareAuth` uses of an `Authenticator` and of the libraries:
`auth.DB.GetUserByID`, the secret key, `jwt.ParseWithClaims` with a key function
that returns the given key, and `uuid.Parse`. -/
structure Authenticator (σ : Type) where
  GetUserByID : UUID → σ → Except String User × σ
  JWTSecretKey : String
  ParseWithClaims : String → String → Except String JwtToken
  Parse : String → Except String UUID

/-- Authenticate of `internal/auth/auth.go`: the `user_uuid` of the token, or the
empty string and the error `invalid token`, with a warning, when parsing fails or
the token is not valid. -/
def Authenticate {σ : Type} (auth : Authenticator σ) (tokenString : String) :
    (String × Option String) × List Effect :=
  match auth.ParseWithClaims tokenString auth.JWTSecretKey with
  | .error _ => (("", some "invalid token"), [Effect.Warn "Invalid token"])
  | .ok token =>
    if !token.Valid then (("", some "invalid token"), [Effect.Warn "Invalid token"])
    else ((token.UserUUID, none), [])

/-- MiddlewareAuth of `internal/auth/auth_middlewarre.go`, applied to a request:
the calls it makes, the call of the wrapped handler among them. -/
def MiddlewareAuth {σ : Type} (auth : Authenticator σ)
    (Marshal : Payload → Except String Bytes) (r : Request) (s : σ) : σ × List Effect :=
  let authHeader := r.Authorization
  if authHeader = "" then
    (s, Effect.Error "Authorization header missing"
      :: RespondWithError Marshal 401 "Authorization header missing")
  else
    let tokenString := TrimPrefix authHeader "Bearer "
    if tokenString = authHeader then
      (s, Effect.Error "Invalid authorization header format"
        :: RespondWithError Marshal 401 "Invalid authorization header format")
    else
      match Authenticate auth tokenString with
      | ((_, some _), ev) =>
        (s, ev ++ Effect.Error "Invalid token" :: RespondWithError Marshal 401 "Invalid token")
      | ((userUUID, none), ev) =>
        match auth.Parse userUUID with
        | .error _ =>
          (s, ev ++ Effect.Error "Couldn't parse userUUID to uuid"
            :: RespondWithError Marshal 500 "Couldn't parse user UUID")
        | .ok uuid =>
          match auth.GetUserByID uuid s with
          | (.error err, s1) =>
            (s1, ev ++ Effect.GetUserByID uuid (some err) :: Effect.Error "Couldn't get user"
              :: RespondWithError Marshal 404 "Couldn't get user")
          | (.ok user, s1) =>
            (s1, ev ++ [Effect.GetUserByID uuid none, Effect.Handler user])

/-- Decimal value of a list of digits. -/
def digitsValue (ds : List Char) : Nat :=
  ds.foldl (fun acc c => acc * 10 + (c.toNat - 48)) 0

/-- Parsing of a decimal integer, `strconv.Atoi` of the Go library on a 64-bit
platform: an optional sign and at least one digit, nothing else, with a value in
the range of `int`. -/
def Atoi (s : String) : Except String Int :=
  let signed : Bool × List Char :=
    match s.data with
    | '-' :: rest => (true, rest)
    | '+' :: rest => (false, rest)
    | all => (false, all)
  if signed.2 = [] ∨ signed.2.all Char.isDigit = false then .error "invalid syntax"
  else
    let value : Int := if signed.1 then -(digitsValue signed.2 : Int) else digitsValue signed.2
    if value < -9223372036854775808 ∨ 9223372036854775807 < value then
      .error "value out of range"
    else .ok value

/-- HandlerPostsGet of `handlers/posts.go`. `GetPostsForUser` is the query of
`cfg.DB`. -/
def HandlerPostsGet {σ : Type}
    (GetPostsForUser : GetPostsForUserParams → σ → Except String (List Post) × σ)
    (Marshal : Payload → Except String Bytes) (r : Request) (user : User) (s : σ) :
    σ × List Effect :=
  let limitStr := r.limit
  let chosen : Int × List Effect :=
    match Atoi limitStr with
    | .ok specifiedLimit => (specifiedLimit, [])
    | .error _ =>
      if limitStr ≠ "" then (10, [Effect.Warn "Invalid limit parameter, using default limit"])
      else (10, [])
  let arg : GetPostsForUserParams := { UserID := user.ID, Limit := int32 chosen.1 }
  match GetPostsForUser arg s with
  | (.error err, s1) =>
    (s1, chosen.2 ++ Effect.GetPostsForUser arg (some err)
      :: Effect.Error "Couldn't get posts for user"
      :: RespondWithError Marshal 500 "Couldn't get posts for user")
  | (.ok posts, s1) =>
    (s1, chosen.2 ++ Effect.GetPostsForUser arg none
      :: RespondWithJSON Marshal 200 (Payload.posts (models.DatabasePostsToPosts posts)))

/-- The users with which the wrapped handler was called, in order. -/
def Effect.called : Effect → Option User
  | Effect.Handler user => some user
  | _ => none

/-- The status codes written, in order. -/
def Effect.status : Effect → Option Int
  | Effect.WriteHeader code => some code
  | _ => none

/-- The limits with which the posts were queried, in order. -/
def Effect.queried : Effect → Option Int
  | Effect.GetPostsForUser arg _ => some arg.Limit
  | _ => none

/-- Whether the call is made on the response writer. -/
def Effect.isResponse : Effect → Bool
  | Effect.Set _ _ => true
  | Effect.WriteHeader _ => true
  | Effect.Write _ => true
  | _ => false


/-- The users with which a handler called the handler it wraps. -/
def calls (effects : List Effect) : List User :=
  effects.filterMap Effect.called

/-- The status codes a handler wrote. -/
def statuses (effects : List Effect) : List Int :=
  effects.filterMap Effect.status

/-- The limits with which a handler queried the posts. -/
def limits (effects : List Effect) : List Int :=
  effects.filterMap Effect.queried

/-- A `json.Marshal` for evaluation: an error structure encodes to its length, a
list of posts to its length, and the status `chan` stands for a value that
cannot be encoded. -/
def demoMarshal (payload : Payload) : Except String Bytes :=
  match payload with
  | Payload.errorResponse msg => .ok [0, msg.length]
  | Payload.posts posts => .ok [1, posts.length]
  | Payload.status value =>
    if value = "chan" then .error "json: unsupported type" else .ok [2, value.length]

/-- A user row. -/
def demoUser : User :=
  { ID := 7, CreatedAt := 0, UpdatedAt := 0, Username := "ann", PasswordHash := "hash" }

/-- An authenticator for evaluation: the token `good` is valid for the subject
`7`, the token `odd` is valid for a subject that is no UUID, the token `gone` is
valid for the subject `8`; the store holds the user 7 only. -/
def demoAuth : Authenticator Unit :=
  { GetUserByID := fun id s =>
      if id = 7 then (.ok demoUser, s) else (.error "sql: no rows in result set", s)
    JWTSecretKey := "key"
    ParseWithClaims := fun token _ =>
      if token = "good" then .ok { Valid := true, UserUUID := "7" }
      else if token = "odd" then .ok { Valid := true, UserUUID := "x" }
      else if token = "gone" then .ok { Valid := true, UserUUID := "8" }
      else if token = "old" then .ok { Valid := false, UserUUID := "7" }
      else .error "token contains an invalid number of segments"
    Parse := fun sub =>
      if sub = "7" then .ok 7 else if sub = "8" then .ok 8 else .error "invalid UUID length" }

/-- A query of the posts of a user that returns no post. -/
def demoGetPosts (_ : GetPostsForUserParams) (s : Unit) : Except String (List Post) × Unit :=
  (.ok [], s)


/-- The increment of a `wg.Add`, if the event is one. -/
def Event.added : Event → Option Int
  | Event.Add delta => some delta
  | _ => none

/-- The increments of the WaitGroup in a trace, in order. -/
def adds (trace : List Event) : List Int :=
  trace.filterMap Event.added

/-- A run of the machine that stops in `wg.Wait()` while the second worker of the
batch has not yet returned. -/
def waitingActions : List Action :=
  [Action.selected [demoFeed 1 "http://a", demoFeed 2 "http://b"], Action.add,
    Action.spawn 0, Action.finish 0, Action.add, Action.spawn 3, Action.work 1]

/-- The machine after `waitingActions`. -/
def waitingMachine : Machine :=
  { pc := Pc.wait
    tick := 0
    wg := 1
    workers :=
      [{ feed := demoFeed 1 "http://a", tick := 0, todo := 0, done := true },
        { feed := demoFeed 2 "http://b", tick := 0, todo := 2, done := false }]
    pending := false }


/-- A run of the machine that stops inside the dispatch loop: the worker of the
first of two selected feeds has been started and has returned, the second feed
has not been dispatched yet. -/
def dispatchingActions : List Action :=
  [Action.selected [demoFeed 1 "http://a", demoFeed 2 "http://b"], Action.add,
    Action.spawn 0, Action.finish 0]

/-- The machine after `dispatchingActions`: before `wg.Add(1)` for the second feed. -/
def dispatchingMachine : Machine :=
  { pc := Pc.add (demoFeed 2 "http://b") []
    tick := 0
    wg := 0
    workers := [{ feed := demoFeed 1 "http://a", tick := 0, todo := 0, done := true }]
    pending := false }

/-- The machine one step later: after `wg.Add(1)` for the second feed, before the
`go` statement for it. -/
def owingMachine : Machine :=
  { pc := Pc.spawn (demoFeed 2 "http://b") []
    tick := 0
    wg := 1
    workers := [{ feed := demoFeed 1 "http://a", tick := 0, todo := 0, done := true }]
    pending := false }


/-- The message of a uniqueness violation on the primary key of the posts, which
is not the (feed, link) pair. -/
def pkeyViolation : String :=
  "pq: duplicate key value violates unique constraint posts_pkey"

/-- Surroundings in which the store answers every insert with a uniqueness
violation on the primary key. -/
def pkeyFaults : Faults :=
  { demoFaults with create := fun _ _ => some pkeyViolation }


/-- The document with the items 2 and 4, both dated. -/
def pairDoc : RSSFeed :=
  { Channel := { Item :=
      [ { Title := "t", Link := "http://x/2", Description := "",
          PubDate := "Mon, 02 Jan 2006 15:04:05 GMT" },
        { Title := "t", Link := "http://x/4", Description := "",
          PubDate := "Mon, 02 Jan 2006 15:04:05 GMT" } ] } }

/-- A network that serves the document with the items 2 and 4 at every URL. -/
def pairGet (_ : String) : Except String Response :=
  .ok { StatusCode := 200, Body := .ok [60, 2, 4] }

/-- Surroundings that serve the document with the items 2 and 4 and in which the
store is unreachable for the insert of item 2. -/
def firstFaults : Faults :=
  { demoFaults with
    get := pairGet
    create := fun _ url =>
      if url = "http://x/2" then some "write tcp: connection reset by peer" else none }

/-- Surroundings that serve the document with the items 2 and 4 and in which the
store is unreachable for the insert of item 4. -/
def secondFaults : Faults :=
  { demoFaults with
    get := pairGet
    create := fun _ url =>
      if url = "http://x/4" then some "write tcp: connection reset by peer" else none }

end RssAggregator

namespace RssAggregator

/-! ## The item loop -/

theorem attempts_append (a b : List Event) : attempts (a ++ b) = attempts a ++ attempts b := by
  simp [attempts]

theorem attempts_ParsePubDate {σ : Type} (rt : Runtime σ) (pubDate : String) :
    attempts (ParsePubDate rt pubDate).2 = [] := by
  unfold ParsePubDate
  cases rt.ParseAny pubDate <;> simp [attempts, Event.attempt]

/-- The loop on an item whose date does not parse: the item is skipped. -/
theorem insertItems_skip {σ : Type} (db : Queries σ) (rt : Runtime σ) (feed : Feed)
    (item : RSSItem) (rest : List RSSItem) (s : σ) (err : String)
    (hp : rt.ParseAny item.PubDate = .error err) :
    insertItems db rt feed (item :: rest) s
      = ((insertItems db rt feed rest s).1,
          Event.Error "Unable to parse pubDate" :: Event.Error "Couldn't parse Published Date"
            :: (insertItems db rt feed rest s).2) := by
  simp [insertItems, ParsePubDate, hp]

/-- The loop on an item whose date parses: one insert, its log, then the rest of
the items from the world the insert left, whatever the insert returned. -/
theorem insertItems_insert {σ : Type} (db : Queries σ) (rt : Runtime σ) (feed : Feed)
    (item : RSSItem) (rest : List RSSItem) (s : σ) (t : Instant)
    (hp : rt.ParseAny item.PubDate = .ok t) :
    insertItems db rt feed (item :: rest) s
      = ((insertItems db rt feed rest
            (db.CreatePost (insertArg rt feed item s t) (insertWorld rt s)).2).1,
          Event.CreatePost (insertArg rt feed item s t)
              (failure (db.CreatePost (insertArg rt feed item s t) (insertWorld rt s)).1)
            :: insertLog (failure (db.CreatePost (insertArg rt feed item s t) (insertWorld rt s)).1)
            ++ (insertItems db rt feed rest
                  (db.CreatePost (insertArg rt feed item s t) (insertWorld rt s)).2).2) := by
  simp only [insertItems, ParsePubDate, hp, insertArg, insertWorld]
  rcases db.CreatePost (postParams feed item (rt.New s).1 (rt.Now (rt.New s).2).1
      (rt.Now (rt.Now (rt.New s).2).2).1 { Time := t, Valid := true })
      (rt.Now (rt.Now (rt.New s).2).2).2 with ⟨res, s1⟩
  cases res with
  | error err =>
    by_cases hd : Contains err duplicateKeyText = true <;> simp [hd, failure, insertLog]
  | ok row => simp [failure, insertLog]

theorem attempts_insertLog (out : Option String) : attempts (insertLog out) = [] := by
  unfold insertLog
  cases out with
  | none => rfl
  | some err => by_cases hd : Contains err duplicateKeyText = true <;> simp [hd, attempts, Event.attempt]

/-- The insert attempts of the loop are the items whose date parses, one each, in
document order, with the content of the item. -/
theorem insertItems_attempts {σ : Type} (db : Queries σ) (rt : Runtime σ) (feed : Feed)
    (items : List RSSItem) (s : σ) :
    (attempts (insertItems db rt feed items s).2).map CreatePostParams.content
      = acceptedContents rt.ParseAny feed items := by
  induction items generalizing s with
  | nil => simp [insertItems, attempts, acceptedContents]
  | cons item rest ih =>
    cases hp : rt.ParseAny item.PubDate with
    | error err =>
      rw [insertItems_skip db rt feed item rest s err hp]
      simp only [acceptedContents, hp]
      rw [← ih s]
      simp [attempts, Event.attempt]
    | ok t =>
      rw [insertItems_insert db rt feed item rest s t hp]
      simp only [acceptedContents, hp]
      rw [← ih (db.CreatePost (insertArg rt feed item s t) (insertWorld rt s)).2]
      rw [show ∀ (e : Event) (l : List Event), e :: l = [e] ++ l from fun _ _ => rfl,
        attempts_append, attempts_append, attempts_insertLog]
      simp [attempts, Event.attempt, CreatePostParams.content, itemContent, insertArg,
        postParams]

/-! ## The worker -/

/-- The world after the first call of the worker, `MarkFeedFetched`. -/
theorem ScrapeFeed_mark_failed {σ : Type} (db : Queries σ) (rt : Runtime σ) (feed : Feed)
    (s : σ) (err : String) (hm : failure (db.MarkFeedFetched feed.ID s).1 = some err) :
    ScrapeFeed db rt feed s
      = ((db.MarkFeedFetched feed.ID s).2,
          [Event.MarkFeedFetched feed.ID (some err),
            Event.Error "Couldn't mark feed fetched", Event.Done]) := by
  unfold ScrapeFeed
  rcases hmk : db.MarkFeedFetched feed.ID s with ⟨res, s1⟩
  rw [hmk] at hm
  cases res with
  | error e => simp [failure] at hm; simp [hm]
  | ok row => simp [failure] at hm

theorem ScrapeFeed_fetch_failed {σ : Type} (db : Queries σ) (rt : Runtime σ) (feed : Feed)
    (s : σ) (err : String) (hm : failure (db.MarkFeedFetched feed.ID s).1 = none)
    (hf : (FetchFeed rt feed.Url (db.MarkFeedFetched feed.ID s).2).1.2 = some err) :
    ScrapeFeed db rt feed s
      = ((FetchFeed rt feed.Url (db.MarkFeedFetched feed.ID s).2).2.1,
          Event.MarkFeedFetched feed.ID none
            :: (FetchFeed rt feed.Url (db.MarkFeedFetched feed.ID s).2).2.2
            ++ [Event.Error "Couldn't collect feed", Event.Done]) := by
  unfold ScrapeFeed
  rcases hmk : db.MarkFeedFetched feed.ID s with ⟨res, s1⟩
  rw [hmk] at hm hf
  cases res with
  | error e => simp [failure] at hm
  | ok row =>
    simp only at hf ⊢
    rcases hfk : FetchFeed rt feed.Url s1 with ⟨⟨doc, e⟩, s2, ev⟩
    rw [hfk] at hf
    simp only at hf
    subst hf
    cases doc <;> rfl

theorem ScrapeFeed_collected {σ : Type} (db : Queries σ) (rt : Runtime σ) (feed : Feed)
    (s : σ) (doc : RSSFeed) (hm : failure (db.MarkFeedFetched feed.ID s).1 = none)
    (hf : (FetchFeed rt feed.Url (db.MarkFeedFetched feed.ID s).2).1 = (some doc, none)) :
    ScrapeFeed db rt feed s
      = ((insertItems db rt feed doc.Channel.Item
            (FetchFeed rt feed.Url (db.MarkFeedFetched feed.ID s).2).2.1).1,
          Event.MarkFeedFetched feed.ID none
            :: (FetchFeed rt feed.Url (db.MarkFeedFetched feed.ID s).2).2.2
            ++ (insertItems db rt feed doc.Channel.Item
                  (FetchFeed rt feed.Url (db.MarkFeedFetched feed.ID s).2).2.1).2
            ++ [Event.Info "Feed %s collected, %v posts found", Event.Done]) := by
  unfold ScrapeFeed
  rcases hmk : db.MarkFeedFetched feed.ID s with ⟨res, s1⟩
  rw [hmk] at hm hf
  cases res with
  | error e => simp [failure] at hm
  | ok row =>
    simp only at hf ⊢
    rcases hfk : FetchFeed rt feed.Url s1 with ⟨⟨d, e⟩, s2, ev⟩
    rw [hfk] at hf
    simp only [Prod.mk.injEq] at hf
    obtain ⟨hd, he⟩ := hf
    subst hd he
    rfl

/-- Every path of `FetchFeed` issues the request first and returns either a
document and no error, or no document and an error. -/
theorem FetchFeed_cases {σ : Type} (rt : Runtime σ) (feedURL : String) (s : σ) :
    (∃ doc, (FetchFeed rt feedURL s).1 = (some doc, none)
        ∧ (FetchFeed rt feedURL s).2.2 = [Event.Get feedURL 10])
      ∨ (∃ err msg, (FetchFeed rt feedURL s).1 = (none, some err)
        ∧ (FetchFeed rt feedURL s).2.2 = [Event.Get feedURL 10, Event.Error msg]) := by
  unfold FetchFeed
  rcases rt.Get 10 feedURL s with ⟨res, s1⟩
  cases res with
  | error err => exact Or.inr ⟨err, _, rfl, rfl⟩
  | ok resp =>
    simp only
    cases resp.Body with
    | error err => exact Or.inr ⟨err, _, rfl, rfl⟩
    | ok dat =>
      simp only
      cases rt.Unmarshal dat with
      | error err => exact Or.inr ⟨err, _, rfl, rfl⟩
      | ok doc => exact Or.inl ⟨doc, rfl, rfl⟩

theorem attempts_FetchFeed {σ : Type} (rt : Runtime σ) (feedURL : String) (s : σ) :
    attempts (FetchFeed rt feedURL s).2.2 = [] := by
  rcases FetchFeed_cases rt feedURL s with ⟨doc, _, h⟩ | ⟨err, msg, _, h⟩ <;>
    rw [h] <;> rfl

/-- C3: the first event of every run of ScrapeFeed is its MarkFeedFetched call,
and the HTTP request of FetchFeed is not among the events before it; when
MarkFeedFetched returns an error the run makes no HTTP request (FetchFeed is not
called) and attempts no insert. -/
theorem ScrapeFeed_marks_before_fetching {σ : Type} (db : Queries σ) (rt : Runtime σ)
    (feed : Feed) (s : σ) :
    (∃ rest, (ScrapeFeed db rt feed s).2
        = Event.MarkFeedFetched feed.ID (failure (db.MarkFeedFetched feed.ID s).1) :: rest)
      ∧ (failure (db.MarkFeedFetched feed.ID s).1 ≠ none →
          (ScrapeFeed db rt feed s).2.all (fun e => !e.isGet) = true
            ∧ attempts (ScrapeFeed db rt feed s).2 = []) := by
  constructor
  · cases hm : failure (db.MarkFeedFetched feed.ID s).1 with
    | some err => exact ⟨_, by rw [ScrapeFeed_mark_failed db rt feed s err hm]⟩
    | none =>
      rcases FetchFeed_cases rt feed.Url (db.MarkFeedFetched feed.ID s).2
        with ⟨doc, hd, _⟩ | ⟨err, msg, he, _⟩
      · exact ⟨_, by rw [ScrapeFeed_collected db rt feed s doc hm hd]; rfl⟩
      · exact ⟨_, by rw [ScrapeFeed_fetch_failed db rt feed s err hm (by rw [he])]; rfl⟩
  · intro hm
    cases hk : failure (db.MarkFeedFetched feed.ID s).1 with
    | none => exact absurd hk hm
    | some err =>
      rw [ScrapeFeed_mark_failed db rt feed s err hk]
      exact ⟨rfl, rfl⟩

/-- C3, evaluated on a store that cannot mark feed 1. -/
theorem ScrapeFeed_marks_before_fetching_witness :
    failure ((storeQueries markFaults).MarkFeedFetched (demoFeed 1 "http://a").ID demoStore).1
        ≠ none
      ∧ (ScrapeFeed (storeQueries markFaults)
          (storeRuntime markFaults demoUnmarshal demoParseAny)
          (demoFeed 1 "http://a") demoStore).2.all (fun e => !e.isGet) = true
      ∧ attempts (ScrapeFeed (storeQueries markFaults)
          (storeRuntime markFaults demoUnmarshal demoParseAny)
          (demoFeed 1 "http://a") demoStore).2 = [] :=
  ⟨by decide,
    (ScrapeFeed_marks_before_fetching (storeQueries markFaults)
      (storeRuntime markFaults demoUnmarshal demoParseAny)
      (demoFeed 1 "http://a") demoStore).2 (by decide)⟩

/-- C6: when the feed was marked and its document fetched, ScrapeFeed attempts
exactly one insert for each item whose pubDate parses, in document order and with
the content of that item, whatever each CreatePost call returns (the store `db`
is arbitrary): no outcome of an insert stops the loop. -/
theorem ScrapeFeed_attempts_every_dated_item {σ : Type} (db : Queries σ) (rt : Runtime σ)
    (feed : Feed) (s : σ) (doc : RSSFeed)
    (hm : failure (db.MarkFeedFetched feed.ID s).1 = none)
    (hf : (FetchFeed rt feed.Url (db.MarkFeedFetched feed.ID s).2).1 = (some doc, none)) :
    (attempts (ScrapeFeed db rt feed s).2).map CreatePostParams.content
      = acceptedContents rt.ParseAny feed doc.Channel.Item := by
  rw [ScrapeFeed_collected db rt feed s doc hm hf,
    show ∀ (e : Event) (l : List Event), e :: l = [e] ++ l from fun _ _ => rfl]
  simp only [attempts_append, attempts_FetchFeed, List.append_assoc]
  rw [show attempts [Event.MarkFeedFetched feed.ID none] = [] from rfl,
    show attempts [Event.Info "Feed %s collected, %v posts found", Event.Done] = [] from rfl]
  simpa using insertItems_attempts db rt feed doc.Channel.Item _

/-- C6, evaluated on a store where every insert fails with a connection error. -/
theorem ScrapeFeed_attempts_every_dated_item_witness :
    failure ((storeQueries insertFaults).MarkFeedFetched (demoFeed 1 "http://a").ID
        demoStore).1 = none
      ∧ (FetchFeed (storeRuntime insertFaults demoUnmarshal demoParseAny)
          (demoFeed 1 "http://a").Url
          ((storeQueries insertFaults).MarkFeedFetched (demoFeed 1 "http://a").ID
            demoStore).2).1 = (some demoDoc, none)
      ∧ (attempts (ScrapeFeed (storeQueries insertFaults)
          (storeRuntime insertFaults demoUnmarshal demoParseAny)
          (demoFeed 1 "http://a") demoStore).2).map CreatePostParams.content
        = acceptedContents demoParseAny (demoFeed 1 "http://a") demoDoc.Channel.Item :=
  ⟨by decide, by decide,
    ScrapeFeed_attempts_every_dated_item (storeQueries insertFaults)
      (storeRuntime insertFaults demoUnmarshal demoParseAny)
      (demoFeed 1 "http://a") demoStore demoDoc (by decide) (by decide)⟩

/-! ## The worker on the modelled store -/

theorem Store.MarkFeedFetched_posts (flt : Faults) (id : UUID) (s : Store) :
    (Store.MarkFeedFetched flt id s).2.posts = s.posts := by
  unfold Store.MarkFeedFetched
  cases flt.mark id with
  | some err => rfl
  | none =>
    simp only
    cases s.feeds.find? (fun f => f.ID = id) <;> rfl

theorem Store.MarkFeedFetched_ids (flt : Faults) (id : UUID) (s : Store) :
    (Store.MarkFeedFetched flt id s).2.feeds.map Feed.ID = s.feeds.map Feed.ID := by
  unfold Store.MarkFeedFetched
  cases flt.mark id with
  | some err => rfl
  | none =>
    simp only
    cases s.feeds.find? (fun f => f.ID = id) with
    | none => rfl
    | some f =>
      simp only [List.map_map]
      apply List.map_congr_left
      intro g _
      by_cases hg : g.ID = id <;> simp [markRow, hg]

theorem Store.MarkFeedFetched_failure (flt : Faults) (id : UUID) (s : Store) :
    failure (Store.MarkFeedFetched flt id s).1 = none
      ↔ flt.mark id = none ∧ id ∈ s.feeds.map Feed.ID := by
  unfold Store.MarkFeedFetched
  cases flt.mark id with
  | some err => simp [failure]
  | none =>
    simp only [true_and]
    cases hfind : s.feeds.find? (fun f => f.ID = id) with
    | none =>
      simp only [failure, List.mem_map]
      constructor
      · intro h
        cases h
      · rintro ⟨f, hf, hid⟩
        have := List.find?_eq_none.mp hfind f hf
        simp [hid] at this
    | some f =>
      simp only [failure, List.mem_map, true_iff]
      exact ⟨f, List.mem_of_find?_eq_some hfind, by simpa using List.find?_some hfind⟩

theorem FetchFeed_world {σ : Type} (rt : Runtime σ) (feedURL : String) (s : σ) :
    (FetchFeed rt feedURL s).2.1 = (rt.Get 10 feedURL s).2 := by
  unfold FetchFeed
  rcases rt.Get 10 feedURL s with ⟨res, s1⟩
  cases res with
  | error err => rfl
  | ok resp =>
    simp only
    cases resp.Body with
    | error err => rfl
    | ok dat =>
      simp only
      cases rt.Unmarshal dat <;> rfl

theorem FetchFeed_document (flt : Faults) (unmarshal : Bytes → Except String RSSFeed)
    (parseAny : String → Except String Instant) (url : String) (s : Store) :
    (FetchFeed (storeRuntime flt unmarshal parseAny) url s).1
      = match documentAt flt unmarshal url with
        | some doc => (some doc, none)
        | none => (none, (FetchFeed (storeRuntime flt unmarshal parseAny) url s).1.2) := by
  unfold FetchFeed documentAt
  simp only [storeRuntime]
  cases flt.get url with
  | error err => rfl
  | ok resp =>
    simp only
    cases resp.Body with
    | error err => rfl
    | ok dat =>
      simp only
      cases unmarshal dat <;> rfl

theorem insertItems_store (flt : Faults) (unmarshal : Bytes → Except String RSSFeed)
    (parseAny : String → Except String Instant) (feed : Feed) (items : List RSSItem)
    (s : Store) :
    (insertItems (storeQueries flt) (storeRuntime flt unmarshal parseAny) feed items s).1.posts.map
        Post.content
      = ingest flt.create parseAny feed items (s.posts.map Post.content)
    ∧ (insertItems (storeQueries flt) (storeRuntime flt unmarshal parseAny) feed items s).1.feeds
      = s.feeds := by
  induction items generalizing s with
  | nil => exact ⟨rfl, rfl⟩
  | cons item rest ih =>
    cases hp : parseAny item.PubDate with
    | error err =>
      rw [insertItems_skip _ _ feed item rest s err (by simpa [storeRuntime] using hp)]
      simp only [ingest, hp]
      exact ih s
    | ok t =>
      rw [insertItems_insert _ _ feed item rest s t (by simpa [storeRuntime] using hp)]
      simp only [ingest, hp]
      have hw : insertWorld (storeRuntime flt unmarshal parseAny) s
          = { s with next := s.next + 1 } := rfl
      have ha : (insertArg (storeRuntime flt unmarshal parseAny) feed item s t).FeedID = feed.ID
          ∧ (insertArg (storeRuntime flt unmarshal parseAny) feed item s t).Url = item.Link
          ∧ (insertArg (storeRuntime flt unmarshal parseAny) feed item s t).content
            = itemContent feed item t :=
        ⟨rfl, rfl, rfl⟩
      generalize insertArg (storeRuntime flt unmarshal parseAny) feed item s t = arg at ha ⊢
      rw [hw]
      have key := ih ((storeQueries flt).CreatePost arg { s with next := s.next + 1 }).2
      refine ⟨key.1.trans ?_, key.2.trans ?_⟩
      · simp only [storeQueries, Store.CreatePost, ha.1, ha.2.1]
        cases flt.create feed.ID item.Link with
        | some err => rfl
        | none =>
          have hk : (s.posts.any (fun p => decide (p.FeedID = feed.ID ∧ p.Url = item.Link)))
              = hasKey (s.posts.map Post.content) feed.ID item.Link := by
            rw [Bool.eq_iff_iff]
            simp [hasKey, List.any_eq_true, Post.content]
          simp only [hk]
          cases hasKey (s.posts.map Post.content) feed.ID item.Link with
          | true => rfl
          | false =>
            simp only [Bool.false_eq_true, if_false, List.map_append, List.map_cons,
              List.map_nil]
            have hfields := ha.2.2
            simp only [CreatePostParams.content, itemContent, PostContent.mk.injEq] at hfields
            simp [Post.content, itemContent, hfields]
      · simp only [storeQueries, Store.CreatePost]
        cases flt.create arg.FeedID arg.Url with
        | some err => rfl
        | none =>
          simp only
          split <;> rfl

theorem FetchFeed_store_world (flt : Faults) (unmarshal : Bytes → Except String RSSFeed)
    (parseAny : String → Except String Instant) (url : String) (s : Store) :
    (FetchFeed (storeRuntime flt unmarshal parseAny) url s).2.1 = s.elapsed flt := by
  rw [FetchFeed_world]
  rfl

/-- The Post Store after one worker, and the identifiers of the Feed Store, which
the worker does not change. -/
theorem ScrapeFeed_store (flt : Faults) (unmarshal : Bytes → Except String RSSFeed)
    (parseAny : String → Except String Instant) (feed : Feed) (s : Store) :
    (ScrapeFeed (storeQueries flt) (storeRuntime flt unmarshal parseAny) feed s).1.posts.map
        Post.content
      = scrape flt unmarshal parseAny (s.feeds.map Feed.ID) feed (s.posts.map Post.content)
    ∧ (ScrapeFeed (storeQueries flt) (storeRuntime flt unmarshal parseAny) feed s).1.feeds.map
        Feed.ID = s.feeds.map Feed.ID := by
  have hmark := Store.MarkFeedFetched_failure flt feed.ID s
  cases hm : failure ((storeQueries flt).MarkFeedFetched feed.ID s).1 with
  | some err =>
    rw [ScrapeFeed_mark_failed _ _ feed s err hm]
    have hno : ¬ (flt.mark feed.ID = none ∧ feed.ID ∈ s.feeds.map Feed.ID) := by
      intro h
      have := hmark.mpr h
      simp only [storeQueries] at hm
      rw [hm] at this
      cases this
    refine ⟨?_, Store.MarkFeedFetched_ids flt feed.ID s⟩
    simp only [storeQueries, Store.MarkFeedFetched_posts]
    unfold scrape
    cases hk : flt.mark feed.ID with
    | some e => rfl
    | none =>
      simp only
      rw [if_neg (fun hin => hno ⟨hk, hin⟩)]
  | none =>
    have hok := hmark.mp (by simpa [storeQueries] using hm)
    have hdoc := FetchFeed_document flt unmarshal parseAny feed.Url
      ((storeQueries flt).MarkFeedFetched feed.ID s).2
    have hscrape : scrape flt unmarshal parseAny (s.feeds.map Feed.ID) feed
        (s.posts.map Post.content)
        = match documentAt flt unmarshal feed.Url with
          | none => s.posts.map Post.content
          | some doc => ingest flt.create parseAny feed doc.Channel.Item
              (s.posts.map Post.content) := by
      unfold scrape
      rw [hok.1]
      simp only
      rw [if_pos hok.2]
    rw [hscrape]
    cases hd : documentAt flt unmarshal feed.Url with
    | none =>
      rw [hd] at hdoc
      simp only at hdoc
      rcases FetchFeed_cases (storeRuntime flt unmarshal parseAny) feed.Url
        ((storeQueries flt).MarkFeedFetched feed.ID s).2 with ⟨doc, h1, _⟩ | ⟨err, msg, h1, _⟩
      · rw [h1] at hdoc
        simp at hdoc
      · rw [ScrapeFeed_fetch_failed _ _ feed s err hm (by rw [h1])]
        simp only [FetchFeed_store_world, Store.elapsed, storeQueries,
          Store.MarkFeedFetched_posts, Store.MarkFeedFetched_ids, and_self]
    | some doc =>
      rw [hd] at hdoc
      simp only at hdoc
      rw [ScrapeFeed_collected _ _ feed s doc hm hdoc]
      have key := insertItems_store flt unmarshal parseAny feed doc.Channel.Item
        (FetchFeed (storeRuntime flt unmarshal parseAny) feed.Url
          ((storeQueries flt).MarkFeedFetched feed.ID s).2).2.1
      simp only
      rw [key.1, key.2]
      simp only [FetchFeed_store_world, Store.elapsed, storeQueries,
        Store.MarkFeedFetched_posts, Store.MarkFeedFetched_ids, and_self]

/-! ## The contents of the Post Store -/

theorem hasKey_append (cs ds : List PostContent) (feedID : UUID) (url : String) :
    hasKey (cs ++ ds) feedID url = (hasKey cs feedID url || hasKey ds feedID url) := by
  simp [hasKey, List.any_append]

theorem hasKey_itemContent (feed : Feed) (item : RSSItem) (t : Instant) (feedID : UUID)
    (url : String) :
    hasKey [itemContent feed item t] feedID url = decide (feed.ID = feedID ∧ item.Link = url) := by
  simp [hasKey, itemContent]

/-- The loop only adds to the Post Store. -/
theorem ingest_keeps (create : UUID → String → Option String)
    (parseAny : String → Except String Instant) (feed : Feed) (items : List RSSItem)
    (cs : List PostContent) (feedID : UUID) (url : String) (h : hasKey cs feedID url = true) :
    hasKey (ingest create parseAny feed items cs) feedID url = true := by
  induction items generalizing cs with
  | nil => exact h
  | cons item rest ih =>
    simp only [ingest]
    cases parseAny item.PubDate with
    | error err => exact ih cs h
    | ok t =>
      simp only
      cases create feed.ID item.Link with
      | some err => exact ih cs h
      | none =>
        simp only
        split
        · exact ih cs h
        · exact ih _ (by rw [hasKey_append, h]; rfl)

/-- After the loop, every item that the store could take is in the Post Store. -/
theorem ingest_covers (create : UUID → String → Option String)
    (parseAny : String → Except String Instant) (feed : Feed) (items : List RSSItem)
    (cs : List PostContent) (item : RSSItem) (hi : item ∈ items) (t : Instant)
    (hp : parseAny item.PubDate = .ok t) (hc : create feed.ID item.Link = none) :
    hasKey (ingest create parseAny feed items cs) feed.ID item.Link = true := by
  induction items generalizing cs with
  | nil => cases hi
  | cons head rest ih =>
    rcases List.mem_cons.mp hi with rfl | hrest
    · simp only [ingest, hp, hc]
      split
      · exact ingest_keeps create parseAny feed rest cs _ _ (by assumption)
      · exact ingest_keeps create parseAny feed rest _ _ _
          (by rw [hasKey_append, hasKey_itemContent]; simp)
    · simp only [ingest]
      cases parseAny head.PubDate with
      | error err => exact ih cs hrest
      | ok u =>
        simp only
        cases create feed.ID head.Link with
        | some err => exact ih cs hrest
        | none =>
          simp only
          split
          · exact ih cs hrest
          · exact ih _ hrest

/-- The loop changes nothing when every item that the store could take is present. -/
theorem ingest_fixed (create : UUID → String → Option String)
    (parseAny : String → Except String Instant) (feed : Feed) (items : List RSSItem)
    (cs : List PostContent)
    (h : ∀ item ∈ items, ∀ t, parseAny item.PubDate = .ok t →
      create feed.ID item.Link = none → hasKey cs feed.ID item.Link = true) :
    ingest create parseAny feed items cs = cs := by
  induction items with
  | nil => rfl
  | cons head rest ih =>
    have hrest := ih (fun item hi => h item (List.mem_cons_of_mem _ hi))
    simp only [ingest]
    cases hp : parseAny head.PubDate with
    | error err => exact hrest
    | ok u =>
      simp only
      cases hc : create feed.ID head.Link with
      | some err => exact hrest
      | none =>
        simp only
        rw [if_pos (h head (List.mem_cons_self _ _) u hp hc)]
        exact hrest

theorem ingest_idempotent (create : UUID → String → Option String)
    (parseAny : String → Except String Instant) (feed : Feed) (items : List RSSItem)
    (cs : List PostContent) :
    ingest create parseAny feed items (ingest create parseAny feed items cs)
      = ingest create parseAny feed items cs :=
  ingest_fixed create parseAny feed items _
    (fun item hi t hp hc => ingest_covers create parseAny feed items cs item hi t hp hc)

theorem scrape_idempotent (flt : Faults) (unmarshal : Bytes → Except String RSSFeed)
    (parseAny : String → Except String Instant) (ids : List UUID) (feed : Feed)
    (cs : List PostContent) :
    scrape flt unmarshal parseAny ids feed (scrape flt unmarshal parseAny ids feed cs)
      = scrape flt unmarshal parseAny ids feed cs := by
  unfold scrape
  cases flt.mark feed.ID with
  | some err => rfl
  | none =>
    simp only
    by_cases hin : feed.ID ∈ ids
    · simp only [if_pos hin]
      cases documentAt flt unmarshal feed.Url with
      | none => rfl
      | some doc => exact ingest_idempotent flt.create parseAny feed doc.Channel.Item cs
    · simp only [if_neg hin]

/-- On an empty-handed store (no pair of the document present), with distinct links
and no store failure on them, the loop adds exactly the dated items, in order. -/
theorem ingest_fresh (create : UUID → String → Option String)
    (parseAny : String → Except String Instant) (feed : Feed) (items : List RSSItem)
    (cs : List PostContent)
    (hc : ∀ item ∈ items, create feed.ID item.Link = none)
    (hd : (items.map RSSItem.Link).Nodup)
    (hk : ∀ item ∈ items, hasKey cs feed.ID item.Link = false) :
    ingest create parseAny feed items cs = cs ++ acceptedContents parseAny feed items := by
  induction items generalizing cs with
  | nil => simp [ingest, acceptedContents]
  | cons head rest ih =>
    have hc1 := hc head (List.mem_cons_self _ _)
    have hk1 := hk head (List.mem_cons_self _ _)
    have hcr : ∀ item ∈ rest, create feed.ID item.Link = none :=
      fun item hi => hc item (List.mem_cons_of_mem _ hi)
    have hkr : ∀ item ∈ rest, hasKey cs feed.ID item.Link = false :=
      fun item hi => hk item (List.mem_cons_of_mem _ hi)
    rw [List.map_cons, List.nodup_cons] at hd
    simp only [ingest, acceptedContents]
    cases parseAny head.PubDate with
    | error err => exact ih cs hcr hd.2 hkr
    | ok t =>
      simp only [hc1, hk1, Bool.false_eq_true, if_false]
      rw [ih (cs ++ [itemContent feed head t]) hcr hd.2, List.append_assoc]
      · rfl
      · intro item hi
        rw [hasKey_append, hkr item hi, hasKey_itemContent]
        have hne : head.Link ≠ item.Link := by
          intro heq
          exact hd.1 (heq ▸ List.mem_map_of_mem RSSItem.Link hi)
        simp [hne]

/-- The post rows after a worker are those before it, followed by new ones. -/
theorem insertItems_posts_grow (flt : Faults) (unmarshal : Bytes → Except String RSSFeed)
    (parseAny : String → Except String Instant) (feed : Feed) (items : List RSSItem)
    (s : Store) :
    ∃ added, (insertItems (storeQueries flt) (storeRuntime flt unmarshal parseAny) feed items
      s).1.posts = s.posts ++ added := by
  induction items generalizing s with
  | nil => exact ⟨[], by simp [insertItems]⟩
  | cons item rest ih =>
    cases hp : parseAny item.PubDate with
    | error err =>
      rw [insertItems_skip _ _ feed item rest s err (by simpa [storeRuntime] using hp)]
      exact ih s
    | ok t =>
      rw [insertItems_insert _ _ feed item rest s t (by simpa [storeRuntime] using hp)]
      obtain ⟨added, hadd⟩ := ih ((storeQueries flt).CreatePost
        (insertArg (storeRuntime flt unmarshal parseAny) feed item s t)
        (insertWorld (storeRuntime flt unmarshal parseAny) s)).2
      have hstep : ∃ one, ((storeQueries flt).CreatePost
          (insertArg (storeRuntime flt unmarshal parseAny) feed item s t)
          (insertWorld (storeRuntime flt unmarshal parseAny) s)).2.posts = s.posts ++ one := by
        simp only [storeQueries, Store.CreatePost]
        cases flt.create _ _ with
        | some err => exact ⟨[], by simp [Store.elapsed, insertWorld, storeRuntime]⟩
        | none =>
          simp only
          split
          · exact ⟨[], by simp [Store.elapsed, insertWorld, storeRuntime]⟩
          · exact ⟨_, rfl⟩
      obtain ⟨one, hone⟩ := hstep
      exact ⟨one ++ added, by simp only [hadd, hone, List.append_assoc]⟩

theorem ScrapeFeed_posts_grow (flt : Faults) (unmarshal : Bytes → Except String RSSFeed)
    (parseAny : String → Except String Instant) (feed : Feed) (s : Store) :
    ∃ added, (ScrapeFeed (storeQueries flt) (storeRuntime flt unmarshal parseAny) feed
      s).1.posts = s.posts ++ added := by
  cases hm : failure ((storeQueries flt).MarkFeedFetched feed.ID s).1 with
  | some err =>
    rw [ScrapeFeed_mark_failed _ _ feed s err hm]
    exact ⟨[], by simp [storeQueries, Store.MarkFeedFetched_posts]⟩
  | none =>
    rcases FetchFeed_cases (storeRuntime flt unmarshal parseAny) feed.Url
      ((storeQueries flt).MarkFeedFetched feed.ID s).2 with ⟨doc, h1, _⟩ | ⟨err, msg, h1, _⟩
    · rw [ScrapeFeed_collected _ _ feed s doc hm h1]
      obtain ⟨added, hadd⟩ := insertItems_posts_grow flt unmarshal parseAny feed
        doc.Channel.Item (FetchFeed (storeRuntime flt unmarshal parseAny) feed.Url
          ((storeQueries flt).MarkFeedFetched feed.ID s).2).2.1
      refine ⟨added, ?_⟩
      simp only
      rw [hadd]
      simp only [FetchFeed_store_world, Store.elapsed, storeQueries,
        Store.MarkFeedFetched_posts]
    · rw [ScrapeFeed_fetch_failed _ _ feed s err hm (by rw [h1])]
      exact ⟨[], by simp [FetchFeed_store_world, Store.elapsed, storeQueries,
        Store.MarkFeedFetched_posts]⟩

theorem documentAt_of_fetched (flt : Faults) (unmarshal : Bytes → Except String RSSFeed)
    (parseAny : String → Except String Instant) (url : String) (s : Store) (doc : RSSFeed)
    (hf : (FetchFeed (storeRuntime flt unmarshal parseAny) url s).1 = (some doc, none)) :
    documentAt flt unmarshal url = some doc := by
  have h := FetchFeed_document flt unmarshal parseAny url s
  rw [hf] at h
  cases hd : documentAt flt unmarshal url with
  | none => rw [hd] at h; simp at h
  | some d => rw [hd] at h; simp at h; rw [h]

/-- C1 (amended): when marking and fetching succeed, the post store is empty, the
item links are pairwise distinct and the store fails on no insert of the document,
the posts stored by ScrapeFeed are exactly the items whose pubDate the date parser
accepts, in document order: an item whose pubDate does not parse is skipped and
every other item is stored. -/
theorem ScrapeFeed_stores_dated_items (flt : Faults)
    (unmarshal : Bytes → Except String RSSFeed) (parseAny : String → Except String Instant)
    (feed : Feed) (s : Store) (doc : RSSFeed)
    (hm : failure ((storeQueries flt).MarkFeedFetched feed.ID s).1 = none)
    (hf : (FetchFeed (storeRuntime flt unmarshal parseAny) feed.Url
      ((storeQueries flt).MarkFeedFetched feed.ID s).2).1 = (some doc, none))
    (he : s.posts = [])
    (hd : (doc.Channel.Item.map RSSItem.Link).Nodup)
    (hc : ∀ item ∈ doc.Channel.Item, flt.create feed.ID item.Link = none) :
    (ScrapeFeed (storeQueries flt) (storeRuntime flt unmarshal parseAny) feed s).1.posts.map
        Post.content
      = acceptedContents parseAny feed doc.Channel.Item := by
  rw [(ScrapeFeed_store flt unmarshal parseAny feed s).1]
  have hok := (Store.MarkFeedFetched_failure flt feed.ID s).mp (by simpa [storeQueries] using hm)
  have hdoc := documentAt_of_fetched flt unmarshal parseAny feed.Url _ doc hf
  unfold scrape
  rw [hok.1]
  simp only
  rw [if_pos hok.2, hdoc, he]
  simp only [List.map_nil]
  rw [ingest_fresh flt.create parseAny feed doc.Channel.Item [] hc hd (fun _ _ => rfl)]
  rfl

/-- C1 (amended), evaluated on the document with one undated and one dated item. -/
theorem ScrapeFeed_stores_dated_items_witness :
    (ScrapeFeed (storeQueries demoFaults) (storeRuntime demoFaults demoUnmarshal demoParseAny)
        (demoFeed 1 "http://a") demoStore).1.posts.map Post.content
      = acceptedContents demoParseAny (demoFeed 1 "http://a") demoDoc.Channel.Item :=
  ScrapeFeed_stores_dated_items demoFaults demoUnmarshal demoParseAny (demoFeed 1 "http://a")
    demoStore demoDoc (by decide) (by decide) (by decide) (by decide) (by decide)

/-- C1 as stated fails: marking and fetching succeed, the post store is empty and
the links are distinct, yet the dated item is not stored, because the store
answers the insert with a connection error, which ScrapeFeed logs and passes over. -/
theorem ScrapeFeed_stores_dated_items_counterexample :
    failure ((storeQueries insertFaults).MarkFeedFetched (demoFeed 1 "http://a").ID
        demoStore).1 = none
      ∧ (FetchFeed (storeRuntime insertFaults demoUnmarshal demoParseAny)
          (demoFeed 1 "http://a").Url
          ((storeQueries insertFaults).MarkFeedFetched (demoFeed 1 "http://a").ID
            demoStore).2).1 = (some demoDoc, none)
      ∧ demoStore.posts = []
      ∧ (demoDoc.Channel.Item.map RSSItem.Link).Nodup
      ∧ acceptedContents demoParseAny (demoFeed 1 "http://a") demoDoc.Channel.Item
        = [itemContent (demoFeed 1 "http://a")
            { Title := "t", Link := "http://x/2", Description := "",
              PubDate := "Mon, 02 Jan 2006 15:04:05 GMT" } 1136214245]
      ∧ (ScrapeFeed (storeQueries insertFaults)
          (storeRuntime insertFaults demoUnmarshal demoParseAny)
          (demoFeed 1 "http://a") demoStore).1.posts = [] := by
  decide

/-- A second worker for the same feed, in surroundings that serve the same answer
at the feed URL and in which the store failures of the first recur, leaves the
contents that the first left. -/
theorem scrape_again (first second : Faults) (unmarshal : Bytes → Except String RSSFeed)
    (parseAny : String → Except String Instant) (ids : List UUID) (feed : Feed)
    (cs : List PostContent)
    (hget : second.get feed.Url = first.get feed.Url)
    (hmark : first.mark feed.ID ≠ none → second.mark feed.ID ≠ none)
    (hcreate : ∀ url, first.create feed.ID url ≠ none → second.create feed.ID url ≠ none) :
    scrape second unmarshal parseAny ids feed (scrape first unmarshal parseAny ids feed cs)
      = scrape first unmarshal parseAny ids feed cs := by
  have hdoc : documentAt second unmarshal feed.Url = documentAt first unmarshal feed.Url := by
    unfold documentAt
    rw [hget]
  cases h1 : first.mark feed.ID with
  | some e =>
    have h2 := hmark (by rw [h1]; simp)
    cases h2e : second.mark feed.ID with
    | none => exact absurd h2e h2
    | some e2 => simp only [scrape, h1, h2e]
  | none =>
    by_cases hin : feed.ID ∈ ids
    · cases hd : documentAt first unmarshal feed.Url with
      | none =>
        have e1 : scrape first unmarshal parseAny ids feed cs = cs := by
          simp only [scrape, h1, if_pos hin, hd]
        rw [e1]
        unfold scrape
        cases second.mark feed.ID with
        | some e2 => rfl
        | none => simp only [if_pos hin, hdoc, hd]
      | some doc =>
        have e1 : scrape first unmarshal parseAny ids feed cs
            = ingest first.create parseAny feed doc.Channel.Item cs := by
          simp only [scrape, h1, if_pos hin, hd]
        rw [e1]
        unfold scrape
        cases second.mark feed.ID with
        | some e2 => rfl
        | none =>
          simp only [if_pos hin, hdoc, hd]
          exact ingest_fixed second.create parseAny feed doc.Channel.Item _
            (fun item hi t hp hc2 =>
              ingest_covers first.create parseAny feed doc.Channel.Item cs item hi t hp
                (by
                  by_contra hne
                  exact hcreate item.Link hne hc2))
    · have e1 : scrape first unmarshal parseAny ids feed cs = cs := by
        simp only [scrape, h1, if_neg hin]
      rw [e1]
      unfold scrape
      cases second.mark feed.ID with
      | some e2 => rfl
      | none => simp only [if_neg hin]

/-- C2 (amended): running ScrapeFeed a second time for the same feed, with the same
answer at the feed URL, on the store that rejects a second row for a (feed, link)
pair, leaves the posts that the first run left, and so the same number of posts
of the feed, provided every store failure of the first run other than a
uniqueness violation (a failed mark of the feed, a failed insert of a link)
recurs in the second run; in particular when the first run meets no such
failure. -/
theorem ScrapeFeed_twice_same_posts (first second : Faults)
    (unmarshal : Bytes → Except String RSSFeed) (parseAny : String → Except String Instant)
    (feed : Feed) (s : Store)
    (hget : second.get feed.Url = first.get feed.Url)
    (hmark : first.mark feed.ID ≠ none → second.mark feed.ID ≠ none)
    (hcreate : ∀ url, first.create feed.ID url ≠ none → second.create feed.ID url ≠ none) :
    (ScrapeFeed (storeQueries second) (storeRuntime second unmarshal parseAny) feed
        (ScrapeFeed (storeQueries first) (storeRuntime first unmarshal parseAny) feed s).1).1.posts
      = (ScrapeFeed (storeQueries first) (storeRuntime first unmarshal parseAny) feed s).1.posts
    ∧ ((ScrapeFeed (storeQueries second) (storeRuntime second unmarshal parseAny) feed
        (ScrapeFeed (storeQueries first) (storeRuntime first unmarshal parseAny) feed
          s).1).1.posts.filter (fun p => p.FeedID = feed.ID)).length
      = ((ScrapeFeed (storeQueries first) (storeRuntime first unmarshal parseAny) feed
          s).1.posts.filter (fun p => p.FeedID = feed.ID)).length := by
  have once := ScrapeFeed_store first unmarshal parseAny feed s
  have twice := ScrapeFeed_store second unmarshal parseAny feed
    (ScrapeFeed (storeQueries first) (storeRuntime first unmarshal parseAny) feed s).1
  obtain ⟨added, hadd⟩ := ScrapeFeed_posts_grow second unmarshal parseAny feed
    (ScrapeFeed (storeQueries first) (storeRuntime first unmarshal parseAny) feed s).1
  have hsame : (ScrapeFeed (storeQueries second) (storeRuntime second unmarshal parseAny) feed
      (ScrapeFeed (storeQueries first) (storeRuntime first unmarshal parseAny) feed s).1).1.posts
      = (ScrapeFeed (storeQueries first) (storeRuntime first unmarshal parseAny) feed
          s).1.posts := by
    have hcontent := twice.1
    rw [once.2, once.1,
      scrape_again first second unmarshal parseAny _ feed _ hget hmark hcreate,
      ← once.1, hadd] at hcontent
    have hlen := congrArg List.length hcontent
    simp only [List.map_append, List.length_append, List.length_map] at hlen
    have hnil : added = [] := List.length_eq_zero.mp (by omega)
    rw [hadd, hnil, List.append_nil]
  exact ⟨hsame, by rw [hsame]⟩

/-- C2 (amended), evaluated on two runs without store failures: the first stores
the dated item, the second is refused the same row and adds nothing. -/
theorem ScrapeFeed_twice_same_posts_witness :
    (ScrapeFeed (storeQueries demoFaults) (storeRuntime demoFaults demoUnmarshal demoParseAny)
        (demoFeed 1 "http://a") demoStore).1.posts.length = 1
    ∧ (ScrapeFeed (storeQueries demoFaults) (storeRuntime demoFaults demoUnmarshal demoParseAny)
        (demoFeed 1 "http://a")
        (ScrapeFeed (storeQueries demoFaults)
          (storeRuntime demoFaults demoUnmarshal demoParseAny)
          (demoFeed 1 "http://a") demoStore).1).1.posts
      = (ScrapeFeed (storeQueries demoFaults)
          (storeRuntime demoFaults demoUnmarshal demoParseAny)
          (demoFeed 1 "http://a") demoStore).1.posts :=
  ⟨by decide,
    (ScrapeFeed_twice_same_posts demoFaults demoFaults demoUnmarshal demoParseAny
      (demoFeed 1 "http://a") demoStore rfl (fun h => h) (fun _ h => h)).1⟩

/-- C2 as stated fails: the same document, with the dated items 2 and 4, is served
in both runs and the store rejects a second row for a (feed, link) pair, but the
store fails on the insert of item 2 in one run and on that of item 4 in the
other. One run leaves one post, whichever run it is, and the two runs together
leave two. -/
theorem ScrapeFeed_twice_same_posts_counterexample :
    documentAt firstFaults demoUnmarshal "http://a" = some pairDoc
    ∧ documentAt secondFaults demoUnmarshal "http://a" = some pairDoc
    ∧ (ScrapeFeed (storeQueries firstFaults)
        (storeRuntime firstFaults demoUnmarshal demoParseAny)
        (demoFeed 1 "http://a") demoStore).1.posts.map Post.Url = ["http://x/4"]
    ∧ (ScrapeFeed (storeQueries secondFaults)
        (storeRuntime secondFaults demoUnmarshal demoParseAny)
        (demoFeed 1 "http://a") demoStore).1.posts.map Post.Url = ["http://x/2"]
    ∧ (ScrapeFeed (storeQueries secondFaults)
        (storeRuntime secondFaults demoUnmarshal demoParseAny) (demoFeed 1 "http://a")
        (ScrapeFeed (storeQueries firstFaults)
          (storeRuntime firstFaults demoUnmarshal demoParseAny)
          (demoFeed 1 "http://a") demoStore).1).1.posts.map Post.Url
      = ["http://x/4", "http://x/2"]
    ∧ ((ScrapeFeed (storeQueries secondFaults)
        (storeRuntime secondFaults demoUnmarshal demoParseAny) (demoFeed 1 "http://a")
        (ScrapeFeed (storeQueries firstFaults)
          (storeRuntime firstFaults demoUnmarshal demoParseAny)
          (demoFeed 1 "http://a") demoStore).1).1.posts.filter
          (fun p => p.FeedID = (demoFeed 1 "http://a").ID)).length = 2
    ∧ ((ScrapeFeed (storeQueries firstFaults)
        (storeRuntime firstFaults demoUnmarshal demoParseAny)
        (demoFeed 1 "http://a") demoStore).1.posts.filter
          (fun p => p.FeedID = (demoFeed 1 "http://a").ID)).length = 1 := by
  decide

/-- C5: when FetchFeed returns an error (the request, the reading of the body or
the decoding failed), ScrapeFeed attempts no insert and the posts of the store
are those from before the worker ran. -/
theorem ScrapeFeed_fetch_error_stores_nothing (flt : Faults)
    (unmarshal : Bytes → Except String RSSFeed) (parseAny : String → Except String Instant)
    (feed : Feed) (s : Store) (err : String)
    (hm : failure ((storeQueries flt).MarkFeedFetched feed.ID s).1 = none)
    (hf : (FetchFeed (storeRuntime flt unmarshal parseAny) feed.Url
      ((storeQueries flt).MarkFeedFetched feed.ID s).2).1.2 = some err) :
    attempts (ScrapeFeed (storeQueries flt) (storeRuntime flt unmarshal parseAny) feed s).2 = []
      ∧ (ScrapeFeed (storeQueries flt) (storeRuntime flt unmarshal parseAny) feed s).1.posts
        = s.posts := by
  rw [ScrapeFeed_fetch_failed _ _ feed s err hm hf]
  constructor
  · rw [show ∀ (e : Event) (l : List Event), e :: l = [e] ++ l from fun _ _ => rfl]
    simp only [attempts_append, attempts_FetchFeed]
    rfl
  · simp only [FetchFeed_store_world, Store.elapsed, storeQueries, Store.MarkFeedFetched_posts]

/-- C5, evaluated on the feed whose body does not decode. -/
theorem ScrapeFeed_fetch_error_stores_nothing_witness :
    (FetchFeed (storeRuntime demoFaults demoUnmarshal demoParseAny) (demoFeed 2 "http://b").Url
        ((storeQueries demoFaults).MarkFeedFetched (demoFeed 2 "http://b").ID demoStore).2).1.2
        = some "EOF"
      ∧ attempts (ScrapeFeed (storeQueries demoFaults)
          (storeRuntime demoFaults demoUnmarshal demoParseAny)
          (demoFeed 2 "http://b") demoStore).2 = []
      ∧ (ScrapeFeed (storeQueries demoFaults)
          (storeRuntime demoFaults demoUnmarshal demoParseAny)
          (demoFeed 2 "http://b") demoStore).1.posts = demoStore.posts :=
  ⟨by decide,
    ScrapeFeed_fetch_error_stores_nothing demoFaults demoUnmarshal demoParseAny
      (demoFeed 2 "http://b") demoStore "EOF" (by decide) (by decide)⟩

/-- C7 (amended): when the insert for an item returns an error, the loop goes on
to the next item without a log record exactly when the message of the error
contains `duplicate key value violates unique constraint`, whichever constraint
the message names; for every other error it logs `Couldn't create post` and goes
on. The store's rejection of a second row for a (feed, link) pair is such an
error: on the store of the specification an insert whose pair is present fails
with a message that contains the text. -/
theorem insert_error_silent_iff_duplicate_text {σ : Type} (db : Queries σ) (rt : Runtime σ)
    (feed : Feed) (item : RSSItem) (rest : List RSSItem) (s : σ) (t : Instant) (err : String)
    (hp : rt.ParseAny item.PubDate = .ok t)
    (hc : failure (db.CreatePost (insertArg rt feed item s t) (insertWorld rt s)).1 = some err) :
    (Contains err duplicateKeyText = true →
      (insertItems db rt feed (item :: rest) s).2
        = Event.CreatePost (insertArg rt feed item s t) (some err)
          :: (insertItems db rt feed rest
                (db.CreatePost (insertArg rt feed item s t) (insertWorld rt s)).2).2)
    ∧ (Contains err duplicateKeyText = false →
      (insertItems db rt feed (item :: rest) s).2
        = Event.CreatePost (insertArg rt feed item s t) (some err)
          :: Event.Error "Couldn't create post"
          :: (insertItems db rt feed rest
                (db.CreatePost (insertArg rt feed item s t) (insertWorld rt s)).2).2)
    ∧ (∀ (flt : Faults) (arg : CreatePostParams) (w : Store),
        flt.create arg.FeedID arg.Url = none →
        w.posts.any (fun p => p.FeedID = arg.FeedID ∧ p.Url = arg.Url) = true →
        ∃ msg, failure ((storeQueries flt).CreatePost arg w).1 = some msg
          ∧ Contains msg duplicateKeyText = true) := by
  have htrace := insertItems_insert db rt feed item rest s t hp
  refine ⟨?_, ?_, ?_⟩
  · intro hdup
    rw [htrace, hc]
    simp only [insertLog, hdup, if_true]
    rfl
  · intro hother
    rw [htrace, hc]
    simp only [insertLog, hother, Bool.false_eq_true, if_false]
    rfl
  · intro flt arg w hflt hkey
    refine ⟨uniqueViolation, ?_, by decide⟩
    simp only [storeQueries, Store.CreatePost, hflt]
    rw [if_pos hkey]
    rfl

/-- C7 (amended), evaluated on a store that already holds the (feed, link) pair of
the item: the insert is rejected and no record is logged. -/
theorem insert_error_silent_iff_duplicate_text_witness :
    (insertItems (storeQueries demoFaults) (storeRuntime demoFaults demoUnmarshal demoParseAny)
        (demoFeed 1 "http://a")
        [{ Title := "t", Link := "http://x/2", Description := "",
           PubDate := "Mon, 02 Jan 2006 15:04:05 GMT" }]
        (ScrapeFeed (storeQueries demoFaults)
          (storeRuntime demoFaults demoUnmarshal demoParseAny)
          (demoFeed 1 "http://a") demoStore).1).2
        = Event.CreatePost
            (insertArg (storeRuntime demoFaults demoUnmarshal demoParseAny)
              (demoFeed 1 "http://a")
              { Title := "t", Link := "http://x/2", Description := "",
                PubDate := "Mon, 02 Jan 2006 15:04:05 GMT" }
              (ScrapeFeed (storeQueries demoFaults)
                (storeRuntime demoFaults demoUnmarshal demoParseAny)
                (demoFeed 1 "http://a") demoStore).1 1136214245)
            (some uniqueViolation)
          :: (insertItems (storeQueries demoFaults)
                (storeRuntime demoFaults demoUnmarshal demoParseAny)
                (demoFeed 1 "http://a") []
                ((storeQueries demoFaults).CreatePost
                  (insertArg (storeRuntime demoFaults demoUnmarshal demoParseAny)
                    (demoFeed 1 "http://a")
                    { Title := "t", Link := "http://x/2", Description := "",
                      PubDate := "Mon, 02 Jan 2006 15:04:05 GMT" }
                    (ScrapeFeed (storeQueries demoFaults)
                      (storeRuntime demoFaults demoUnmarshal demoParseAny)
                      (demoFeed 1 "http://a") demoStore).1 1136214245)
                  (insertWorld (storeRuntime demoFaults demoUnmarshal demoParseAny)
                    (ScrapeFeed (storeQueries demoFaults)
                      (storeRuntime demoFaults demoUnmarshal demoParseAny)
                      (demoFeed 1 "http://a") demoStore).1)).2).2 :=
  (insert_error_silent_iff_duplicate_text (storeQueries demoFaults)
    (storeRuntime demoFaults demoUnmarshal demoParseAny) (demoFeed 1 "http://a")
    { Title := "t", Link := "http://x/2", Description := "",
      PubDate := "Mon, 02 Jan 2006 15:04:05 GMT" } []
    (ScrapeFeed (storeQueries demoFaults) (storeRuntime demoFaults demoUnmarshal demoParseAny)
      (demoFeed 1 "http://a") demoStore).1 1136214245 uniqueViolation rfl (by decide)).1
    (by decide)

/-- C7 as stated fails: on a store without any post, so that no (feed, link) pair
can be violated, the insert of the item fails with a uniqueness violation that
names the primary key; the loop passes over it and logs no
`Couldn't create post`. -/
theorem insert_error_silent_iff_duplicate_counterexample :
    demoStore.posts = []
    ∧ failure ((storeQueries pkeyFaults).CreatePost
        (insertArg (storeRuntime pkeyFaults demoUnmarshal demoParseAny) (demoFeed 1 "http://a")
          { Title := "t", Link := "http://x/2", Description := "",
            PubDate := "Mon, 02 Jan 2006 15:04:05 GMT" } demoStore 1136214245)
        (insertWorld (storeRuntime pkeyFaults demoUnmarshal demoParseAny) demoStore)).1
      = some pkeyViolation
    ∧ pkeyViolation ≠ uniqueViolation
    ∧ (insertItems (storeQueries pkeyFaults)
        (storeRuntime pkeyFaults demoUnmarshal demoParseAny) (demoFeed 1 "http://a")
        [{ Title := "t", Link := "http://x/2", Description := "",
           PubDate := "Mon, 02 Jan 2006 15:04:05 GMT" }] demoStore).2
      = [Event.CreatePost
          (insertArg (storeRuntime pkeyFaults demoUnmarshal demoParseAny)
            (demoFeed 1 "http://a")
            { Title := "t", Link := "http://x/2", Description := "",
              PubDate := "Mon, 02 Jan 2006 15:04:05 GMT" } demoStore 1136214245)
          (some pkeyViolation)]
    ∧ Event.Error "Couldn't create post"
      ∉ (insertItems (storeQueries pkeyFaults)
        (storeRuntime pkeyFaults demoUnmarshal demoParseAny) (demoFeed 1 "http://a")
        [{ Title := "t", Link := "http://x/2", Description := "",
           PubDate := "Mon, 02 Jan 2006 15:04:05 GMT" }] demoStore).2 := by
  decide

/-! ## The events of a worker -/

theorem insertItems_steps {σ : Type} (db : Queries σ) (rt : Runtime σ) (feed : Feed)
    (items : List RSSItem) (s : σ) :
    ∀ e ∈ (insertItems db rt feed items s).2, e.isStep = true := by
  induction items generalizing s with
  | nil => intro e he; cases he
  | cons item rest ih =>
    cases hp : rt.ParseAny item.PubDate with
    | error err =>
      rw [insertItems_skip db rt feed item rest s err hp]
      intro e he
      simp only [List.mem_cons] at he
      rcases he with rfl | rfl | he
      · rfl
      · rfl
      · exact ih s e he
    | ok t =>
      rw [insertItems_insert db rt feed item rest s t hp]
      intro e he
      simp only [List.mem_cons, List.mem_append] at he
      rcases he with (rfl | he) | he
      · rfl
      · unfold insertLog at he
        split at he
        · cases he
        · split at he
          · cases he
          · simp only [List.mem_singleton] at he
            rw [he]
            rfl
      · exact ih _ e he

/-- The trace of a worker: steps of the worker, then one `wg.Done()`. -/
theorem ScrapeFeed_trace {σ : Type} (db : Queries σ) (rt : Runtime σ) (feed : Feed) (s : σ) :
    ∃ steps, (ScrapeFeed db rt feed s).2 = steps ++ [Event.Done]
      ∧ ∀ e ∈ steps, e.isStep = true := by
  cases hm : failure (db.MarkFeedFetched feed.ID s).1 with
  | some err =>
    rw [ScrapeFeed_mark_failed db rt feed s err hm]
    refine ⟨[Event.MarkFeedFetched feed.ID (some err),
      Event.Error "Couldn't mark feed fetched"], rfl, ?_⟩
    intro e he
    simp only [List.mem_cons, List.mem_singleton, List.not_mem_nil, or_false] at he
    rcases he with rfl | rfl <;> rfl
  | none =>
    rcases FetchFeed_cases rt feed.Url (db.MarkFeedFetched feed.ID s).2
      with ⟨doc, h1, h2⟩ | ⟨err, msg, h1, h2⟩
    · rw [ScrapeFeed_collected db rt feed s doc hm h1, h2]
      refine ⟨Event.MarkFeedFetched feed.ID none :: Event.Get feed.Url 10
        :: (insertItems db rt feed doc.Channel.Item
            (FetchFeed rt feed.Url (db.MarkFeedFetched feed.ID s).2).2.1).2
        ++ [Event.Info "Feed %s collected, %v posts found"], by simp, ?_⟩
      intro e he
      simp only [List.mem_cons, List.mem_append, List.mem_singleton, List.not_mem_nil,
        or_false] at he
      rcases he with (rfl | rfl | he) | rfl
      · rfl
      · rfl
      · exact insertItems_steps db rt feed _ _ e he
      · rfl
    · rw [ScrapeFeed_fetch_failed db rt feed s err hm (by rw [h1]), h2]
      refine ⟨[Event.MarkFeedFetched feed.ID none, Event.Get feed.Url 10, Event.Error msg,
        Event.Error "Couldn't collect feed"], rfl, ?_⟩
      intro e he
      simp only [List.mem_cons, List.mem_singleton, List.not_mem_nil, or_false] at he
      rcases he with rfl | rfl | rfl | rfl <;> rfl

theorem dispatched_steps (steps : List Event) (h : ∀ e ∈ steps, e.isStep = true) :
    dispatched steps = [] := by
  induction steps with
  | nil => rfl
  | cons e rest ih =>
    have he := h e (List.mem_cons_self _ _)
    have hr := ih (fun x hx => h x (List.mem_cons_of_mem _ hx))
    unfold dispatched at hr ⊢
    cases e <;> simp_all [Event.isStep, Event.worker]

theorem dones_steps (steps : List Event) (h : ∀ e ∈ steps, e.isStep = true) :
    dones steps = 0 := by
  unfold dones
  rw [List.count_eq_zero]
  intro hin
  have := h _ hin
  simp [Event.isStep] at this

theorem dispatched_append (a b : List Event) :
    dispatched (a ++ b) = dispatched a ++ dispatched b := by
  simp [dispatched]

theorem dones_append (a b : List Event) : dones (a ++ b) = dones a + dones b := by
  simp [dones]

theorem runWorkers_trace {σ : Type} (db : Queries σ) (rt : Runtime σ) (order : List Feed)
    (s : σ) :
    dispatched (runWorkers db rt order s).2 = []
      ∧ dones (runWorkers db rt order s).2 = order.length := by
  induction order generalizing s with
  | nil => exact ⟨rfl, rfl⟩
  | cons feed rest ih =>
    obtain ⟨steps, htrace, hsteps⟩ := ScrapeFeed_trace db rt feed s
    have hrest := ih (ScrapeFeed db rt feed s).1
    simp only [runWorkers, htrace, dispatched_append, dones_append, hrest.1, hrest.2,
      dispatched_steps steps hsteps, dones_steps steps hsteps]
    exact ⟨rfl, by simp [dones]; omega⟩

theorem dispatched_dispatch (feeds : List Feed) : dispatched (dispatch feeds) = feeds := by
  induction feeds with
  | nil => rfl
  | cons feed rest ih =>
    simp only [dispatch, List.flatMap_cons] at ih ⊢
    rw [dispatched_append, ih]
    rfl

theorem dones_dispatch (feeds : List Feed) : dones (dispatch feeds) = 0 := by
  induction feeds with
  | nil => rfl
  | cons feed rest ih =>
    simp only [dispatch, List.flatMap_cons] at ih ⊢
    rw [dones_append, ih]
    rfl

/-! ## One tick -/

/-- The feeds that a tick selects: what `GetNextFeedsToFetch` returned, none on error. -/
theorem tick_trace {σ : Type} (db : Queries σ) (rt : Runtime σ)
    (sched : List Feed → List Feed) (concurrency : Int) (s : σ) :
    (∀ err, (db.GetNextFeedsToFetch (int32 concurrency) s).1 = .error err →
        (tick db rt sched concurrency s).2
          = [Event.GetNextFeedsToFetch (int32 concurrency) (some err),
              Event.Error "Couldn't get next feeds to fetch"])
      ∧ (∀ feeds, (db.GetNextFeedsToFetch (int32 concurrency) s).1 = .ok feeds →
        (tick db rt sched concurrency s).2
          = Event.GetNextFeedsToFetch (int32 concurrency) none
            :: Event.Info "Found %v feeds to fetch!" :: dispatch feeds
            ++ (runWorkers db rt (sched feeds)
                  (db.GetNextFeedsToFetch (int32 concurrency) s).2).2
            ++ [Event.Wait]) := by
  unfold tick
  rcases db.GetNextFeedsToFetch (int32 concurrency) s with ⟨res, s1⟩
  constructor
  · intro err h
    simp only at h
    subst h
    rfl
  · intro feeds h
    simp only at h
    subst h
    rfl

theorem tick_dispatched {σ : Type} (db : Queries σ) (rt : Runtime σ)
    (sched : List Feed → List Feed) (concurrency : Int) (s : σ) :
    dispatched (tick db rt sched concurrency s).2
      = match (db.GetNextFeedsToFetch (int32 concurrency) s).1 with
        | .ok feeds => feeds
        | .error _ => [] := by
  have h := tick_trace db rt sched concurrency s
  cases hsel : (db.GetNextFeedsToFetch (int32 concurrency) s).1 with
  | error err =>
    rw [h.1 err hsel]
    rfl
  | ok feeds =>
    rw [h.2 feeds hsel]
    simp only [dispatched_append, (runWorkers_trace db rt _ _).1]
    rw [show dispatched (Event.GetNextFeedsToFetch (int32 concurrency) none
        :: Event.Info "Found %v feeds to fetch!" :: dispatch feeds)
        = dispatched (dispatch feeds) from rfl, dispatched_dispatch,
      show dispatched [Event.Wait] = [] from rfl]
    simp

theorem int32_toNat_le (concurrency : Int) (h : 0 ≤ concurrency) :
    ((int32 concurrency).toNat : Int) ≤ concurrency := by
  unfold int32
  omega

theorem Store.GetNextFeedsToFetch_ok (flt : Faults) (limit : Int) (s : Store)
    (feeds : List Feed) (h : (Store.GetNextFeedsToFetch flt limit s).1 = .ok feeds) :
    feeds = (s.feeds.insertionSort (fun a b => staleFirst a b = true)).take limit.toNat := by
  unfold Store.GetNextFeedsToFetch at h
  cases hsel : flt.select with
  | some err => rw [hsel] at h; cases h
  | none =>
    rw [hsel] at h
    simp only [Except.ok.injEq] at h
    exact h.symm

theorem Store.GetNextFeedsToFetch_world (flt : Faults) (limit : Int) (s : Store) :
    (Store.GetNextFeedsToFetch flt limit s).2 = s.elapsed flt := by
  unfold Store.GetNextFeedsToFetch
  cases flt.select <;> rfl

/-- C9: in a tick, the workers dispatched are the feeds that GetNextFeedsToFetch
returned to StartScraping, each once and in that order, none when it failed; the
call is made with the limit `int32(K)`, which is K below `2^31`; and on the store
that returns up to `limit` feeds, at most K workers are dispatched (K positive). -/
theorem tick_dispatches_selected_feeds (flt : Faults)
    (unmarshal : Bytes → Except String RSSFeed) (parseAny : String → Except String Instant)
    (sched : List Feed → List Feed) (concurrency : Int) (s : Store) (hK : 0 < concurrency) :
    dispatched (tick (storeQueries flt) (storeRuntime flt unmarshal parseAny) sched
        concurrency s).2
      = (match ((storeQueries flt).GetNextFeedsToFetch (int32 concurrency) s).1 with
        | .ok feeds => feeds
        | .error _ => [])
    ∧ ((dispatched (tick (storeQueries flt) (storeRuntime flt unmarshal parseAny) sched
        concurrency s).2).length : Int) ≤ concurrency
    ∧ (concurrency < 2147483648 → int32 concurrency = concurrency) := by
  have hd := tick_dispatched (storeQueries flt) (storeRuntime flt unmarshal parseAny) sched
    concurrency s
  refine ⟨hd, ?_, fun h => by unfold int32; omega⟩
  rw [hd]
  cases hsel : ((storeQueries flt).GetNextFeedsToFetch (int32 concurrency) s).1 with
  | error err => simp only [List.length_nil]; omega
  | ok feeds =>
    simp only
    have hfeeds := Store.GetNextFeedsToFetch_ok flt (int32 concurrency) s feeds hsel
    have hlen : feeds.length ≤ (int32 concurrency).toNat := by
      rw [hfeeds, List.length_take]
      exact Nat.min_le_left _ _
    have hb := int32_toNat_le concurrency (le_of_lt hK)
    omega

/-- C9, evaluated on the store with two feeds and the concurrency 1. -/
theorem tick_dispatches_selected_feeds_witness :
    dispatched (tick (storeQueries demoFaults)
        (storeRuntime demoFaults demoUnmarshal demoParseAny) id 1 demoStore).2
      = [demoFeed 1 "http://a"]
    ∧ ((dispatched (tick (storeQueries demoFaults)
        (storeRuntime demoFaults demoUnmarshal demoParseAny) id 1 demoStore).2).length : Int) ≤ 1
    ∧ ((1 : Int) < 2147483648 → int32 1 = 1) :=
  tick_dispatches_selected_feeds demoFaults demoUnmarshal demoParseAny id 1 demoStore
    (by decide)

/-- C10 (amended): in a tick whose selection succeeds, the Scheduler starts one
worker per selected feed, which is K workers (the limit `int32(K)`) when the store
holds at least that many feeds and one per feed of the store when it holds fewer;
it receives one completion report per worker started, all of them before its Wait
returns, which is the last event of the tick. When selection fails it starts no
worker. -/
theorem tick_starts_one_worker_per_selected_feed (flt : Faults)
    (unmarshal : Bytes → Except String RSSFeed) (parseAny : String → Except String Instant)
    (sched : List Feed → List Feed) (concurrency : Int) (s : Store)
    (hsched : ∀ l, (sched l).Perm l) :
    (flt.select = none →
      (dispatched (tick (storeQueries flt) (storeRuntime flt unmarshal parseAny) sched
          concurrency s).2).length = min (int32 concurrency).toNat s.feeds.length
        ∧ dones (tick (storeQueries flt) (storeRuntime flt unmarshal parseAny) sched
            concurrency s).2
          = (dispatched (tick (storeQueries flt) (storeRuntime flt unmarshal parseAny) sched
              concurrency s).2).length
        ∧ ∃ before, (tick (storeQueries flt) (storeRuntime flt unmarshal parseAny) sched
              concurrency s).2 = before ++ [Event.Wait]
            ∧ dones before
              = (dispatched (tick (storeQueries flt) (storeRuntime flt unmarshal parseAny)
                  sched concurrency s).2).length)
    ∧ (flt.select ≠ none →
      dispatched (tick (storeQueries flt) (storeRuntime flt unmarshal parseAny) sched
          concurrency s).2 = []) := by
  have hd := tick_dispatched (storeQueries flt) (storeRuntime flt unmarshal parseAny) sched
    concurrency s
  have ht := tick_trace (storeQueries flt) (storeRuntime flt unmarshal parseAny) sched
    concurrency s
  constructor
  · intro hsel
    have hok : ((storeQueries flt).GetNextFeedsToFetch (int32 concurrency) s).1
        = .ok ((s.feeds.insertionSort (fun a b => staleFirst a b = true)).take
            (int32 concurrency).toNat) := by
      simp only [storeQueries, Store.GetNextFeedsToFetch, hsel]
    rw [hok] at hd
    rw [hd, ht.2 _ hok]
    have hlen : ((s.feeds.insertionSort (fun a b => staleFirst a b = true)).take
        (int32 concurrency).toNat).length = min (int32 concurrency).toNat s.feeds.length := by
      rw [List.length_take, List.length_insertionSort]
    have hbefore : dones (Event.GetNextFeedsToFetch (int32 concurrency) none
        :: Event.Info "Found %v feeds to fetch!"
        :: dispatch ((s.feeds.insertionSort (fun a b => staleFirst a b = true)).take
            (int32 concurrency).toNat)
        ++ (runWorkers (storeQueries flt) (storeRuntime flt unmarshal parseAny)
            (sched ((s.feeds.insertionSort (fun a b => staleFirst a b = true)).take
              (int32 concurrency).toNat))
            ((storeQueries flt).GetNextFeedsToFetch (int32 concurrency) s).2).2)
        = ((s.feeds.insertionSort (fun a b => staleFirst a b = true)).take
            (int32 concurrency).toNat).length := by
      rw [dones_append, (runWorkers_trace _ _ _ _).2, (hsched _).length_eq,
        show dones (Event.GetNextFeedsToFetch (int32 concurrency) none
          :: Event.Info "Found %v feeds to fetch!"
          :: dispatch ((s.feeds.insertionSort (fun a b => staleFirst a b = true)).take
              (int32 concurrency).toNat))
          = dones (dispatch ((s.feeds.insertionSort (fun a b => staleFirst a b = true)).take
              (int32 concurrency).toNat)) from rfl, dones_dispatch]
      omega
    refine ⟨hlen, ?_, _, rfl, hbefore⟩
    rw [dones_append, hbefore]
    rfl
  · intro hsel
    rw [hd]
    cases hs : flt.select with
    | none => exact absurd hs hsel
    | some err => simp only [storeQueries, Store.GetNextFeedsToFetch, hs]

/-- C10 (amended), evaluated on the store with two feeds and the concurrency 10. -/
theorem tick_starts_one_worker_per_selected_feed_witness :
    (dispatched (tick (storeQueries demoFaults)
        (storeRuntime demoFaults demoUnmarshal demoParseAny) id 10 demoStore).2).length
      = min (int32 10).toNat demoStore.feeds.length
    ∧ dones (tick (storeQueries demoFaults)
        (storeRuntime demoFaults demoUnmarshal demoParseAny) id 10 demoStore).2
      = (dispatched (tick (storeQueries demoFaults)
          (storeRuntime demoFaults demoUnmarshal demoParseAny) id 10 demoStore).2).length
    ∧ ∃ before, (tick (storeQueries demoFaults)
          (storeRuntime demoFaults demoUnmarshal demoParseAny) id 10 demoStore).2
          = before ++ [Event.Wait]
        ∧ dones before
          = (dispatched (tick (storeQueries demoFaults)
              (storeRuntime demoFaults demoUnmarshal demoParseAny) id 10 demoStore).2).length :=
  (tick_starts_one_worker_per_selected_feed demoFaults demoUnmarshal demoParseAny id 10
    demoStore (fun l => List.Perm.refl l)).1 rfl

/-- C10 as stated fails: with the concurrency 10 and a store of two feeds, the tick
starts two workers, not ten. -/
theorem tick_starts_K_workers_counterexample :
    (dispatched (tick (storeQueries demoFaults)
        (storeRuntime demoFaults demoUnmarshal demoParseAny) id 10 demoStore).2).length = 2
    ∧ dones (tick (storeQueries demoFaults)
        (storeRuntime demoFaults demoUnmarshal demoParseAny) id 10 demoStore).2 = 2
    ∧ ((dispatched (tick (storeQueries demoFaults)
        (storeRuntime demoFaults demoUnmarshal demoParseAny) id 10 demoStore).2).length : Int)
      ≠ 10 := by
  decide

/-! ## The Feed Store during a tick -/

theorem Store.MarkFeedFetched_feeds (flt : Faults) (id : UUID) (s : Store) :
    (Store.MarkFeedFetched flt id s).2.feeds
      = match flt.mark id with
        | some _ => s.feeds
        | none => s.feeds.map (markRow id (s.now + flt.elapse s.now)) := by
  unfold Store.MarkFeedFetched
  cases flt.mark id with
  | some err => rfl
  | none =>
    simp only
    cases hfind : s.feeds.find? (fun f => f.ID = id) with
    | none =>
      simp only [Store.elapsed]
      conv_lhs => rw [← List.map_id s.feeds]
      apply List.map_congr_left
      intro g hg
      have := List.find?_eq_none.mp hfind g hg
      simp only [decide_eq_true_eq] at this
      simp [markRow, this]
    | some f => rfl

theorem Store.MarkFeedFetched_now (flt : Faults) (id : UUID) (s : Store) :
    (Store.MarkFeedFetched flt id s).2.now = s.now + flt.elapse s.now := by
  unfold Store.MarkFeedFetched
  cases flt.mark id with
  | some err => rfl
  | none =>
    simp only
    cases s.feeds.find? (fun f => f.ID = id) <;> rfl

theorem insertItems_now (flt : Faults) (unmarshal : Bytes → Except String RSSFeed)
    (parseAny : String → Except String Instant) (feed : Feed) (items : List RSSItem)
    (s : Store) :
    s.now ≤ (insertItems (storeQueries flt) (storeRuntime flt unmarshal parseAny) feed items
      s).1.now := by
  induction items generalizing s with
  | nil => exact le_refl _
  | cons item rest ih =>
    cases hp : parseAny item.PubDate with
    | error err =>
      rw [insertItems_skip _ _ feed item rest s err (by simpa [storeRuntime] using hp)]
      exact ih s
    | ok t =>
      rw [insertItems_insert _ _ feed item rest s t (by simpa [storeRuntime] using hp)]
      refine le_trans ?_ (ih _)
      simp only [storeQueries, Store.CreatePost, insertWorld, storeRuntime]
      cases flt.create _ _ with
      | some err => simp [Store.elapsed]
      | none =>
        simp only
        split <;> simp [Store.elapsed]

/-- The Feed Store and the clock after one worker. -/
theorem ScrapeFeed_feeds (flt : Faults) (unmarshal : Bytes → Except String RSSFeed)
    (parseAny : String → Except String Instant) (feed : Feed) (s : Store) :
    (ScrapeFeed (storeQueries flt) (storeRuntime flt unmarshal parseAny) feed s).1.feeds
      = (match flt.mark feed.ID with
        | some _ => s.feeds
        | none => s.feeds.map (markRow feed.ID (s.now + flt.elapse s.now)))
    ∧ s.now ≤ (ScrapeFeed (storeQueries flt) (storeRuntime flt unmarshal parseAny) feed
        s).1.now := by
  have hfeeds := Store.MarkFeedFetched_feeds flt feed.ID s
  have hnow := Store.MarkFeedFetched_now flt feed.ID s
  cases hm : failure ((storeQueries flt).MarkFeedFetched feed.ID s).1 with
  | some err =>
    rw [ScrapeFeed_mark_failed _ _ feed s err hm]
    exact ⟨hfeeds, by simp only [storeQueries, hnow]; exact Nat.le_add_right _ _⟩
  | none =>
    rcases FetchFeed_cases (storeRuntime flt unmarshal parseAny) feed.Url
      ((storeQueries flt).MarkFeedFetched feed.ID s).2 with ⟨doc, h1, _⟩ | ⟨err, msg, h1, _⟩
    · rw [ScrapeFeed_collected _ _ feed s doc hm h1]
      constructor
      · simp only
        rw [(insertItems_store flt unmarshal parseAny feed doc.Channel.Item _).2,
          FetchFeed_store_world]
        exact hfeeds
      · refine le_trans ?_ (insertItems_now flt unmarshal parseAny feed doc.Channel.Item _)
        rw [FetchFeed_store_world]
        simp only [Store.elapsed, storeQueries, hnow]
        exact le_trans (Nat.le_add_right _ _) (Nat.le_add_right _ _)
    · rw [ScrapeFeed_fetch_failed _ _ feed s err hm (by rw [h1])]
      constructor
      · simp only
        rw [FetchFeed_store_world]
        exact hfeeds
      · simp only
        rw [FetchFeed_store_world]
        simp only [Store.elapsed, storeQueries, hnow]
        exact le_trans (Nat.le_add_right _ _) (Nat.le_add_right _ _)

theorem markRow_ID (id : UUID) (t : Instant) (g : Feed) : (markRow id t g).ID = g.ID := by
  unfold markRow
  split <;> rfl

/-- A worker keeps every row that was fetched since `t`, and marks the rows of its
own feed when the store lets it. -/
theorem ScrapeFeed_fetchedSince (flt : Faults) (unmarshal : Bytes → Except String RSSFeed)
    (parseAny : String → Except String Instant) (feed : Feed) (s : Store) (t : Instant)
    (id : UUID) (ht : t ≤ s.now)
    (h : (flt.mark feed.ID = none ∧ feed.ID = id)
      ∨ ∀ g ∈ s.feeds, g.ID = id → fetchedSince t g) :
    ∀ g ∈ (ScrapeFeed (storeQueries flt) (storeRuntime flt unmarshal parseAny) feed
      s).1.feeds, g.ID = id → fetchedSince t g := by
  rw [(ScrapeFeed_feeds flt unmarshal parseAny feed s).1]
  cases hmark : flt.mark feed.ID with
  | some err =>
    simp only
    rcases h with ⟨h1, _⟩ | h
    · rw [hmark] at h1; cases h1
    · exact h
  | none =>
    simp only
    intro g hg hid
    obtain ⟨g0, hg0, rfl⟩ := List.mem_map.mp hg
    rw [markRow_ID] at hid
    by_cases hown : g0.ID = feed.ID
    · simp only [markRow, hown, if_true, fetchedSince, true_and]
      exact le_trans ht (Nat.le_add_right _ _)
    · simp only [markRow, hown, if_false]
      rcases h with ⟨_, h2⟩ | h
      · exact absurd (hid.trans h2.symm) hown
      · exact h g0 hg0 hid

theorem runWorkers_fetchedSince (flt : Faults) (unmarshal : Bytes → Except String RSSFeed)
    (parseAny : String → Except String Instant) (order : List Feed) (s : Store) (t : Instant)
    (id : UUID) (ht : t ≤ s.now)
    (h : (∃ feed ∈ order, flt.mark feed.ID = none ∧ feed.ID = id)
      ∨ ∀ g ∈ s.feeds, g.ID = id → fetchedSince t g) :
    ∀ g ∈ (runWorkers (storeQueries flt) (storeRuntime flt unmarshal parseAny) order
      s).1.feeds, g.ID = id → fetchedSince t g := by
  induction order generalizing s with
  | nil =>
    rcases h with ⟨feed, hin, _⟩ | h
    · cases hin
    · exact h
  | cons head rest ih =>
    simp only [runWorkers]
    have hnow := (ScrapeFeed_feeds flt unmarshal parseAny head s).2
    apply ih _ (le_trans ht hnow)
    rcases h with ⟨feed, hin, hmark, hid⟩ | h
    · rcases List.mem_cons.mp hin with rfl | hrest
      · exact Or.inr (ScrapeFeed_fetchedSince flt unmarshal parseAny feed s t id ht
          (Or.inl ⟨hmark, hid⟩))
      · exact Or.inl ⟨feed, hrest, hmark, hid⟩
    · exact Or.inr (ScrapeFeed_fetchedSince flt unmarshal parseAny head s t id ht (Or.inr h))

theorem runWorkers_ids (flt : Faults) (unmarshal : Bytes → Except String RSSFeed)
    (parseAny : String → Except String Instant) (order : List Feed) (s : Store) :
    (runWorkers (storeQueries flt) (storeRuntime flt unmarshal parseAny) order s).1.feeds.map
      Feed.ID = s.feeds.map Feed.ID := by
  induction order generalizing s with
  | nil => rfl
  | cons head rest ih =>
    simp only [runWorkers]
    rw [ih, (ScrapeFeed_store flt unmarshal parseAny head s).2]

/-- C4 (amended): for every feed selected in a tick whose MarkFeedFetched write the
store accepts, the feed's row is in the store after the tick with a
`last_fetched_at` that is set and not before the instant at which the tick
started, whatever the network answers for any feed of the batch and whatever the
decoder and the date parser make of it. -/
theorem tick_stamps_marked_feeds (flt : Faults)
    (unmarshal : Bytes → Except String RSSFeed) (parseAny : String → Except String Instant)
    (sched : List Feed → List Feed) (concurrency : Int) (s : Store) (feeds : List Feed)
    (feed : Feed) (hsched : ∀ l, (sched l).Perm l)
    (hsel : ((storeQueries flt).GetNextFeedsToFetch (int32 concurrency) s).1 = .ok feeds)
    (hin : feed ∈ feeds) (hmark : flt.mark feed.ID = none) :
    (∃ g ∈ (tick (storeQueries flt) (storeRuntime flt unmarshal parseAny) sched concurrency
        s).1.feeds, g.ID = feed.ID)
    ∧ ∀ g ∈ (tick (storeQueries flt) (storeRuntime flt unmarshal parseAny) sched concurrency
        s).1.feeds, g.ID = feed.ID → fetchedSince s.now g := by
  have hworld := Store.GetNextFeedsToFetch_world flt (int32 concurrency) s
  have hfeeds := Store.GetNextFeedsToFetch_ok flt (int32 concurrency) s feeds hsel
  have hfinal : (tick (storeQueries flt) (storeRuntime flt unmarshal parseAny) sched
      concurrency s).1
      = (runWorkers (storeQueries flt) (storeRuntime flt unmarshal parseAny) (sched feeds)
          (s.elapsed flt)).1 := by
    unfold tick
    rcases hk : (storeQueries flt).GetNextFeedsToFetch (int32 concurrency) s with ⟨res, s1⟩
    rw [hk] at hsel
    simp only at hsel
    subst hsel
    have : s1 = s.elapsed flt := by
      have := hworld
      simp only [storeQueries] at hk
      rw [hk] at this
      exact this
    subst this
    rfl
  rw [hfinal]
  constructor
  · have hids := runWorkers_ids flt unmarshal parseAny (sched feeds) (s.elapsed flt)
    have hmem : feed.ID ∈ (s.elapsed flt).feeds.map Feed.ID := by
      apply List.mem_map_of_mem
      have h1 : feed ∈ s.feeds.insertionSort (fun a b => staleFirst a b = true) :=
        List.mem_of_mem_take (hfeeds ▸ hin)
      exact (List.perm_insertionSort _ _).mem_iff.mp h1
    rw [← hids] at hmem
    obtain ⟨g, hg, hid⟩ := List.mem_map.mp hmem
    exact ⟨g, hg, hid⟩
  · exact runWorkers_fetchedSince flt unmarshal parseAny (sched feeds) (s.elapsed flt) s.now
      feed.ID (by simp [Store.elapsed])
      (Or.inl ⟨feed, (hsched feeds).mem_iff.mpr hin, hmark, rfl⟩)

/-- C4 (amended), evaluated on the feed whose body does not decode. -/
theorem tick_stamps_marked_feeds_witness :
    demoFeed 2 "http://b" ∈ [demoFeed 1 "http://a", demoFeed 2 "http://b"]
    ∧ (∃ g ∈ (tick (storeQueries demoFaults)
          (storeRuntime demoFaults demoUnmarshal demoParseAny) id 10 demoStore).1.feeds,
        g.ID = (demoFeed 2 "http://b").ID)
    ∧ ∀ g ∈ (tick (storeQueries demoFaults)
          (storeRuntime demoFaults demoUnmarshal demoParseAny) id 10 demoStore).1.feeds,
        g.ID = (demoFeed 2 "http://b").ID → fetchedSince demoStore.now g :=
  ⟨by decide,
    tick_stamps_marked_feeds demoFaults demoUnmarshal demoParseAny id 10 demoStore
      [demoFeed 1 "http://a", demoFeed 2 "http://b"] (demoFeed 2 "http://b")
      (fun l => List.Perm.refl l) rfl (by decide) rfl⟩

/-- C4 as stated fails: feed 1 is selected and dispatched in the tick, the store
refuses the MarkFeedFetched write, and after the tick its `last_fetched_at` is
still unset, while feed 2 of the same batch is stamped. -/
theorem tick_stamps_every_selected_feed_counterexample :
    dispatched (tick (storeQueries markFaults)
        (storeRuntime markFaults demoUnmarshal demoParseAny) id 10 demoStore).2
      = [demoFeed 1 "http://a", demoFeed 2 "http://b"]
    ∧ (tick (storeQueries markFaults)
        (storeRuntime markFaults demoUnmarshal demoParseAny) id 10 demoStore).1.feeds.map
          (fun g => (g.ID, g.LastFetchedAt))
      = [(1, { Time := 0, Valid := false }), (2, { Time := 103, Valid := true })]
    ∧ ¬ (∀ g ∈ (tick (storeQueries markFaults)
          (storeRuntime markFaults demoUnmarshal demoParseAny) id 10 demoStore).1.feeds,
        g.ID = (demoFeed 1 "http://a").ID → fetchedSince demoStore.now g) := by
  decide

/-! ## Isolation within a batch -/

theorem runWorkers_store (flt : Faults) (unmarshal : Bytes → Except String RSSFeed)
    (parseAny : String → Except String Instant) (order : List Feed) (s : Store) :
    (runWorkers (storeQueries flt) (storeRuntime flt unmarshal parseAny) order s).1.posts.map
        Post.content
      = order.foldl (fun cs feed => scrape flt unmarshal parseAny (s.feeds.map Feed.ID) feed cs)
          (s.posts.map Post.content) := by
  induction order generalizing s with
  | nil => rfl
  | cons head rest ih =>
    simp only [runWorkers, List.foldl_cons]
    rw [ih, (ScrapeFeed_store flt unmarshal parseAny head s).1,
      (ScrapeFeed_store flt unmarshal parseAny head s).2]

theorem documentAt_malformed (flt : Faults) (unmarshal : Bytes → Except String RSSFeed)
    (url : String) (resp : Response) (dat : Bytes) (err : String)
    (hget : flt.get url = .ok resp) (hbody : resp.Body = .ok dat)
    (hxml : unmarshal dat = .error err) :
    documentAt flt unmarshal url = none := by
  simp only [documentAt, hget, hbody, hxml]

theorem scrape_no_document (flt : Faults) (unmarshal : Bytes → Except String RSSFeed)
    (parseAny : String → Except String Instant) (ids : List UUID) (feed : Feed)
    (cs : List PostContent) (h : documentAt flt unmarshal feed.Url = none) :
    scrape flt unmarshal parseAny ids feed cs = cs := by
  unfold scrape
  cases flt.mark feed.ID with
  | some err => rfl
  | none =>
    simp only [h]
    split <;> rfl

/-- C8: a feed whose document is malformed XML adds no post, from whatever store
its worker runs on, and a batch that contains it, run in any order, leaves post
contents (feed, title, link, description, publication date, in order of
insertion) equal to those left by the same batch without it: what every other
feed contributes is unchanged. -/
theorem runWorkers_malformed_feed_isolated (flt : Faults)
    (unmarshal : Bytes → Except String RSSFeed) (parseAny : String → Except String Instant)
    (before after : List Feed) (bad : Feed) (s : Store) (resp : Response) (dat : Bytes)
    (err : String) (hget : flt.get bad.Url = .ok resp) (hbody : resp.Body = .ok dat)
    (hxml : unmarshal dat = .error err) :
    (∀ w, (ScrapeFeed (storeQueries flt) (storeRuntime flt unmarshal parseAny) bad w).1.posts
        = w.posts)
    ∧ (runWorkers (storeQueries flt) (storeRuntime flt unmarshal parseAny)
        (before ++ bad :: after) s).1.posts.map Post.content
      = (runWorkers (storeQueries flt) (storeRuntime flt unmarshal parseAny)
        (before ++ after) s).1.posts.map Post.content := by
  have hdoc := documentAt_malformed flt unmarshal bad.Url resp dat err hget hbody hxml
  constructor
  · intro w
    obtain ⟨added, hadd⟩ := ScrapeFeed_posts_grow flt unmarshal parseAny bad w
    have hcontent := (ScrapeFeed_store flt unmarshal parseAny bad w).1
    rw [scrape_no_document flt unmarshal parseAny _ bad _ hdoc, hadd] at hcontent
    have hlen := congrArg List.length hcontent
    simp only [List.map_append, List.length_append, List.length_map] at hlen
    have hnil : added = [] := List.length_eq_zero.mp (by omega)
    rw [hadd, hnil, List.append_nil]
  · rw [runWorkers_store, runWorkers_store, List.foldl_append, List.foldl_append,
      List.foldl_cons, scrape_no_document flt unmarshal parseAny _ bad _ hdoc]

/-- C8, evaluated on the batch of feed 1 and the feed whose body does not decode. -/
theorem runWorkers_malformed_feed_isolated_witness :
    (∀ w, (ScrapeFeed (storeQueries demoFaults)
        (storeRuntime demoFaults demoUnmarshal demoParseAny) (demoFeed 2 "http://b") w).1.posts
        = w.posts)
    ∧ (runWorkers (storeQueries demoFaults) (storeRuntime demoFaults demoUnmarshal demoParseAny)
        ([] ++ demoFeed 2 "http://b" :: [demoFeed 1 "http://a"]) demoStore).1.posts.map
          Post.content
      = (runWorkers (storeQueries demoFaults)
          (storeRuntime demoFaults demoUnmarshal demoParseAny)
          ([] ++ [demoFeed 1 "http://a"]) demoStore).1.posts.map Post.content :=
  runWorkers_malformed_feed_isolated demoFaults demoUnmarshal demoParseAny []
    [demoFeed 1 "http://a"] (demoFeed 2 "http://b") demoStore
    { StatusCode := 200, Body := .ok [0] } [0] "EOF" rfl rfl rfl


/-! ## ParsePubDate and FetchFeed -/

/-- C19: for every string, ParsePubDate returns an error exactly when the date
parser fails on it; when the parser gives a time the result is that time with
Valid set and no error, and when it fails the result is the zero NullTime
(Valid unset) with the parser's error wrapped. -/
theorem ParsePubDate_result {σ : Type} (rt : Runtime σ) (pubDate : String) :
    ((ParsePubDate rt pubDate).1.2 ≠ none ↔ failure (rt.ParseAny pubDate) ≠ none)
    ∧ (∀ t, rt.ParseAny pubDate = .ok t →
        (ParsePubDate rt pubDate).1 = ({ Time := t, Valid := true }, none))
    ∧ (∀ err, rt.ParseAny pubDate = .error err →
        (ParsePubDate rt pubDate).1
          = ({ Time := 0, Valid := false }, some ("unable to parse pubDate: " ++ err))) := by
  unfold ParsePubDate
  cases h : rt.ParseAny pubDate with
  | error err =>
    refine ⟨by simp [failure], ?_, ?_⟩
    · intro t ht
      cases ht
    · intro e he
      cases he
      rfl
  | ok t =>
    refine ⟨by simp [failure], ?_, ?_⟩
    · intro u hu
      cases hu
      rfl
    · intro e he
      cases he

/-- C19, evaluated on a date that parses and on one that does not. -/
theorem ParsePubDate_result_witness :
    (ParsePubDate (storeRuntime demoFaults demoUnmarshal demoParseAny)
        "Mon, 02 Jan 2006 15:04:05 GMT").1 = ({ Time := 1136214245, Valid := true }, none)
    ∧ (ParsePubDate (storeRuntime demoFaults demoUnmarshal demoParseAny) "garbage").1
      = ({ Time := 0, Valid := false },
          some ("unable to parse pubDate: " ++ "Could not find format")) :=
  ⟨(ParsePubDate_result (storeRuntime demoFaults demoUnmarshal demoParseAny)
      "Mon, 02 Jan 2006 15:04:05 GMT").2.1 1136214245 rfl,
    (ParsePubDate_result (storeRuntime demoFaults demoUnmarshal demoParseAny)
      "garbage").2.2 "Could not find format" rfl⟩

/-- C17: FetchFeed returns either a document and no error, or no document and an
error, never both and never neither; it returns an error exactly when the request
fails, or reading the body fails, or decoding the body fails; in particular a body
that does not decode gives no document at all. -/
theorem FetchFeed_all_or_nothing {σ : Type} (rt : Runtime σ) (feedURL : String) (s : σ) :
    ((∃ doc, (FetchFeed rt feedURL s).1 = (some doc, none))
      ∨ (∃ err, (FetchFeed rt feedURL s).1 = (none, some err)))
    ∧ ((FetchFeed rt feedURL s).1.2 ≠ none ↔
        (failure (rt.Get 10 feedURL s).1 ≠ none
          ∨ (∃ resp, (rt.Get 10 feedURL s).1 = .ok resp ∧ failure resp.Body ≠ none)
          ∨ (∃ resp dat, (rt.Get 10 feedURL s).1 = .ok resp ∧ resp.Body = .ok dat
              ∧ failure (rt.Unmarshal dat) ≠ none)))
    ∧ (∀ resp dat err, (rt.Get 10 feedURL s).1 = .ok resp → resp.Body = .ok dat →
        rt.Unmarshal dat = .error err → (FetchFeed rt feedURL s).1 = (none, some err)) := by
  unfold FetchFeed
  rcases rt.Get 10 feedURL s with ⟨res, s1⟩
  cases res with
  | error err =>
    refine ⟨Or.inr ⟨err, rfl⟩, by simp [failure], ?_⟩
    intro resp dat e h
    cases h
  | ok resp =>
    simp only
    cases hb : resp.Body with
    | error err =>
      refine ⟨Or.inr ⟨err, rfl⟩, ?_, ?_⟩
      · simp only [ne_eq, reduceCtorEq, not_false_eq_true, failure, not_true_eq_false,
          Except.ok.injEq, false_or, true_iff]
        exact Or.inl ⟨resp, rfl, by rw [hb]; simp⟩
      · intro r dat e h hbody
        cases h
        rw [hb] at hbody
        cases hbody
    | ok dat =>
      simp only
      cases hu : rt.Unmarshal dat with
      | error err =>
        refine ⟨Or.inr ⟨err, rfl⟩, ?_, ?_⟩
        · simp only [ne_eq, reduceCtorEq, not_false_eq_true, failure, not_true_eq_false,
            Except.ok.injEq, false_or, true_iff]
          exact Or.inr ⟨resp, dat, rfl, hb, by rw [hu]; simp⟩
        · intro r d e h hbody hxml
          cases h
          rw [hb] at hbody
          cases hbody
          rw [hu] at hxml
          cases hxml
          rfl
      | ok doc =>
        refine ⟨Or.inl ⟨doc, rfl⟩, ?_, ?_⟩
        · simp only [ne_eq, not_true_eq_false, failure, Except.ok.injEq, false_or, false_iff,
            not_or, not_exists, not_and]
          constructor
          · intro r hr
            cases hr
            rw [hb]
            simp
          · intro r d hr hbody
            cases hr
            rw [hb] at hbody
            cases hbody
            rw [hu]
            simp
        · intro r d e h hbody hxml
          cases h
          rw [hb] at hbody
          cases hbody
          rw [hu] at hxml
          cases hxml


/-- C17, evaluated on the body that does not decode. -/
theorem FetchFeed_all_or_nothing_witness :
    (FetchFeed (storeRuntime demoFaults demoUnmarshal demoParseAny) "http://b" demoStore).1
      = (none, some "EOF") :=
  (FetchFeed_all_or_nothing (storeRuntime demoFaults demoUnmarshal demoParseAny) "http://b"
    demoStore).2.2 { StatusCode := 200, Body := .ok [0] } [0] "EOF" rfl rfl rfl

/-- C16: FetchFeed does not look at the status code of the response. Two runtimes
that decode alike and whose requests return responses with the same body, whatever
their status codes, give the same result and the same log; so a response of any
status whose body does not decode fails as a decoding error, and one whose body
decodes succeeds with the decoded document. -/
theorem FetchFeed_ignores_status {σ : Type} (rt rt2 : Runtime σ) (feedURL : String) (s s1 : σ)
    (resp resp2 : Response) (hu : rt2.Unmarshal = rt.Unmarshal)
    (hg : rt.Get 10 feedURL s = (.ok resp, s1)) (hg2 : rt2.Get 10 feedURL s = (.ok resp2, s1))
    (hb : resp2.Body = resp.Body) :
    FetchFeed rt2 feedURL s = FetchFeed rt feedURL s
    ∧ (∀ dat err, resp.Body = .ok dat → rt.Unmarshal dat = .error err →
        FetchFeed rt2 feedURL s
          = ((none, some err), s1,
              [Event.Get feedURL 10, Event.Error "Failed to unmarshal XML"]))
    ∧ (∀ dat doc, resp.Body = .ok dat → rt.Unmarshal dat = .ok doc →
        FetchFeed rt2 feedURL s = ((some doc, none), s1, [Event.Get feedURL 10])) := by
  have heq : FetchFeed rt2 feedURL s = FetchFeed rt feedURL s := by
    simp only [FetchFeed, hg, hg2, hb, hu]
  refine ⟨heq, ?_, ?_⟩
  · intro dat err hbody hxml
    rw [heq]
    simp only [FetchFeed, hg, hbody, hxml]
  · intro dat doc hbody hxml
    rw [heq]
    simp only [FetchFeed, hg, hbody, hxml]

/-- C16, evaluated on a 200 and a 503 response with the same undecodable body. -/
theorem FetchFeed_ignores_status_witness :
    FetchFeed (storeRuntime demoErrorPage demoUnmarshal demoParseAny) "http://b" demoStore
      = FetchFeed (storeRuntime demoFaults demoUnmarshal demoParseAny) "http://b" demoStore
    ∧ FetchFeed (storeRuntime demoErrorPage demoUnmarshal demoParseAny) "http://b" demoStore
      = ((none, some "EOF"), demoStore.elapsed demoFaults,
          [Event.Get "http://b" 10, Event.Error "Failed to unmarshal XML"]) :=
  ⟨(FetchFeed_ignores_status (storeRuntime demoFaults demoUnmarshal demoParseAny)
      (storeRuntime demoErrorPage demoUnmarshal demoParseAny) "http://b" demoStore
      (demoStore.elapsed demoFaults) { StatusCode := 200, Body := .ok [0] }
      { StatusCode := 503, Body := .ok [0] } rfl rfl rfl rfl).1,
    (FetchFeed_ignores_status (storeRuntime demoFaults demoUnmarshal demoParseAny)
      (storeRuntime demoErrorPage demoUnmarshal demoParseAny) "http://b" demoStore
      (demoStore.elapsed demoFaults) { StatusCode := 200, Body := .ok [0] }
      { StatusCode := 503, Body := .ok [0] } rfl rfl rfl rfl).2.1 [0] "EOF" rfl rfl⟩

/-! ## Calls of one worker -/

theorem insertItems_itemSteps {σ : Type} (db : Queries σ) (rt : Runtime σ) (feed : Feed)
    (items : List RSSItem) (s : σ) :
    ∀ e ∈ (insertItems db rt feed items s).2, e.isItemStep = true := by
  induction items generalizing s with
  | nil => intro e he; cases he
  | cons item rest ih =>
    cases hp : rt.ParseAny item.PubDate with
    | error err =>
      rw [insertItems_skip db rt feed item rest s err hp]
      intro e he
      simp only [List.mem_cons] at he
      rcases he with rfl | rfl | he
      · rfl
      · rfl
      · exact ih s e he
    | ok t =>
      rw [insertItems_insert db rt feed item rest s t hp]
      intro e he
      simp only [List.mem_cons, List.mem_append] at he
      rcases he with (rfl | he) | he
      · rfl
      · unfold insertLog at he
        split at he
        · cases he
        · split at he
          · cases he
          · simp only [List.mem_singleton] at he
            rw [he]
            rfl
      · exact ih _ e he

theorem countP_itemSteps (p : Event → Bool) (steps : List Event)
    (hp : ∀ e, e.isItemStep = true → p e = false)
    (h : ∀ e ∈ steps, e.isItemStep = true) : steps.countP p = 0 := by
  rw [List.countP_eq_zero]
  intro e he
  rw [hp e (h e he)]
  simp

/-- C18: every run of ScrapeFeed calls MarkFeedFetched exactly once and makes at
most one HTTP request, none when the marking failed and one otherwise, whether or
not the request fails; the request is for the URL of the feed with the client
timeout of 10 seconds. -/
theorem ScrapeFeed_marks_once_fetches_at_most_once {σ : Type} (db : Queries σ)
    (rt : Runtime σ) (feed : Feed) (s : σ) :
    (ScrapeFeed db rt feed s).2.countP Event.isMark = 1
    ∧ (ScrapeFeed db rt feed s).2.countP Event.isGet
      = (if failure (db.MarkFeedFetched feed.ID s).1 = none then 1 else 0)
    ∧ (ScrapeFeed db rt feed s).2.countP Event.isGet ≤ 1
    ∧ ∀ e ∈ (ScrapeFeed db rt feed s).2, e.isGet = true → e = Event.Get feed.Url 10 := by
  have hmark : ∀ e : Event, e.isItemStep = true → e.isMark = false := by
    intro e he
    cases e <;> simp_all [Event.isItemStep, Event.isMark]
  have hget : ∀ e : Event, e.isItemStep = true → e.isGet = false := by
    intro e he
    cases e <;> simp_all [Event.isItemStep, Event.isGet]
  cases hm : failure (db.MarkFeedFetched feed.ID s).1 with
  | some err =>
    rw [ScrapeFeed_mark_failed db rt feed s err hm]
    refine ⟨rfl, rfl, le_trans (Nat.le_of_eq rfl) (Nat.zero_le 1), ?_⟩
    intro e he hg
    simp only [List.mem_cons, List.mem_singleton, List.not_mem_nil, or_false] at he
    rcases he with rfl | rfl | rfl <;> cases hg
  | none =>
    rcases FetchFeed_cases rt feed.Url (db.MarkFeedFetched feed.ID s).2
      with ⟨doc, h1, h2⟩ | ⟨err, msg, h1, h2⟩
    · rw [ScrapeFeed_collected db rt feed s doc hm h1, h2]
      have hitems := insertItems_itemSteps db rt feed doc.Channel.Item
        (FetchFeed rt feed.Url (db.MarkFeedFetched feed.ID s).2).2.1
      have c1 := countP_itemSteps Event.isMark _ hmark hitems
      have c2 := countP_itemSteps Event.isGet _ hget hitems
      refine ⟨?_, ?_, ?_, ?_⟩
      · simp only [List.cons_append, List.nil_append, List.countP_cons, List.countP_append, c1]
        rfl
      · simp only [List.cons_append, List.nil_append, List.countP_cons, List.countP_append, c2]
        rfl
      · simp only [List.cons_append, List.nil_append, List.countP_cons, List.countP_append, c2]
        exact Nat.le_of_eq rfl
      · intro e he hg
        simp only [List.cons_append, List.nil_append, List.mem_cons, List.mem_append,
          List.mem_singleton, List.not_mem_nil, or_false] at he
        rcases he with rfl | rfl | he | rfl | rfl
        · cases hg
        · rfl
        · rw [hget e (hitems e he)] at hg
          cases hg
        · cases hg
        · cases hg
    · rw [ScrapeFeed_fetch_failed db rt feed s err hm (by rw [h1]), h2]
      refine ⟨rfl, rfl, Nat.le_of_eq rfl, ?_⟩
      intro e he hg
      simp only [List.cons_append, List.nil_append, List.mem_cons, List.mem_singleton,
        List.not_mem_nil, or_false] at he
      rcases he with rfl | rfl | rfl | rfl | rfl
      · cases hg
      · rfl
      · cases hg
      · cases hg
      · cases hg


/-- C18, evaluated on the feed served at `http://a`. -/
theorem ScrapeFeed_marks_once_fetches_at_most_once_witness :
    (ScrapeFeed (storeQueries demoFaults) (storeRuntime demoFaults demoUnmarshal demoParseAny)
        (demoFeed 1 "http://a") demoStore).2.countP Event.isMark = 1
    ∧ (Event.Get "http://a" 10).isGet = true
    ∧ Event.Get "http://a" 10 = Event.Get (demoFeed 1 "http://a").Url 10 :=
  ⟨(ScrapeFeed_marks_once_fetches_at_most_once (storeQueries demoFaults)
      (storeRuntime demoFaults demoUnmarshal demoParseAny) (demoFeed 1 "http://a")
      demoStore).1, rfl,
    (ScrapeFeed_marks_once_fetches_at_most_once (storeQueries demoFaults)
      (storeRuntime demoFaults demoUnmarshal demoParseAny) (demoFeed 1 "http://a")
      demoStore).2.2.2 (Event.Get "http://a" 10) (by decide) rfl⟩

/-! ## Order and fields of the inserts -/

/-- The insert attempts of a worker that fetched a document are those of its loop. -/
theorem ScrapeFeed_attempts_loop {σ : Type} (db : Queries σ) (rt : Runtime σ)
    (feed : Feed) (s : σ) (doc : RSSFeed)
    (hm : failure (db.MarkFeedFetched feed.ID s).1 = none)
    (hf : (FetchFeed rt feed.Url (db.MarkFeedFetched feed.ID s).2).1 = (some doc, none)) :
    attempts (ScrapeFeed db rt feed s).2
      = attempts (insertItems db rt feed doc.Channel.Item
          (FetchFeed rt feed.Url (db.MarkFeedFetched feed.ID s).2).2.1).2 := by
  rw [ScrapeFeed_collected db rt feed s doc hm hf,
    show ∀ (e : Event) (l : List Event), e :: l = [e] ++ l from fun _ _ => rfl]
  simp only [attempts_append, attempts_FetchFeed, List.append_assoc]
  rw [show attempts [Event.MarkFeedFetched feed.ID none] = [] from rfl,
    show attempts [Event.Info "Feed %s collected, %v posts found", Event.Done] = [] from rfl]
  simp

/-- The insert attempts of a worker that fetched no document: none. -/
theorem ScrapeFeed_attempts_none {σ : Type} (db : Queries σ) (rt : Runtime σ)
    (feed : Feed) (s : σ)
    (h : failure (db.MarkFeedFetched feed.ID s).1 ≠ none
      ∨ ∀ doc, (FetchFeed rt feed.Url (db.MarkFeedFetched feed.ID s).2).1 ≠ (some doc, none)) :
    attempts (ScrapeFeed db rt feed s).2 = [] := by
  cases hm : failure (db.MarkFeedFetched feed.ID s).1 with
  | some err =>
    rw [ScrapeFeed_mark_failed db rt feed s err hm]
    rfl
  | none =>
    rcases h with h | h
    · exact absurd hm h
    · rcases FetchFeed_cases rt feed.Url (db.MarkFeedFetched feed.ID s).2
        with ⟨doc, h1, _⟩ | ⟨err, msg, h1, _⟩
      · exact absurd h1 (h doc)
      · rw [ScrapeFeed_fetch_failed db rt feed s err hm (by rw [h1]),
          show ∀ (e : Event) (l : List Event), e :: l = [e] ++ l from fun _ _ => rfl]
        simp only [attempts_append, attempts_FetchFeed]
        rfl

theorem acceptedContents_links (parseAny : String → Except String Instant) (feed : Feed)
    (items : List RSSItem) :
    (acceptedContents parseAny feed items).map PostContent.Url
      = (items.filter (dated parseAny)).map RSSItem.Link := by
  induction items with
  | nil => rfl
  | cons item rest ih =>
    cases hp : parseAny item.PubDate with
    | error err =>
      have hd : dated parseAny item = false := by simp [dated, hp]
      simp only [acceptedContents, hp, List.filter_cons, hd]
      simpa using ih
    | ok t =>
      have hd : dated parseAny item = true := by simp [dated, hp]
      simp only [acceptedContents, hp, List.filter_cons, hd, if_true, List.map_cons, ih]
      rfl

/-- C14: the links of the insert attempts of ScrapeFeed, in the order of the
attempts, are the links of the items whose pubDate parses, in document order;
so they form a subsequence of the links of the parsed item list. -/
theorem ScrapeFeed_attempts_in_document_order {σ : Type} (db : Queries σ) (rt : Runtime σ)
    (feed : Feed) (s : σ) (doc : RSSFeed)
    (hm : failure (db.MarkFeedFetched feed.ID s).1 = none)
    (hf : (FetchFeed rt feed.Url (db.MarkFeedFetched feed.ID s).2).1 = (some doc, none)) :
    (attempts (ScrapeFeed db rt feed s).2).map CreatePostParams.Url
      = (doc.Channel.Item.filter (dated rt.ParseAny)).map RSSItem.Link
    ∧ ((attempts (ScrapeFeed db rt feed s).2).map CreatePostParams.Url).Sublist
        (doc.Channel.Item.map RSSItem.Link) := by
  have hlinks : (attempts (ScrapeFeed db rt feed s).2).map CreatePostParams.Url
      = (doc.Channel.Item.filter (dated rt.ParseAny)).map RSSItem.Link := by
    rw [ScrapeFeed_attempts_loop db rt feed s doc hm hf, ← acceptedContents_links rt.ParseAny feed,
      ← insertItems_attempts db rt feed doc.Channel.Item
        (FetchFeed rt feed.Url (db.MarkFeedFetched feed.ID s).2).2.1, List.map_map]
    rfl
  refine ⟨hlinks, ?_⟩
  rw [hlinks]
  exact (List.filter_sublist _).map _

/-- C14, evaluated on the document with one undated and one dated item. -/
theorem ScrapeFeed_attempts_in_document_order_witness :
    (attempts (ScrapeFeed (storeQueries demoFaults)
        (storeRuntime demoFaults demoUnmarshal demoParseAny)
        (demoFeed 1 "http://a") demoStore).2).map CreatePostParams.Url
      = (demoDoc.Channel.Item.filter
          (dated (storeRuntime demoFaults demoUnmarshal demoParseAny).ParseAny)).map
            RSSItem.Link
    ∧ ((attempts (ScrapeFeed (storeQueries demoFaults)
        (storeRuntime demoFaults demoUnmarshal demoParseAny)
        (demoFeed 1 "http://a") demoStore).2).map CreatePostParams.Url).Sublist
        (demoDoc.Channel.Item.map RSSItem.Link) :=
  ScrapeFeed_attempts_in_document_order (storeQueries demoFaults)
    (storeRuntime demoFaults demoUnmarshal demoParseAny) (demoFeed 1 "http://a") demoStore
    demoDoc (by decide) (by decide)


theorem mem_attempts_cons (e : Event) (rest : List Event) (arg : CreatePostParams)
    (h : arg ∈ attempts (e :: rest)) : e.attempt = some arg ∨ arg ∈ attempts rest := by
  unfold attempts at h ⊢
  rw [List.filterMap_cons] at h
  cases he : e.attempt with
  | none => rw [he] at h; exact Or.inr h
  | some a =>
    rw [he] at h
    rcases List.mem_cons.mp h with rfl | h
    · exact Or.inl rfl
    · exact Or.inr h

theorem insertItems_carries {σ : Type} (db : Queries σ) (rt : Runtime σ) (feed : Feed)
    (items : List RSSItem) (s : σ) :
    ∀ arg ∈ attempts (insertItems db rt feed items s).2,
      ∃ item ∈ items, carries rt feed item arg := by
  induction items generalizing s with
  | nil => intro arg h; cases h
  | cons item rest ih =>
    intro arg h
    cases hp : rt.ParseAny item.PubDate with
    | error err =>
      rw [insertItems_skip db rt feed item rest s err hp] at h
      obtain ⟨it, hit, hc⟩ := ih s arg h
      exact ⟨it, List.mem_cons_of_mem _ hit, hc⟩
    | ok t =>
      rw [insertItems_insert db rt feed item rest s t hp] at h
      rcases mem_attempts_cons _ _ arg h with h | h
      · simp only [Event.attempt, Option.some.injEq] at h
        refine ⟨item, List.mem_cons_self _ _, ?_⟩
        rw [← h]
        simp only [carries, insertArg, postParams, ParsePubDate, hp, and_self]
      · have h2 : arg ∈ attempts
            (insertLog (failure (db.CreatePost (insertArg rt feed item s t) (insertWorld rt s)).1)
              ++ (insertItems db rt feed rest
                  (db.CreatePost (insertArg rt feed item s t) (insertWorld rt s)).2).2) := h
        rw [attempts_append, attempts_insertLog, List.nil_append] at h2
        obtain ⟨it, hit, hc⟩ := ih _ arg h2
        exact ⟨it, List.mem_cons_of_mem _ hit, hc⟩

/-- C15: every insert that ScrapeFeed attempts is for an item of the document it
fetched and carries FeedID equal to the ID of the worker's feed, Title, Url and
Description equal to the item's title, link and description (the description
marked valid) and PublishedAt equal to what ParsePubDate returned for the item's
pubDate; no insert of the worker is owned by another feed. -/
theorem ScrapeFeed_insert_fields {σ : Type} (db : Queries σ) (rt : Runtime σ)
    (feed : Feed) (s : σ) (arg : CreatePostParams)
    (harg : arg ∈ attempts (ScrapeFeed db rt feed s).2) :
    arg.FeedID = feed.ID
    ∧ ∃ doc, (FetchFeed rt feed.Url (db.MarkFeedFetched feed.ID s).2).1 = (some doc, none)
        ∧ ∃ item ∈ doc.Channel.Item, carries rt feed item arg := by
  cases hm : failure (db.MarkFeedFetched feed.ID s).1 with
  | some err =>
    rw [ScrapeFeed_attempts_none db rt feed s (Or.inl (by rw [hm]; simp))] at harg
    cases harg
  | none =>
    rcases FetchFeed_cases rt feed.Url (db.MarkFeedFetched feed.ID s).2
      with ⟨doc, h1, _⟩ | ⟨err, msg, h1, _⟩
    · rw [ScrapeFeed_attempts_loop db rt feed s doc hm h1] at harg
      obtain ⟨item, hitem, hc⟩ := insertItems_carries db rt feed doc.Channel.Item _ arg harg
      exact ⟨hc.1, doc, h1, item, hitem, hc⟩
    · rw [ScrapeFeed_attempts_none db rt feed s
        (Or.inr (fun doc hd => by rw [h1] at hd; cases hd))] at harg
      cases harg

/-- C15, evaluated on the insert for the dated item of the document at `http://a`. -/
theorem ScrapeFeed_insert_fields_witness :
    (postParams (demoFeed 1 "http://a")
        { Title := "t", Link := "http://x/2", Description := "",
          PubDate := "Mon, 02 Jan 2006 15:04:05 GMT" }
        1000 102 102 { Time := 1136214245, Valid := true }).FeedID = (demoFeed 1 "http://a").ID
    ∧ ∃ doc, (FetchFeed (storeRuntime demoFaults demoUnmarshal demoParseAny)
          (demoFeed 1 "http://a").Url
          ((storeQueries demoFaults).MarkFeedFetched (demoFeed 1 "http://a").ID
            demoStore).2).1 = (some doc, none)
        ∧ ∃ item ∈ doc.Channel.Item,
            carries (storeRuntime demoFaults demoUnmarshal demoParseAny)
              (demoFeed 1 "http://a") item
              (postParams (demoFeed 1 "http://a")
                { Title := "t", Link := "http://x/2", Description := "",
                  PubDate := "Mon, 02 Jan 2006 15:04:05 GMT" }
                1000 102 102 { Time := 1136214245, Valid := true }) :=
  ScrapeFeed_insert_fields (storeQueries demoFaults)
    (storeRuntime demoFaults demoUnmarshal demoParseAny) (demoFeed 1 "http://a") demoStore
    (postParams (demoFeed 1 "http://a")
      { Title := "t", Link := "http://x/2", Description := "",
        PubDate := "Mon, 02 Jan 2006 15:04:05 GMT" }
      1000 102 102 { Time := 1136214245, Valid := true }) (by decide)


/-! ## A tick whose batch selection fails -/

theorem tick_head {σ : Type} (db : Queries σ) (rt : Runtime σ)
    (sched : List Feed → List Feed) (concurrency : Int) (s : σ) :
    ∃ rest, (tick db rt sched concurrency s).2
      = Event.GetNextFeedsToFetch (int32 concurrency)
          (failure (db.GetNextFeedsToFetch (int32 concurrency) s).1) :: rest := by
  have h := tick_trace db rt sched concurrency s
  cases hsel : (db.GetNextFeedsToFetch (int32 concurrency) s).1 with
  | error err => exact ⟨_, by rw [h.1 err hsel]; rfl⟩
  | ok feeds => exact ⟨_, by rw [h.2 feeds hsel]; rfl⟩

theorem countP_steps (p : Event → Bool) (steps : List Event)
    (hp : ∀ e, e.isStep = true → p e = false)
    (h : ∀ e ∈ steps, e.isStep = true) : steps.countP p = 0 := by
  rw [List.countP_eq_zero]
  intro e he
  rw [hp e (h e he)]
  simp

theorem isSelect_of_isStep (e : Event) (h : e.isStep = true) : e.isSelect = false := by
  cases e <;> simp_all [Event.isStep, Event.isSelect]

theorem runWorkers_selects {σ : Type} (db : Queries σ) (rt : Runtime σ) (order : List Feed)
    (s : σ) : (runWorkers db rt order s).2.countP Event.isSelect = 0 := by
  induction order generalizing s with
  | nil => rfl
  | cons feed rest ih =>
    obtain ⟨steps, htrace, hsteps⟩ := ScrapeFeed_trace db rt feed s
    simp only [runWorkers, htrace, List.countP_append, ih,
      countP_steps Event.isSelect steps isSelect_of_isStep hsteps]
    rfl

theorem dispatch_selects (feeds : List Feed) :
    (dispatch feeds).countP Event.isSelect = 0 := by
  induction feeds with
  | nil => rfl
  | cons feed rest ih =>
    simp only [dispatch, List.flatMap_cons] at ih ⊢
    rw [List.countP_append, ih]
    rfl

theorem tick_selects {σ : Type} (db : Queries σ) (rt : Runtime σ)
    (sched : List Feed → List Feed) (concurrency : Int) (s : σ) :
    (tick db rt sched concurrency s).2.countP Event.isSelect = 1 := by
  have h := tick_trace db rt sched concurrency s
  cases hsel : (db.GetNextFeedsToFetch (int32 concurrency) s).1 with
  | error err =>
    rw [h.1 err hsel]
    rfl
  | ok feeds =>
    rw [h.2 feeds hsel]
    simp only [List.cons_append, List.countP_cons, List.countP_append, runWorkers_selects,
      dispatch_selects]
    rfl

theorem iterate_selects {σ : Type} (db : Queries σ) (rt : Runtime σ)
    (sched : List Feed → List Feed) (concurrency : Int) (n : Nat) (s : σ) :
    (iterate db rt sched concurrency n s).2.countP Event.isSelect = n := by
  induction n generalizing s with
  | zero => rfl
  | succ n ih =>
    simp only [iterate, List.countP_append, tick_selects, ih]
    by_cases hn : n = 0
    · simp [hn]
    · simp only [hn, if_false]
      rw [show List.countP Event.isSelect [Event.Tick] = 0 from rfl]
      omega

/-- C11: when GetNextFeedsToFetch returns an error, the tick consists of that call
and one error record: no worker is dispatched, no MarkFeedFetched or CreatePost
call is made, and the world is the one the failed call left. The loop goes on:
after the next receive from the ticker the next iteration starts with batch
selection again, and the first `n + 2` iterations hold `n + 2` selections. -/
theorem tick_selection_error_skips {σ : Type} (db : Queries σ) (rt : Runtime σ)
    (sched : List Feed → List Feed) (concurrency : Int) (s : σ) (err : String) (n : Nat)
    (h : failure (db.GetNextFeedsToFetch (int32 concurrency) s).1 = some err) :
    tick db rt sched concurrency s
      = ((db.GetNextFeedsToFetch (int32 concurrency) s).2,
          [Event.GetNextFeedsToFetch (int32 concurrency) (some err),
            Event.Error "Couldn't get next feeds to fetch"])
    ∧ (iterate db rt sched concurrency (n + 2) s).2
      = [Event.GetNextFeedsToFetch (int32 concurrency) (some err),
          Event.Error "Couldn't get next feeds to fetch", Event.Tick]
        ++ (iterate db rt sched concurrency (n + 1)
            (db.GetNextFeedsToFetch (int32 concurrency) s).2).2
    ∧ (∃ out rest, (iterate db rt sched concurrency (n + 1)
          (db.GetNextFeedsToFetch (int32 concurrency) s).2).2
        = Event.GetNextFeedsToFetch (int32 concurrency) out :: rest)
    ∧ (iterate db rt sched concurrency (n + 2) s).2.countP Event.isSelect = n + 2 := by
  have htick : tick db rt sched concurrency s
      = ((db.GetNextFeedsToFetch (int32 concurrency) s).2,
          [Event.GetNextFeedsToFetch (int32 concurrency) (some err),
            Event.Error "Couldn't get next feeds to fetch"]) := by
    unfold tick
    rcases hk : db.GetNextFeedsToFetch (int32 concurrency) s with ⟨res, s1⟩
    rw [hk] at h
    cases res with
    | error e =>
      simp only [failure, Option.some.injEq] at h
      rw [h]
    | ok feeds => simp [failure] at h
  refine ⟨htick, ?_, ?_, iterate_selects db rt sched concurrency (n + 2) s⟩
  · rw [show iterate db rt sched concurrency (n + 2) s
        = ((iterate db rt sched concurrency (n + 1) (tick db rt sched concurrency s).1).1,
            (tick db rt sched concurrency s).2
              ++ (if n + 1 = 0 then [] else [Event.Tick])
              ++ (iterate db rt sched concurrency (n + 1)
                  (tick db rt sched concurrency s).1).2) from rfl, htick]
    simp
  · obtain ⟨rest, hrest⟩ := tick_head db rt sched concurrency
      (db.GetNextFeedsToFetch (int32 concurrency) s).2
    refine ⟨failure (db.GetNextFeedsToFetch (int32 concurrency)
        (db.GetNextFeedsToFetch (int32 concurrency) s).2).1,
      rest ++ (if n = 0 then [] else [Event.Tick])
      ++ (iterate db rt sched concurrency n (tick db rt sched concurrency
          (db.GetNextFeedsToFetch (int32 concurrency) s).2).1).2, ?_⟩
    rw [show iterate db rt sched concurrency (n + 1)
          (db.GetNextFeedsToFetch (int32 concurrency) s).2
        = ((iterate db rt sched concurrency n (tick db rt sched concurrency
              (db.GetNextFeedsToFetch (int32 concurrency) s).2).1).1,
            (tick db rt sched concurrency (db.GetNextFeedsToFetch (int32 concurrency) s).2).2
              ++ (if n = 0 then [] else [Event.Tick])
              ++ (iterate db rt sched concurrency n (tick db rt sched concurrency
                  (db.GetNextFeedsToFetch (int32 concurrency) s).2).1).2) from rfl, hrest]
    rfl

/-- C11, evaluated on a store that is unreachable for batch selection. -/
theorem tick_selection_error_skips_witness :
    tick (storeQueries selectFaults) (storeRuntime selectFaults demoUnmarshal demoParseAny) id
        10 demoStore
      = (((storeQueries selectFaults).GetNextFeedsToFetch (int32 10) demoStore).2,
          [Event.GetNextFeedsToFetch (int32 10) (some "dial tcp: connection refused"),
            Event.Error "Couldn't get next feeds to fetch"])
    ∧ (iterate (storeQueries selectFaults)
        (storeRuntime selectFaults demoUnmarshal demoParseAny) id 10 (0 + 2) demoStore).2
        = [Event.GetNextFeedsToFetch (int32 10) (some "dial tcp: connection refused"),
            Event.Error "Couldn't get next feeds to fetch", Event.Tick]
          ++ (iterate (storeQueries selectFaults)
              (storeRuntime selectFaults demoUnmarshal demoParseAny) id 10 (0 + 1)
              ((storeQueries selectFaults).GetNextFeedsToFetch (int32 10) demoStore).2).2
    ∧ (∃ out rest, (iterate (storeQueries selectFaults)
          (storeRuntime selectFaults demoUnmarshal demoParseAny) id 10 (0 + 1)
          ((storeQueries selectFaults).GetNextFeedsToFetch (int32 10) demoStore).2).2
        = Event.GetNextFeedsToFetch (int32 10) out :: rest)
    ∧ (iterate (storeQueries selectFaults)
        (storeRuntime selectFaults demoUnmarshal demoParseAny) id 10 (0 + 2)
        demoStore).2.countP Event.isSelect = 0 + 2 :=
  tick_selection_error_skips (storeQueries selectFaults)
    (storeRuntime selectFaults demoUnmarshal demoParseAny) id 10 demoStore
    "dial tcp: connection refused" 0 (by decide)


/-! ## HashPassword -/

/-- C20 (the code at the failing input): HashPassword passes `bcrypt.DefaultCost`,
which is 10, to the library for every password, so the hash of `secret` is made
at cost 10 and differs from the hash at the cost 20 that the claim and the comment
above the function state. -/
theorem HashPassword_uses_default_cost :
    (∀ generate password,
        (HashPassword generate password).1
          = match generate password 10 with
            | .error err => (none, some err)
            | .ok hash => (some hash, none))
    ∧ (HashPassword costProbe "secret").1 = (some [10, 6], none)
    ∧ failure (costProbe "secret" 20) = none
    ∧ (HashPassword costProbe "secret").1 ≠ (some [20, 6], none) := by
  refine ⟨?_, by decide, by decide, by decide⟩
  intro generate password
  unfold HashPassword
  rw [show bcrypt.DefaultCost = 10 from rfl]
  cases generate password 10 <;> rfl


/-! ## Stale-first selection -/

theorem staleFirst_total (a b : Feed) : staleFirst a b = true ∨ staleFirst b a = true := by
  unfold staleFirst
  cases a.LastFetchedAt.Valid <;> cases b.LastFetchedAt.Valid <;>
    simp [Nat.le_total]

theorem staleFirst_trans (a b c : Feed) (hab : staleFirst a b = true)
    (hbc : staleFirst b c = true) : staleFirst a c = true := by
  unfold staleFirst at hab hbc ⊢
  cases ha : a.LastFetchedAt.Valid <;> cases hb : b.LastFetchedAt.Valid <;>
    cases hc : c.LastFetchedAt.Valid <;> simp_all
  exact le_trans hab hbc

theorem staleFirst_sorted (feeds : List Feed) :
    (feeds.insertionSort (fun a b => staleFirst a b = true)).Sorted
      (fun a b => staleFirst a b = true) := by
  haveI : IsTotal Feed (fun a b => staleFirst a b = true) := ⟨staleFirst_total⟩
  haveI : IsTrans Feed (fun a b => staleFirst a b = true) := ⟨staleFirst_trans⟩
  exact List.sorted_insertionSort _ feeds

/-- C13: on the store that selects stale-first, the batch of a tick whose selection
succeeds is made of up to K feeds of the store (K the limit `int32(K)`), ordered
so that a feed never fetched comes before a fetched one and an older
last_fetched_at before a newer one, and every feed left out is no staler than
every feed of the batch. In particular with K = 1, a feed A never fetched and a
feed B fetched before, in either order in the store, the worker of the tick is
dispatched for A. -/
theorem tick_selects_stale_first (flt : Faults)
    (unmarshal : Bytes → Except String RSSFeed) (parseAny : String → Except String Instant)
    (sched : List Feed → List Feed) (concurrency : Int) (s : Store)
    (hsel : flt.select = none) :
    (dispatched (tick (storeQueries flt) (storeRuntime flt unmarshal parseAny) sched
        concurrency s).2).length ≤ (int32 concurrency).toNat
    ∧ (dispatched (tick (storeQueries flt) (storeRuntime flt unmarshal parseAny) sched
        concurrency s).2).Sorted (fun a b => staleFirst a b = true)
    ∧ (∃ rest, (dispatched (tick (storeQueries flt) (storeRuntime flt unmarshal parseAny)
          sched concurrency s).2 ++ rest).Perm s.feeds
        ∧ ∀ a ∈ dispatched (tick (storeQueries flt) (storeRuntime flt unmarshal parseAny)
            sched concurrency s).2, ∀ b ∈ rest, staleFirst a b = true)
    ∧ (concurrency = 1 → ∀ a b : Feed, a.LastFetchedAt.Valid = false →
        b.LastFetchedAt.Valid = true → (s.feeds = [a, b] ∨ s.feeds = [b, a]) →
        dispatched (tick (storeQueries flt) (storeRuntime flt unmarshal parseAny) sched
          concurrency s).2 = [a]) := by
  have hd := tick_dispatched (storeQueries flt) (storeRuntime flt unmarshal parseAny) sched
    concurrency s
  have hok : ((storeQueries flt).GetNextFeedsToFetch (int32 concurrency) s).1
      = .ok ((s.feeds.insertionSort (fun a b => staleFirst a b = true)).take
          (int32 concurrency).toNat) := by
    simp only [storeQueries, Store.GetNextFeedsToFetch, hsel]
  rw [hok] at hd
  simp only at hd
  rw [hd]
  have hsorted := staleFirst_sorted s.feeds
  refine ⟨?_, ?_, ?_, ?_⟩
  · rw [List.length_take]
    exact Nat.min_le_left _ _
  · exact List.Pairwise.sublist (List.take_sublist _ _) hsorted
  · refine ⟨(s.feeds.insertionSort (fun a b => staleFirst a b = true)).drop
      (int32 concurrency).toNat, ?_, ?_⟩
    · rw [List.take_append_drop]
      exact List.perm_insertionSort _ _
    · have hsplit := hsorted
      rw [← List.take_append_drop (int32 concurrency).toNat
        (s.feeds.insertionSort (fun a b => staleFirst a b = true))] at hsplit
      exact (List.pairwise_append.mp hsplit).2.2
  · intro hK a b ha hb hfeeds
    subst hK
    have hab : staleFirst a b = true := by simp [staleFirst, ha]
    have hba : staleFirst b a = false := by simp [staleFirst, ha, hb]
    rw [show (int32 1).toNat = 1 from by decide]
    rcases hfeeds with h | h <;> rw [h] <;>
      simp [List.insertionSort, List.orderedInsert, hab, hba]

/-- C13, evaluated with K = 1 on the store where feed 2 was fetched an hour ago
and feed 1 never. -/
theorem tick_selects_stale_first_witness :
    dispatched (tick (storeQueries demoFaults)
        (storeRuntime demoFaults demoUnmarshal demoParseAny) id 1 staleStore).2
      = [demoFeed 1 "http://a"] :=
  (tick_selects_stale_first demoFaults demoUnmarshal demoParseAny id 1 staleStore rfl).2.2.2
    rfl (demoFeed 1 "http://a")
    { demoFeed 2 "http://b" with LastFetchedAt := { Time := 100, Valid := true } }
    rfl rfl (Or.inr rfl)


/-! ## Ticks do not overlap -/

theorem undone_set_same (t : Nat) (workers : List Goroutine) (i : Nat) (w w2 : Goroutine)
    (hi : workers[i]? = some w) (hsame : w2.tick = w.tick ∧ w2.done = w.done) :
    undone t (workers.set i w2) = undone t workers := by
  induction workers generalizing i with
  | nil => rfl
  | cons head rest ih =>
    cases i with
    | zero =>
      simp only [List.getElem?_cons_zero, Option.some.injEq] at hi
      subst hi
      simp only [List.set_cons_zero, undone, List.countP_cons, hsame.1, hsame.2]
    | succ j =>
      simp only [List.getElem?_cons_succ] at hi
      have := ih j hi
      simp only [undone, List.set_cons_succ, List.countP_cons] at this ⊢
      rw [this]

theorem undone_set_done (t : Nat) (workers : List Goroutine) (i : Nat) (w : Goroutine)
    (hi : workers[i]? = some w) (ht : w.tick = t) (hd : w.done = false) :
    undone t (workers.set i { w with done := true }) + 1 = undone t workers := by
  induction workers generalizing i with
  | nil => simp at hi
  | cons head rest ih =>
    cases i with
    | zero =>
      simp only [List.getElem?_cons_zero, Option.some.injEq] at hi
      subst hi
      simp [undone, List.countP_cons, ht, hd]
    | succ j =>
      simp only [List.getElem?_cons_succ] at hi
      have := ih j hi
      simp only [undone, List.set_cons_succ, List.countP_cons] at this ⊢
      omega

theorem undone_zero_of_done (t : Nat) (workers : List Goroutine)
    (h : ∀ w ∈ workers, w.done = true) : undone t workers = 0 := by
  unfold undone
  rw [List.countP_eq_zero]
  intro w hw
  simp [h w hw]

theorem done_of_undone_zero (t : Nat) (workers : List Goroutine)
    (h : undone t workers = 0) : ∀ w ∈ workers, w.tick = t → w.done = true := by
  unfold undone at h
  rw [List.countP_eq_zero] at h
  intro w hw ht
  have := h w hw
  simpa [ht] using this

theorem Pc.dispatch_counting (feeds : List Feed) :
    (Pc.dispatch feeds).counting = true ∧ (Pc.dispatch feeds).owed = 0 := by
  cases feeds <;> exact ⟨rfl, rfl⟩

theorem Machine.Inv.init : Machine.init.Inv :=
  { bound := fun w hw => by cases hw
    earlier := fun w hw => by cases hw
    idle := fun _ w hw => by cases hw
    counter := fun h => by cases h }

theorem mem_set_worker (workers : List Goroutine) (i : Nat) (w w2 x : Goroutine)
    (hi : workers[i]? = some w) (hx : x ∈ workers.set i w2) :
    w ∈ workers ∧ (x ∈ workers ∨ x = w2) :=
  ⟨List.getElem?_mem hi, List.mem_or_eq_of_mem_set hx⟩

/-- Every step of the machine keeps what holds in the states it reaches. -/
theorem Machine.Inv.step (a : Action) (m m1 : Machine) (hinv : m.Inv)
    (hstep : step a m = some m1) : m1.Inv := by
  cases a with
  | selected feeds =>
    simp only [RssAggregator.step, stepSelected] at hstep
    cases hpc : m.pc <;> rw [hpc] at hstep <;> dsimp only at hstep <;>
      first | (cases hstep; done) | skip
    simp only [Option.some.injEq] at hstep
    subst hstep
    have hdone := hinv.idle (by rw [hpc]; rfl)
    exact
      { bound := hinv.bound
        earlier := hinv.earlier
        idle := fun h => by
          simp only [(Pc.dispatch_counting feeds).1] at h
          cases h
        counter := fun _ => by
          simp only [(Pc.dispatch_counting feeds).2, undone_zero_of_done m.tick m.workers hdone]
          rfl }
  | failed =>
    simp only [RssAggregator.step, stepFailed] at hstep
    cases hpc : m.pc <;> rw [hpc] at hstep <;> dsimp only at hstep <;>
      first | (cases hstep; done) | skip
    simp only [Option.some.injEq] at hstep
    subst hstep
    have hdone := hinv.idle (by rw [hpc]; rfl)
    exact
      { bound := hinv.bound
        earlier := hinv.earlier
        idle := fun _ => hdone
        counter := fun h => by cases h }
  | add =>
    simp only [RssAggregator.step, stepAdd] at hstep
    cases hpc : m.pc <;> rw [hpc] at hstep <;> dsimp only at hstep <;>
      first | (cases hstep; done) | skip
    simp only [Option.some.injEq] at hstep
    subst hstep
    have hc := hinv.counter (by rw [hpc]; rfl)
    rw [hpc] at hc
    exact
      { bound := hinv.bound
        earlier := hinv.earlier
        idle := fun h => by cases h
        counter := fun _ => by
          simp only [Pc.owed] at hc ⊢
          omega }
  | spawn todo =>
    simp only [RssAggregator.step, stepSpawn] at hstep
    cases hpc : m.pc <;> rw [hpc] at hstep <;> dsimp only at hstep <;>
      first | (cases hstep; done) | skip
    simp only [Option.some.injEq] at hstep
    rename_i feed rest
    subst hstep
    have hc := hinv.counter (by rw [hpc]; rfl)
    rw [hpc] at hc
    exact
      { bound := fun w hw => by
          rcases List.mem_append.mp hw with h | h
          · exact hinv.bound w h
          · simp only [List.mem_singleton] at h
            rw [h]
        earlier := fun w hw hlt => by
          rcases List.mem_append.mp hw with h | h
          · exact hinv.earlier w h hlt
          · simp only [List.mem_singleton] at h
            rw [h] at hlt
            exact absurd hlt (Nat.lt_irrefl _)
        idle := fun h => by
          simp only [(Pc.dispatch_counting rest).1] at h
          cases h
        counter := fun _ => by
          have howed := (Pc.dispatch_counting rest).2
          simp only [Pc.owed] at hc
          simp only [howed, undone, List.countP_append, List.countP_singleton, decide_True,
            Bool.not_false, Bool.and_self, if_true] at hc ⊢
          push_cast
          omega }
  | waited =>
    simp only [RssAggregator.step, stepWaited] at hstep
    cases hpc : m.pc <;> rw [hpc] at hstep <;> dsimp only at hstep <;>
      first | cases hstep | skip
    by_cases hwg : m.wg = 0
    · rw [if_pos hwg] at hstep
      simp only [Option.some.injEq] at hstep
      subst hstep
      have hc := hinv.counter (by rw [hpc]; rfl)
      rw [hpc, hwg] at hc
      simp only [Pc.owed, add_zero] at hc
      have hzero : undone m.tick m.workers = 0 := by omega
      have hcur := done_of_undone_zero m.tick m.workers hzero
      have hall : ∀ w ∈ m.workers, w.done = true := by
        intro w hw
        rcases Nat.lt_or_eq_of_le (hinv.bound w hw) with hlt | heq
        · exact hinv.earlier w hw hlt
        · exact hcur w hw heq
      exact
        { bound := hinv.bound
          earlier := hinv.earlier
          idle := fun _ => hall
          counter := fun h => by cases h }
    · rw [if_neg hwg] at hstep
      cases hstep
  | fire =>
    simp only [RssAggregator.step, Option.some.injEq] at hstep
    subst hstep
    exact
      { bound := hinv.bound
        earlier := hinv.earlier
        idle := hinv.idle
        counter := hinv.counter }
  | received =>
    simp only [RssAggregator.step, stepReceived] at hstep
    cases hpc : m.pc <;> rw [hpc] at hstep <;> dsimp only at hstep <;>
      first | cases hstep | skip
    by_cases hp : m.pending = true
    · rw [if_pos hp] at hstep
      simp only [Option.some.injEq] at hstep
      subst hstep
      have hdone := hinv.idle (by rw [hpc]; rfl)
      exact
        { bound := fun w hw => Nat.le_succ_of_le (hinv.bound w hw)
          earlier := fun w hw _ => hdone w hw
          idle := fun _ => hdone
          counter := fun h => by cases h }
    · rw [if_neg hp] at hstep
      cases hstep
  | work i =>
    simp only [RssAggregator.step, stepWork] at hstep
    cases hi : m.workers[i]? with
    | none => rw [hi] at hstep; cases hstep
    | some w =>
      rw [hi] at hstep
      simp only at hstep
      by_cases hcond : w.done = false ∧ 0 < w.todo
      · rw [if_pos hcond] at hstep
        simp only [Option.some.injEq] at hstep
        subst hstep
        have hmem : ∀ x ∈ m.workers.set i { w with todo := w.todo - 1 },
            ∃ y ∈ m.workers, x.tick = y.tick ∧ x.done = y.done := by
          intro x hx
          obtain ⟨hw, h⟩ := mem_set_worker m.workers i w _ x hi hx
          rcases h with h | h
          · exact ⟨x, h, rfl, rfl⟩
          · exact ⟨w, hw, by rw [h], by rw [h]⟩
        exact
          { bound := fun x hx => by
              obtain ⟨y, hy, ht, _⟩ := hmem x hx
              rw [ht]
              exact hinv.bound y hy
            earlier := fun x hx hlt => by
              obtain ⟨y, hy, ht, hd⟩ := hmem x hx
              rw [hd]
              exact hinv.earlier y hy (by rw [← ht]; exact hlt)
            idle := fun h x hx => by
              obtain ⟨y, hy, _, hd⟩ := hmem x hx
              rw [hd]
              exact hinv.idle h y hy
            counter := fun h => by
              have hc := hinv.counter h
              simp only at hc ⊢
              rw [undone_set_same m.tick m.workers i w { w with todo := w.todo - 1 } hi
                ⟨rfl, rfl⟩]
              exact hc }
      · rw [if_neg hcond] at hstep
        cases hstep
  | finish i =>
    simp only [RssAggregator.step, stepFinish] at hstep
    cases hi : m.workers[i]? with
    | none => rw [hi] at hstep; cases hstep
    | some w =>
      rw [hi] at hstep
      simp only at hstep
      by_cases hcond : w.done = false ∧ w.todo = 0
      · rw [if_pos hcond] at hstep
        simp only [Option.some.injEq] at hstep
        subst hstep
        have hw : w ∈ m.workers := List.getElem?_mem hi
        have htick : w.tick = m.tick := by
          rcases Nat.lt_or_eq_of_le (hinv.bound w hw) with hlt | heq
          · have := hinv.earlier w hw hlt
            rw [hcond.1] at this
            cases this
          · exact heq
        have hcounting : m.pc.counting = true := by
          cases hk : m.pc.counting with
          | true => rfl
          | false =>
            have := hinv.idle hk w hw
            rw [hcond.1] at this
            cases this
        have hmem : ∀ x ∈ m.workers.set i { w with done := true },
            x.tick ≤ m.tick ∧ (x.done = true ∨ x ∈ m.workers) := by
          intro x hx
          obtain ⟨_, h⟩ := mem_set_worker m.workers i w _ x hi hx
          rcases h with h | h
          · exact ⟨hinv.bound x h, Or.inr h⟩
          · rw [h]
            exact ⟨hinv.bound w hw, Or.inl rfl⟩
        exact
          { bound := fun x hx => (hmem x hx).1
            earlier := fun x hx hlt => by
              rcases (hmem x hx).2 with h | h
              · exact h
              · exact hinv.earlier x h hlt
            idle := fun h => by
              simp only at h
              rw [hcounting] at h
              cases h
            counter := fun _ => by
              have hc := hinv.counter hcounting
              have hone := undone_set_done m.tick m.workers i w hi htick hcond.1
              simp only at hc ⊢
              rw [if_pos htick]
              omega }
      · rw [if_neg hcond] at hstep
        cases hstep

theorem Machine.Inv.run (actions : List Action) (m m1 : Machine) (hinv : m.Inv)
    (hrun : run actions m = some m1) : m1.Inv := by
  induction actions generalizing m with
  | nil =>
    simp only [RssAggregator.run, Option.some.injEq] at hrun
    rw [← hrun]
    exact hinv
  | cons a rest ih =>
    simp only [RssAggregator.run] at hrun
    cases hs : RssAggregator.step a m with
    | none => rw [hs] at hrun; cases hrun
    | some m2 =>
      rw [hs] at hrun
      exact ih m2 (Machine.Inv.step a m m2 hinv hs) hrun


/-- C12: in every state that StartScraping and its workers reach, under any
interleaving of their steps and however often the ticker fires meanwhile, every
worker dispatched in an earlier iteration of the loop has completed; and when the
scheduler stands before batch selection, every worker dispatched so far has
completed. So selection and dispatch of a tick begin only after all workers of
the tick before have returned. -/
theorem ticks_never_overlap (actions : List Action) (m : Machine)
    (h : run actions Machine.init = some m) :
    (∀ w ∈ m.workers, w.tick < m.tick → w.done = true)
    ∧ (m.pc = Pc.select → ∀ w ∈ m.workers, w.done = true) := by
  have hinv := Machine.Inv.run actions Machine.init m Machine.Inv.init h
  refine ⟨hinv.earlier, ?_⟩
  intro hpc
  exact hinv.idle (by rw [hpc]; rfl)

/-- C12, evaluated on a run in which the ticker fires twice during the first batch. -/
theorem ticks_never_overlap_witness :
    run demoActions Machine.init = some demoFinal
    ∧ (∀ w ∈ demoFinal.workers, w.tick < demoFinal.tick → w.done = true)
    ∧ (demoFinal.pc = Pc.select → ∀ w ∈ demoFinal.workers, w.done = true) :=
  ⟨by decide, ticks_never_overlap demoActions demoFinal (by decide)⟩


/-! ## Responses -/

/-- C23: RespondWithJSON first sets Content-Type to application/json; when the
payload marshals it then writes the given status code and the JSON as the body,
and when marshalling fails it writes the status 500 and no body. The calls that
RespondWithError(code, msg) makes on the response writer are those of
RespondWithJSON(code, errorResponse with Error = msg). -/
theorem RespondWithJSON_response (Marshal : Payload → Except String Bytes) (code : Int)
    (payload : Payload) (msg : String) :
    (∀ dat, Marshal payload = .ok dat →
      RespondWithJSON Marshal code payload
        = [Effect.Set "Content-Type" "application/json", Effect.WriteHeader code,
            Effect.Write dat])
    ∧ (∀ err, Marshal payload = .error err →
      RespondWithJSON Marshal code payload
        = [Effect.Set "Content-Type" "application/json",
            Effect.Error "Error marshalling JSON", Effect.WriteHeader 500])
    ∧ (RespondWithError Marshal code msg).filter Effect.isResponse
      = (RespondWithJSON Marshal code (Payload.errorResponse msg)).filter Effect.isResponse := by
  refine ⟨?_, ?_, ?_⟩
  · intro dat h
    simp only [RespondWithJSON, h]
  · intro err h
    simp only [RespondWithJSON, h]
  · unfold RespondWithError
    by_cases hc : code ≥ 500
    · simp only [hc, if_true, List.filter_append]
      rfl
    · simp only [hc, if_false, List.nil_append]

/-- C23, evaluated on a payload that marshals and on one that does not. -/
theorem RespondWithJSON_response_witness :
    RespondWithJSON demoMarshal 200 (Payload.status "ok")
        = [Effect.Set "Content-Type" "application/json", Effect.WriteHeader 200,
            Effect.Write [2, 2]]
    ∧ RespondWithJSON demoMarshal 200 (Payload.status "chan")
        = [Effect.Set "Content-Type" "application/json",
            Effect.Error "Error marshalling JSON", Effect.WriteHeader 500] :=
  ⟨(RespondWithJSON_response demoMarshal 200 (Payload.status "ok") "").1 [2, 2] rfl,
    (RespondWithJSON_response demoMarshal 200 (Payload.status "chan") "").2.1
      "json: unsupported type" rfl⟩

theorem RespondWithError_observed (Marshal : Payload → Except String Bytes) (code : Int)
    (msg : String) (hjson : ∀ m, failure (Marshal (Payload.errorResponse m)) = none) :
    calls (RespondWithError Marshal code msg) = []
      ∧ statuses (RespondWithError Marshal code msg) = [code] := by
  have h := hjson msg
  unfold RespondWithError RespondWithJSON
  cases hm : Marshal (Payload.errorResponse msg) with
  | error err => rw [hm] at h; simp [failure] at h
  | ok dat =>
    by_cases hc : code ≥ 500 <;>
      simp [hc, calls, statuses, Effect.called, Effect.status]

theorem TrimPrefix_eq_self (s pre : String) (hpre : pre.data ≠ []) :
    TrimPrefix s pre = s ↔ pre.data.isPrefixOf s.data = false := by
  unfold TrimPrefix
  cases hp : pre.data.isPrefixOf s.data with
  | false => simp
  | true =>
    simp only [if_true, Bool.true_eq_false, iff_false]
    intro heq
    have hlen := congrArg (fun t : String => t.data.length) heq
    simp only [List.length_drop] at hlen
    have hprefix : pre.data <+: s.data := List.isPrefixOf_iff_prefix.mp hp
    have hle := hprefix.length_le
    have hpos : 0 < pre.data.length := List.length_pos.mpr hpre
    omega


/-! ## MiddlewareAuth -/

theorem calls_append (a b : List Effect) : calls (a ++ b) = calls a ++ calls b := by
  simp [calls]

theorem statuses_append (a b : List Effect) :
    statuses (a ++ b) = statuses a ++ statuses b := by
  simp [statuses]

theorem Authenticate_observed {σ : Type} (auth : Authenticator σ) (tokenString : String) :
    calls (Authenticate auth tokenString).2 = []
      ∧ statuses (Authenticate auth tokenString).2 = [] := by
  unfold Authenticate
  cases auth.ParseWithClaims tokenString auth.JWTSecretKey with
  | error err => exact ⟨rfl, rfl⟩
  | ok token =>
    simp only
    split <;> exact ⟨rfl, rfl⟩

/-- What `MiddlewareAuth` does on a header that carries the `Bearer ` mark. -/
theorem MiddlewareAuth_bearer {σ : Type} (auth : Authenticator σ)
    (Marshal : Payload → Except String Bytes) (r : Request) (s : σ)
    (hb : ("Bearer ").data.isPrefixOf r.Authorization.data = true) :
    MiddlewareAuth auth Marshal r s
      = match Authenticate auth (TrimPrefix r.Authorization "Bearer ") with
        | ((_, some _), ev) =>
          (s, ev ++ Effect.Error "Invalid token"
            :: RespondWithError Marshal 401 "Invalid token")
        | ((userUUID, none), ev) =>
          match auth.Parse userUUID with
          | .error _ =>
            (s, ev ++ Effect.Error "Couldn't parse userUUID to uuid"
              :: RespondWithError Marshal 500 "Couldn't parse user UUID")
          | .ok uuid =>
            match auth.GetUserByID uuid s with
            | (.error err, s1) =>
              (s1, ev ++ Effect.GetUserByID uuid (some err)
                :: Effect.Error "Couldn't get user"
                :: RespondWithError Marshal 404 "Couldn't get user")
            | (.ok user, s1) =>
              (s1, ev ++ [Effect.GetUserByID uuid none, Effect.Handler user]) := by
  have hne : r.Authorization ≠ "" := by
    intro h
    rw [h] at hb
    revert hb
    decide
  have htrim : TrimPrefix r.Authorization "Bearer " ≠ r.Authorization := by
    intro h
    have := (TrimPrefix_eq_self r.Authorization "Bearer " (by decide)).mp h
    rw [hb] at this
    cases this
  unfold MiddlewareAuth
  simp only [hne, htrim, if_false]

/-- C21: MiddlewareAuth calls the wrapped handler at most once, and it calls it,
with the user that GetUserByID returned, exactly when the Authorization header
starts with `Bearer `, Authenticate accepts the token, the subject of the token
parses as a UUID and GetUserByID finds the user. In every other case the handler
is not called and the status written is 401 (header missing, `Bearer ` missing,
token refused), 500 (subject not a UUID) or 404 (user not found). The statuses
are those of RespondWithError, whose error structure always marshals. -/
theorem MiddlewareAuth_gate {σ : Type} (auth : Authenticator σ)
    (Marshal : Payload → Except String Bytes) (r : Request) (s : σ)
    (hjson : ∀ m, failure (Marshal (Payload.errorResponse m)) = none) :
    (calls (MiddlewareAuth auth Marshal r s).2).length ≤ 1
    ∧ (r.Authorization = "" →
        calls (MiddlewareAuth auth Marshal r s).2 = []
          ∧ statuses (MiddlewareAuth auth Marshal r s).2 = [401])
    ∧ (r.Authorization ≠ "" → ("Bearer ").data.isPrefixOf r.Authorization.data = false →
        calls (MiddlewareAuth auth Marshal r s).2 = []
          ∧ statuses (MiddlewareAuth auth Marshal r s).2 = [401])
    ∧ (("Bearer ").data.isPrefixOf r.Authorization.data = true →
        (Authenticate auth (TrimPrefix r.Authorization "Bearer ")).1.2 ≠ none →
        calls (MiddlewareAuth auth Marshal r s).2 = []
          ∧ statuses (MiddlewareAuth auth Marshal r s).2 = [401])
    ∧ (∀ sub, ("Bearer ").data.isPrefixOf r.Authorization.data = true →
        (Authenticate auth (TrimPrefix r.Authorization "Bearer ")).1 = (sub, none) →
        failure (auth.Parse sub) ≠ none →
        calls (MiddlewareAuth auth Marshal r s).2 = []
          ∧ statuses (MiddlewareAuth auth Marshal r s).2 = [500])
    ∧ (∀ sub id, ("Bearer ").data.isPrefixOf r.Authorization.data = true →
        (Authenticate auth (TrimPrefix r.Authorization "Bearer ")).1 = (sub, none) →
        auth.Parse sub = .ok id → failure (auth.GetUserByID id s).1 ≠ none →
        calls (MiddlewareAuth auth Marshal r s).2 = []
          ∧ statuses (MiddlewareAuth auth Marshal r s).2 = [404])
    ∧ (∀ sub id user, ("Bearer ").data.isPrefixOf r.Authorization.data = true →
        (Authenticate auth (TrimPrefix r.Authorization "Bearer ")).1 = (sub, none) →
        auth.Parse sub = .ok id → (auth.GetUserByID id s).1 = .ok user →
        calls (MiddlewareAuth auth Marshal r s).2 = [user]
          ∧ statuses (MiddlewareAuth auth Marshal r s).2 = []) := by
  have hresp := fun code msg => RespondWithError_observed Marshal code msg hjson
  have hauth := Authenticate_observed auth (TrimPrefix r.Authorization "Bearer ")
  have hmissing : r.Authorization = "" →
      calls (MiddlewareAuth auth Marshal r s).2 = []
        ∧ statuses (MiddlewareAuth auth Marshal r s).2 = [401] := by
    intro h
    simp only [MiddlewareAuth, h, if_true]
    exact ⟨(hresp 401 _).1, (hresp 401 _).2⟩
  have hformat : r.Authorization ≠ "" →
      ("Bearer ").data.isPrefixOf r.Authorization.data = false →
      calls (MiddlewareAuth auth Marshal r s).2 = []
        ∧ statuses (MiddlewareAuth auth Marshal r s).2 = [401] := by
    intro hne hb
    have htrim := (TrimPrefix_eq_self r.Authorization "Bearer " (by decide)).mpr hb
    simp only [MiddlewareAuth, hne, htrim, if_true, if_false]
    exact ⟨(hresp 401 _).1, (hresp 401 _).2⟩
  have hbearer : ("Bearer ").data.isPrefixOf r.Authorization.data = true →
      (calls (MiddlewareAuth auth Marshal r s).2 = []
          ∧ statuses (MiddlewareAuth auth Marshal r s).2 = [401]
          ∧ (Authenticate auth (TrimPrefix r.Authorization "Bearer ")).1.2 ≠ none)
      ∨ (∃ sub, (Authenticate auth (TrimPrefix r.Authorization "Bearer ")).1 = (sub, none)
          ∧ calls (MiddlewareAuth auth Marshal r s).2 = []
          ∧ statuses (MiddlewareAuth auth Marshal r s).2 = [500]
          ∧ failure (auth.Parse sub) ≠ none)
      ∨ (∃ sub id, (Authenticate auth (TrimPrefix r.Authorization "Bearer ")).1 = (sub, none)
          ∧ auth.Parse sub = .ok id
          ∧ calls (MiddlewareAuth auth Marshal r s).2 = []
          ∧ statuses (MiddlewareAuth auth Marshal r s).2 = [404]
          ∧ failure (auth.GetUserByID id s).1 ≠ none)
      ∨ (∃ sub id user,
          (Authenticate auth (TrimPrefix r.Authorization "Bearer ")).1 = (sub, none)
          ∧ auth.Parse sub = .ok id ∧ (auth.GetUserByID id s).1 = .ok user
          ∧ calls (MiddlewareAuth auth Marshal r s).2 = [user]
          ∧ statuses (MiddlewareAuth auth Marshal r s).2 = []) := by
    intro hb
    rw [MiddlewareAuth_bearer auth Marshal r s hb]
    rcases hk : Authenticate auth (TrimPrefix r.Authorization "Bearer ")
      with ⟨⟨sub, e⟩, ev⟩
    rw [hk] at hauth
    simp only at hauth
    cases e with
    | some err =>
      refine Or.inl ⟨?_, ?_, by simp⟩
      · simp only
        rw [show ∀ (x : Effect) (l : List Effect), x :: l = [x] ++ l from fun _ _ => rfl,
          calls_append, calls_append, hauth.1, (hresp 401 _).1]
        rfl
      · simp only
        rw [show ∀ (x : Effect) (l : List Effect), x :: l = [x] ++ l from fun _ _ => rfl,
          statuses_append, statuses_append, hauth.2, (hresp 401 _).2]
        rfl
    | none =>
      simp only
      cases hp : auth.Parse sub with
      | error err =>
        refine Or.inr (Or.inl ⟨sub, rfl, ?_, ?_, by rw [hp]; simp [failure]⟩)
        · simp only
          rw [show ∀ (x : Effect) (l : List Effect), x :: l = [x] ++ l from fun _ _ => rfl,
            calls_append, calls_append, hauth.1, (hresp 500 _).1]
          rfl
        · simp only
          rw [show ∀ (x : Effect) (l : List Effect), x :: l = [x] ++ l from fun _ _ => rfl,
            statuses_append, statuses_append, hauth.2, (hresp 500 _).2]
          rfl
      | ok id =>
        simp only
        rcases hg : auth.GetUserByID id s with ⟨res, s1⟩
        cases res with
        | error err =>
          refine Or.inr (Or.inr (Or.inl ⟨sub, id, rfl, hp, ?_, ?_,
            by rw [hg]; simp [failure]⟩))
          · simp only
            rw [show ∀ (x y : Effect) (l : List Effect), x :: y :: l = [x, y] ++ l
                from fun _ _ _ => rfl,
              calls_append, calls_append, hauth.1, (hresp 404 _).1]
            rfl
          · simp only
            rw [show ∀ (x y : Effect) (l : List Effect), x :: y :: l = [x, y] ++ l
                from fun _ _ _ => rfl,
              statuses_append, statuses_append, hauth.2, (hresp 404 _).2]
            rfl
        | ok user =>
          refine Or.inr (Or.inr (Or.inr ⟨sub, id, user, rfl, hp, by rw [hg], ?_, ?_⟩))
          · simp only
            rw [calls_append, hauth.1]
            rfl
          · simp only
            rw [statuses_append, hauth.2]
            rfl
  refine ⟨?_, hmissing, hformat, ?_, ?_, ?_, ?_⟩
  · by_cases hne : r.Authorization = ""
    · rw [(hmissing hne).1]
      exact Nat.zero_le 1
    · cases hb : ("Bearer ").data.isPrefixOf r.Authorization.data with
      | false =>
        rw [(hformat hne hb).1]
        exact Nat.zero_le 1
      | true =>
        rcases hbearer hb with ⟨h, _, _⟩ | ⟨_, _, h, _, _⟩ | ⟨_, _, _, _, h, _, _⟩
          | ⟨_, _, _, _, _, _, h, _⟩ <;> rw [h] <;> simp
  · intro hb hrefused
    rcases hbearer hb with ⟨h1, h2, _⟩ | ⟨sub, ha, _⟩ | ⟨sub, id, ha, _⟩
      | ⟨sub, id, user, ha, _⟩
    · exact ⟨h1, h2⟩
    · rw [ha] at hrefused; exact absurd rfl hrefused
    · rw [ha] at hrefused; exact absurd rfl hrefused
    · rw [ha] at hrefused; exact absurd rfl hrefused
  · intro sub hb ha hparse
    rcases hbearer hb with ⟨_, _, h⟩ | ⟨sub2, ha2, h1, h2, _⟩ | ⟨sub2, id, ha2, hp, _⟩
      | ⟨sub2, id, user, ha2, hp, _⟩
    · rw [ha] at h; exact absurd rfl h
    · exact ⟨h1, h2⟩
    · rw [ha] at ha2
      simp only [Prod.mk.injEq, and_true] at ha2
      subst ha2
      rw [hp] at hparse
      simp [failure] at hparse
    · rw [ha] at ha2
      simp only [Prod.mk.injEq, and_true] at ha2
      subst ha2
      rw [hp] at hparse
      simp [failure] at hparse
  · intro sub id hb ha hp hget
    rcases hbearer hb with ⟨_, _, h⟩ | ⟨sub2, ha2, _, _, h⟩ | ⟨sub2, id2, ha2, hp2, h1, h2, _⟩
      | ⟨sub2, id2, user, ha2, hp2, hg2, _⟩
    · rw [ha] at h; exact absurd rfl h
    · rw [ha] at ha2
      simp only [Prod.mk.injEq, and_true] at ha2
      subst ha2
      rw [hp] at h
      simp [failure] at h
    · exact ⟨h1, h2⟩
    · rw [ha] at ha2
      simp only [Prod.mk.injEq, and_true] at ha2
      subst ha2
      rw [hp] at hp2
      cases hp2
      rw [hg2] at hget
      simp [failure] at hget
  · intro sub id user hb ha hp hget
    rcases hbearer hb with ⟨_, _, h⟩ | ⟨sub2, ha2, _, _, h⟩ | ⟨sub2, id2, ha2, hp2, _, _, h⟩
      | ⟨sub2, id2, user2, ha2, hp2, hg2, h1, h2⟩
    · rw [ha] at h; exact absurd rfl h
    · rw [ha] at ha2
      simp only [Prod.mk.injEq, and_true] at ha2
      subst ha2
      rw [hp] at h
      simp [failure] at h
    · rw [ha] at ha2
      simp only [Prod.mk.injEq, and_true] at ha2
      subst ha2
      rw [hp] at hp2
      cases hp2
      rw [hget] at h
      simp [failure] at h
    · rw [ha] at ha2
      simp only [Prod.mk.injEq, and_true] at ha2
      subst ha2
      rw [hp] at hp2
      cases hp2
      rw [hget] at hg2
      cases hg2
      exact ⟨h1, h2⟩


/-- C21, evaluated on a request with a good token, where the handler is called
with the user of the store. -/
theorem MiddlewareAuth_gate_witness :
    calls (MiddlewareAuth demoAuth demoMarshal
        { Authorization := "Bearer good", limit := "" } ()).2 = [demoUser]
    ∧ statuses (MiddlewareAuth demoAuth demoMarshal
        { Authorization := "Bearer good", limit := "" } ()).2 = [] :=
  (MiddlewareAuth_gate demoAuth demoMarshal { Authorization := "Bearer good", limit := "" } ()
    (fun _ => rfl)).2.2.2.2.2.2 "7" 7 demoUser (by decide) (by decide) rfl rfl

/-! ## HandlerPostsGet -/

/-- C22 (the code at the failing input): HandlerPostsGet queries the store with
`int32(limit)`, where `limit` is the integer value of the parameter when it parses
and 10 otherwise. For `limit=2147483648`, which parses as an integer, the store is
queried with the limit -2147483648, and for `limit=4294967306` with the limit 10,
not with the integer value of the parameter. -/
theorem HandlerPostsGet_limit_wraps :
    (∀ (GetPostsForUser : GetPostsForUserParams → Unit → Except String (List Post) × Unit)
        (Marshal : Payload → Except String Bytes) (r : Request) (user : User),
        limits (HandlerPostsGet GetPostsForUser Marshal r user ()).2
          = [int32 (match Atoi r.limit with
              | .ok specifiedLimit => specifiedLimit
              | .error _ => 10)])
    ∧ (Atoi "2147483648").toOption = some 2147483648
    ∧ limits (HandlerPostsGet demoGetPosts demoMarshal
        { Authorization := "", limit := "2147483648" } demoUser ()).2 = [-2147483648]
    ∧ (Atoi "4294967306").toOption = some 4294967306
    ∧ limits (HandlerPostsGet demoGetPosts demoMarshal
        { Authorization := "", limit := "4294967306" } demoUser ()).2 = [10] := by
  refine ⟨?_, by decide, by decide, by decide, by decide⟩
  intro GetPostsForUser Marshal r user
  have hresp : ∀ code payload, limits (RespondWithJSON Marshal code payload) = [] := by
    intro code payload
    unfold RespondWithJSON
    cases Marshal payload <;> rfl
  have herr : ∀ code msg, limits (RespondWithError Marshal code msg) = [] := by
    intro code msg
    unfold RespondWithError
    have := hresp code (Payload.errorResponse msg)
    by_cases hc : code ≥ 500
    · simp only [hc, if_true]
      simp only [limits, List.filterMap_append] at this ⊢
      rw [this]
      rfl
    · simp only [hc, if_false, List.nil_append]
      exact this
  have hresp2 : ∀ code payload,
      List.filterMap Effect.queried (RespondWithJSON Marshal code payload) = [] := hresp
  have herr2 : ∀ code msg,
      List.filterMap Effect.queried (RespondWithError Marshal code msg) = [] := herr
  cases hatoi : Atoi r.limit with
  | ok n =>
    simp only [HandlerPostsGet, hatoi]
    split <;>
      simp only [limits, List.nil_append, List.filterMap_cons, Effect.queried, hresp2, herr2]
  | error e =>
    simp only [HandlerPostsGet, hatoi]
    by_cases hl : r.limit = ""
    · simp only [hl, ne_eq, not_true_eq_false, if_false]
      split <;>
        simp only [limits, List.nil_append, List.filterMap_cons, Effect.queried, hresp2,
          herr2]
    · simp only [hl, ne_eq, not_false_eq_true, if_true]
      split <;>
        simp only [limits, List.cons_append, List.nil_append, List.filterMap_cons,
          Effect.queried, hresp2, herr2]


/-! ## Balance of the WaitGroup -/

theorem adds_append (a b : List Event) : adds (a ++ b) = adds a ++ adds b := by
  simp [adds]

theorem adds_steps (steps : List Event) (h : ∀ e ∈ steps, e.isStep = true) :
    adds steps = [] := by
  unfold adds
  rw [List.filterMap_eq_nil_iff]
  intro e he
  have := h e he
  cases e <;> simp_all [Event.isStep, Event.added]

theorem adds_dispatch (feeds : List Feed) :
    adds (dispatch feeds) = List.replicate feeds.length 1 := by
  induction feeds with
  | nil => rfl
  | cons feed rest ih =>
    simp only [dispatch, List.flatMap_cons] at ih ⊢
    rw [adds_append, ih]
    rfl

theorem runWorkers_adds {σ : Type} (db : Queries σ) (rt : Runtime σ) (order : List Feed)
    (s : σ) : adds (runWorkers db rt order s).2 = [] := by
  induction order generalizing s with
  | nil => rfl
  | cons feed rest ih =>
    obtain ⟨steps, htrace, hsteps⟩ := ScrapeFeed_trace db rt feed s
    simp only [runWorkers, htrace, adds_append, ih, adds_steps steps hsteps]
    rfl

theorem tick_adds {σ : Type} (db : Queries σ) (rt : Runtime σ)
    (sched : List Feed → List Feed) (concurrency : Int) (s : σ) :
    adds (tick db rt sched concurrency s).2
      = List.replicate (dispatched (tick db rt sched concurrency s).2).length 1 := by
  rw [tick_dispatched]
  have h := tick_trace db rt sched concurrency s
  cases hsel : (db.GetNextFeedsToFetch (int32 concurrency) s).1 with
  | error err =>
    rw [h.1 err hsel]
    rfl
  | ok feeds =>
    rw [h.2 feeds hsel]
    simp only [adds_append, runWorkers_adds]
    rw [show adds (Event.GetNextFeedsToFetch (int32 concurrency) none
        :: Event.Info "Found %v feeds to fetch!" :: dispatch feeds)
        = adds (dispatch feeds) from rfl, adds_dispatch,
      show adds [Event.Wait] = [] from rfl]
    simp

theorem tick_dones {σ : Type} (db : Queries σ) (rt : Runtime σ)
    (sched : List Feed → List Feed) (concurrency : Int) (s : σ)
    (hsched : ∀ l, (sched l).Perm l) :
    dones (tick db rt sched concurrency s).2
      = (dispatched (tick db rt sched concurrency s).2).length := by
  rw [tick_dispatched]
  have h := tick_trace db rt sched concurrency s
  cases hsel : (db.GetNextFeedsToFetch (int32 concurrency) s).1 with
  | error err =>
    rw [h.1 err hsel]
    rfl
  | ok feeds =>
    rw [h.2 feeds hsel]
    simp only [dones_append, (runWorkers_trace db rt _ _).2, (hsched feeds).length_eq]
    rw [show dones (Event.GetNextFeedsToFetch (int32 concurrency) none
        :: Event.Info "Found %v feeds to fetch!" :: dispatch feeds)
        = dones (dispatch feeds) from rfl, dones_dispatch,
      show dones [Event.Wait] = 0 from rfl]
    omega

/-- Outside the dispatch and the wait, the counter of the WaitGroup is zero. -/
theorem Machine.rest_step (a : Action) (m m1 : Machine) (hinv : m.Inv)
    (hrest : m.pc.counting = false → m.wg = 0) (hstep : step a m = some m1) :
    m1.pc.counting = false → m1.wg = 0 := by
  intro hc
  cases a with
  | selected feeds =>
    simp only [RssAggregator.step, stepSelected] at hstep
    cases hpc : m.pc <;> rw [hpc] at hstep <;> dsimp only at hstep <;>
      first | (cases hstep; done) | skip
    simp only [Option.some.injEq] at hstep
    subst hstep
    rfl
  | failed =>
    simp only [RssAggregator.step, stepFailed] at hstep
    cases hpc : m.pc <;> rw [hpc] at hstep <;> dsimp only at hstep <;>
      first | (cases hstep; done) | skip
    simp only [Option.some.injEq] at hstep
    subst hstep
    exact hrest (by rw [hpc]; rfl)
  | add =>
    simp only [RssAggregator.step, stepAdd] at hstep
    cases hpc : m.pc <;> rw [hpc] at hstep <;> dsimp only at hstep <;>
      first | (cases hstep; done) | skip
    simp only [Option.some.injEq] at hstep
    subst hstep
    cases hc
  | spawn todo =>
    simp only [RssAggregator.step, stepSpawn] at hstep
    cases hpc : m.pc <;> rw [hpc] at hstep <;> dsimp only at hstep <;>
      first | (cases hstep; done) | skip
    rename_i feed rest
    simp only [Option.some.injEq] at hstep
    subst hstep
    simp only [(Pc.dispatch_counting rest).1] at hc
    cases hc
  | waited =>
    simp only [RssAggregator.step, stepWaited] at hstep
    cases hpc : m.pc <;> rw [hpc] at hstep <;> dsimp only at hstep <;>
      first | cases hstep | skip
    by_cases hwg : m.wg = 0
    · rw [if_pos hwg] at hstep
      simp only [Option.some.injEq] at hstep
      subst hstep
      exact hwg
    · rw [if_neg hwg] at hstep
      cases hstep
  | fire =>
    simp only [RssAggregator.step, Option.some.injEq] at hstep
    subst hstep
    exact hrest hc
  | received =>
    simp only [RssAggregator.step, stepReceived] at hstep
    cases hpc : m.pc <;> rw [hpc] at hstep <;> dsimp only at hstep <;>
      first | cases hstep | skip
    by_cases hp : m.pending = true
    · rw [if_pos hp] at hstep
      simp only [Option.some.injEq] at hstep
      subst hstep
      exact hrest (by rw [hpc]; rfl)
    · rw [if_neg hp] at hstep
      cases hstep
  | work i =>
    simp only [RssAggregator.step, stepWork] at hstep
    cases hi : m.workers[i]? with
    | none => rw [hi] at hstep; cases hstep
    | some w =>
      rw [hi] at hstep
      simp only at hstep
      by_cases hcond : w.done = false ∧ 0 < w.todo
      · rw [if_pos hcond] at hstep
        simp only [Option.some.injEq] at hstep
        subst hstep
        exact hrest hc
      · rw [if_neg hcond] at hstep
        cases hstep
  | finish i =>
    simp only [RssAggregator.step, stepFinish] at hstep
    cases hi : m.workers[i]? with
    | none => rw [hi] at hstep; cases hstep
    | some w =>
      rw [hi] at hstep
      simp only at hstep
      by_cases hcond : w.done = false ∧ w.todo = 0
      · rw [if_pos hcond] at hstep
        simp only [Option.some.injEq] at hstep
        subst hstep
        have hdone := hinv.idle hc w (List.getElem?_mem hi)
        rw [hcond.1] at hdone
        cases hdone
      · rw [if_neg hcond] at hstep
        cases hstep

theorem Machine.rest_run (actions : List Action) (m m1 : Machine) (hinv : m.Inv)
    (hrest : m.pc.counting = false → m.wg = 0) (hrun : run actions m = some m1) :
    m1.pc.counting = false → m1.wg = 0 := by
  induction actions generalizing m with
  | nil =>
    simp only [RssAggregator.run, Option.some.injEq] at hrun
    rw [← hrun]
    exact hrest
  | cons a rest ih =>
    simp only [RssAggregator.run] at hrun
    cases hs : RssAggregator.step a m with
    | none => rw [hs] at hrun; cases hrun
    | some m2 =>
      rw [hs] at hrun
      exact ih m2 (Machine.Inv.step a m m2 hinv hs)
        (Machine.rest_step a m m2 hinv hrest hs) hrun


/-- C24 (amended): in a tick StartScraping calls `wg.Add(1)` once per dispatched
feed and nothing else adds to the counter; every run of ScrapeFeed, whatever path
it takes (mark failure, fetch failure, completion), calls `wg.Done()` exactly once,
as its last step, so a tick holds as many `Done` as `Add`. In the interleaved
machine the counter is never negative, it equals the number of workers started in
the tick that have not returned (plus one between an `Add` and the start of its
worker), and once the dispatch loop is over, in `wg.Wait()`, it is zero exactly
when all workers of the tick have returned. -/
theorem waitgroup_balance {σ : Type} (db : Queries σ) (rt : Runtime σ)
    (sched : List Feed → List Feed) (concurrency : Int) (s w : σ) (feed : Feed)
    (actions : List Action) (m : Machine) (hsched : ∀ l, (sched l).Perm l)
    (hrun : run actions Machine.init = some m) :
    adds (tick db rt sched concurrency s).2
      = List.replicate (dispatched (tick db rt sched concurrency s).2).length 1
    ∧ dones (tick db rt sched concurrency s).2
      = (dispatched (tick db rt sched concurrency s).2).length
    ∧ dones (ScrapeFeed db rt feed w).2 = 1
    ∧ (∃ steps, (ScrapeFeed db rt feed w).2 = steps ++ [Event.Done] ∧ dones steps = 0)
    ∧ 0 ≤ m.wg
    ∧ (m.pc.counting = true → m.wg = (undone m.tick m.workers : Int) + m.pc.owed)
    ∧ (m.pc = Pc.wait → (m.wg = 0 ↔ ∀ g ∈ m.workers, g.done = true)) := by
  have hinv := Machine.Inv.run actions Machine.init m Machine.Inv.init hrun
  have hrest := Machine.rest_run actions Machine.init m Machine.Inv.init (fun _ => rfl) hrun
  obtain ⟨steps, htrace, hsteps⟩ := ScrapeFeed_trace db rt feed w
  have hzero := dones_steps steps hsteps
  refine ⟨tick_adds db rt sched concurrency s, tick_dones db rt sched concurrency s hsched,
    ?_, ⟨steps, htrace, hzero⟩, ?_, hinv.counter, ?_⟩
  · rw [htrace, dones_append, hzero]
    rfl
  · cases hc : m.pc.counting with
    | false =>
      rw [hrest hc]
    | true =>
      rw [hinv.counter hc]
      have howed : 0 ≤ m.pc.owed := by
        cases m.pc <;> simp [Pc.owed]
      omega
  · intro hpc
    have hc := hinv.counter (by rw [hpc]; rfl)
    rw [hpc] at hc
    simp only [Pc.owed, add_zero] at hc
    constructor
    · intro hwg
      have hz : undone m.tick m.workers = 0 := by omega
      intro g hg
      rcases Nat.lt_or_eq_of_le (hinv.bound g hg) with hlt | heq
      · exact hinv.earlier g hg hlt
      · exact done_of_undone_zero m.tick m.workers hz g hg heq
    · intro hall
      rw [hc, undone_zero_of_done m.tick m.workers hall]
      rfl

/-- C24 (amended), evaluated on a tick with two feeds and on a machine that waits
while one of its two workers has not returned. -/
theorem waitgroup_balance_witness :
    run waitingActions Machine.init = some waitingMachine
    ∧ adds (tick (storeQueries demoFaults) (storeRuntime demoFaults demoUnmarshal demoParseAny)
        id 10 demoStore).2
      = List.replicate (dispatched (tick (storeQueries demoFaults)
          (storeRuntime demoFaults demoUnmarshal demoParseAny) id 10 demoStore).2).length 1
    ∧ dones (tick (storeQueries demoFaults)
        (storeRuntime demoFaults demoUnmarshal demoParseAny) id 10 demoStore).2
      = (dispatched (tick (storeQueries demoFaults)
          (storeRuntime demoFaults demoUnmarshal demoParseAny) id 10 demoStore).2).length
    ∧ dones (ScrapeFeed (storeQueries demoFaults)
        (storeRuntime demoFaults demoUnmarshal demoParseAny) (demoFeed 2 "http://b")
        demoStore).2 = 1
    ∧ (∃ steps, (ScrapeFeed (storeQueries demoFaults)
          (storeRuntime demoFaults demoUnmarshal demoParseAny) (demoFeed 2 "http://b")
          demoStore).2 = steps ++ [Event.Done] ∧ dones steps = 0)
    ∧ 0 ≤ waitingMachine.wg
    ∧ (waitingMachine.pc.counting = true →
        waitingMachine.wg
          = (undone waitingMachine.tick waitingMachine.workers : Int) + waitingMachine.pc.owed)
    ∧ (waitingMachine.pc = Pc.wait →
        (waitingMachine.wg = 0 ↔ ∀ g ∈ waitingMachine.workers, g.done = true)) :=
  ⟨by decide,
    waitgroup_balance (storeQueries demoFaults)
      (storeRuntime demoFaults demoUnmarshal demoParseAny) id 10 demoStore demoStore
      (demoFeed 2 "http://b") waitingActions waitingMachine (fun l => List.Perm.refl l)
      (by decide)⟩

/-- C24 as stated fails inside the dispatch loop. Two feeds are selected; when the
worker of the first has returned before `wg.Add(1)` for the second, the counter is
zero although the second feed of the tick has no worker yet, let alone one that
has returned; and after that `wg.Add(1)` the counter is one although every worker
started so far has returned. -/
theorem waitgroup_balance_counterexample :
    run dispatchingActions Machine.init = some dispatchingMachine
    ∧ dispatchingMachine.wg = 0
    ∧ dispatchingMachine.pc = Pc.add (demoFeed 2 "http://b") []
    ∧ dispatchingMachine.workers.all (fun g => decide (g.feed ≠ demoFeed 2 "http://b")) = true
    ∧ run (dispatchingActions ++ [Action.add]) Machine.init = some owingMachine
    ∧ owingMachine.wg = 1
    ∧ (∀ g ∈ owingMachine.workers, g.done = true) := by
  decide

/-! ## Validity of the inserted fields -/

theorem ParsePubDate_valid {σ : Type} (rt : Runtime σ) (pubDate : String)
    (h : (ParsePubDate rt pubDate).1.2 = none) :
    (ParsePubDate rt pubDate).1.1.Valid = true ∧ failure (rt.ParseAny pubDate) = none := by
  unfold ParsePubDate at h ⊢
  cases hp : rt.ParseAny pubDate with
  | error err => rw [hp] at h; simp at h
  | ok t => exact ⟨rfl, rfl⟩

theorem acceptedContents_length (parseAny : String → Except String Instant) (feed : Feed)
    (items : List RSSItem) :
    (acceptedContents parseAny feed items).length = (items.filter (dated parseAny)).length := by
  have h := congrArg List.length (acceptedContents_links parseAny feed items)
  simpa using h

/-- C25: every insert that ScrapeFeed attempts has Description.Valid set, with the
description of its item whatever that is (the empty string included), and
PublishedAt.Valid set, and is for an item whose pubDate the parser accepts; the
worker makes as many attempts as the fetched document has such items, so an item
whose pubDate does not parse is passed over and never given to the store. -/
theorem ScrapeFeed_inserts_valid_fields {σ : Type} (db : Queries σ) (rt : Runtime σ)
    (feed : Feed) (s : σ) (arg : CreatePostParams)
    (harg : arg ∈ attempts (ScrapeFeed db rt feed s).2) :
    arg.Description.Valid = true
    ∧ arg.PublishedAt.Valid = true
    ∧ ∃ doc, (FetchFeed rt feed.Url (db.MarkFeedFetched feed.ID s).2).1 = (some doc, none)
        ∧ (∃ item ∈ doc.Channel.Item, dated rt.ParseAny item = true
            ∧ arg.Url = item.Link ∧ arg.Description.String = item.Description)
        ∧ (attempts (ScrapeFeed db rt feed s).2).length
          = (doc.Channel.Item.filter (dated rt.ParseAny)).length := by
  cases hm : failure (db.MarkFeedFetched feed.ID s).1 with
  | some err =>
    rw [ScrapeFeed_attempts_none db rt feed s (Or.inl (by rw [hm]; simp))] at harg
    cases harg
  | none =>
    rcases FetchFeed_cases rt feed.Url (db.MarkFeedFetched feed.ID s).2
      with ⟨doc, h1, _⟩ | ⟨err, msg, h1, _⟩
    · have hloop := ScrapeFeed_attempts_loop db rt feed s doc hm h1
      rw [hloop] at harg
      obtain ⟨item, hitem, hc⟩ := insertItems_carries db rt feed doc.Channel.Item _ arg harg
      obtain ⟨_, _, hurl, hdesc, hpub, hok⟩ := hc
      have hvalid := ParsePubDate_valid rt item.PubDate hok
      have hdated : dated rt.ParseAny item = true := by
        unfold dated
        cases hp : rt.ParseAny item.PubDate with
        | error e => rw [hp] at hvalid; simp [failure] at hvalid
        | ok t => rfl
      refine ⟨by rw [hdesc], by rw [hpub]; exact hvalid.1, doc, h1,
        ⟨item, hitem, hdated, hurl, by rw [hdesc]⟩, ?_⟩
      rw [hloop, ← acceptedContents_length rt.ParseAny feed,
        ← insertItems_attempts db rt feed doc.Channel.Item
          (FetchFeed rt feed.Url (db.MarkFeedFetched feed.ID s).2).2.1, List.length_map]
    · rw [ScrapeFeed_attempts_none db rt feed s
        (Or.inr (fun doc hd => by rw [h1] at hd; cases hd))] at harg
      cases harg

/-- C25, evaluated on the insert for the dated item, whose description is empty. -/
theorem ScrapeFeed_inserts_valid_fields_witness :
    (postParams (demoFeed 1 "http://a")
        { Title := "t", Link := "http://x/2", Description := "",
          PubDate := "Mon, 02 Jan 2006 15:04:05 GMT" }
        1000 102 102 { Time := 1136214245, Valid := true }).Description
      = { String := "", Valid := true }
    ∧ (postParams (demoFeed 1 "http://a")
        { Title := "t", Link := "http://x/2", Description := "",
          PubDate := "Mon, 02 Jan 2006 15:04:05 GMT" }
        1000 102 102 { Time := 1136214245, Valid := true }).PublishedAt.Valid = true
    ∧ (attempts (ScrapeFeed (storeQueries demoFaults)
        (storeRuntime demoFaults demoUnmarshal demoParseAny) (demoFeed 1 "http://a")
        demoStore).2).length = 1 :=
  ⟨rfl,
    (ScrapeFeed_inserts_valid_fields (storeQueries demoFaults)
      (storeRuntime demoFaults demoUnmarshal demoParseAny) (demoFeed 1 "http://a") demoStore
      (postParams (demoFeed 1 "http://a")
        { Title := "t", Link := "http://x/2", Description := "",
          PubDate := "Mon, 02 Jan 2006 15:04:05 GMT" }
        1000 102 102 { Time := 1136214245, Valid := true }) (by decide)).2.1,
    by decide⟩

end RssAggregator
